import Mathlib

/-!
# terraform-provider-guku: a shallow embedding of the provider's controllers

The development models `internal/provider` of the repository:

* `utils.go`: `StringValueOrNull`, `ValueStringOrNull`, `MinifyJSONString`
  (together with the `encoding/json` scanner that `json.Compact` runs);
* `platform_binding_resource.go`: `Create` and `Update` with their poll loop,
  and `Read`;
* `cluster_resource.go`: `Create`, `Read` and `Update`;
* `platform_data_source.go`: `Read` (together with `json.Unmarshal` into a
  `map[string]string`).

Go strings are Lean strings, Go errors are their message text, the remote API
client is a record of functions, and the host framework's request and response
objects are plain records.  Ghost counters record how many poll fetches were
issued and how long the operation slept.
-/

namespace Guku

/-! ## Host framework values -/

/-- The framework's `types.String`: a struct of two flags and a Go string.
The zero value of each field is the default, as in a Go composite literal. -/
structure TfString where
  Unknown : Bool := false
  Null : Bool := false
  Value : String := ""
deriving DecidableEq, Repr

/-- Go `types.String.IsNull`. -/
def TfString.IsNull (s : TfString) : Bool := s.Null

/-- Severity of a diagnostic. -/
inductive Severity where
  | error
  | warning
deriving DecidableEq, Repr

/-- A diagnostic returned to the host: severity, summary and detail text. -/
structure Diagnostic where
  severity : Severity
  summary : String
  detail : String
deriving DecidableEq, Repr

/-- Go `diag.Diagnostics`: an ordered list of diagnostics. -/
abbrev Diagnostics := List Diagnostic

/-- Go `Diagnostics.AddError(summary, detail)`. -/
def Diagnostics.AddError (ds : Diagnostics) (summary detail : String) : Diagnostics :=
  ds ++ [{ severity := .error, summary := summary, detail := detail }]

/-- Go `Diagnostics.HasError()`. -/
def Diagnostics.HasError (ds : Diagnostics) : Bool :=
  ds.any (fun d => d.severity == .error)

/-- The text `sub` occurs inside `text`. -/
def ContainsText (text sub : String) : Prop :=
  ∃ pre post : String, text = pre ++ sub ++ post

/-- The host-supplied `context.Context`, on a logical clock that counts the
remote fetches issued so far: `Done n` says that the context is already
cancelled when `n` fetches have been issued. -/
structure Context where
  Done : Nat → Bool

/-! ## `utils.go`: the tri-state helpers -/

/-- Go `StringValueOrNull(val *string) types.String`. -/
def StringValueOrNull (val : Option String) : TfString :=
  match val with
  | none => { Null := true }
  | some v => { Value := v }

/-- Go `ValueStringOrNull(val types.String) *string`. -/
def ValueStringOrNull (val : TfString) : Option String :=
  if val.IsNull then none else some val.Value

/-! ## The remote API client -/

/-- Go `guku.PlatformBindingStatusPending`. -/
def PlatformBindingStatusPending : String := "Pending"

/-- Go `guku.PlatformBindingStatusSucceeded`. -/
def PlatformBindingStatusSucceeded : String := "Succeeded"

/-- Go `guku.PlatformBindingStatusFailed`. -/
def PlatformBindingStatusFailed : String := "Failed"

/-- Go `guku.PlatformBindingStatusError`. -/
def PlatformBindingStatusError : String := "Error"

/-- The handle returned by the platform binding calls, with the values of its
getters. -/
structure PlatformBinding where
  PlatformBindingID : String
  PlatformConfigID : String
  PlatformID : String
  PlatformVersion : String
  Status : String
deriving DecidableEq, Repr

/-- The handle returned by `GetCluster`, with the values of its getters; `Ca`,
`Server` and `Context` are `*string`. -/
structure Cluster where
  ClusterID : String
  Name : String
  ApiVersion : String
  Ca : Option String
  Server : Option String
  Context : Option String
deriving DecidableEq, Repr

/-- A service of a platform, as returned inside the `GetPlatform` handle, with
the values of its getters. -/
structure PlatformService where
  PlatformServiceID : String
  Name : String
  Namespace : String
  ServiceID : String
  ServiceVersion : String
  Dependencies : List String
  Delete_dependencies : List String
deriving DecidableEq, Repr

/-- A config of a platform, as returned inside the `GetPlatform` handle;
`Config` is a JSON-encoded string. -/
structure PlatformConfig where
  PlatformConfigID : String
  Name : String
  Config : String
deriving DecidableEq, Repr

/-- The handle returned by `GetPlatform`, with the values of its getters;
`Description` and `CatalogedDate` are `*string`. -/
structure Platform where
  Name : String
  Description : Option String
  CatalogedDate : Option String
  MaxAPIVersion : String
  MinAPIVersion : String
  Services : List PlatformService
  Configs : List PlatformConfig
deriving DecidableEq, Repr

/-- The `*guku.Client` methods the controllers call.  The server's state moves
between calls, so `GetPlatformBinding` takes as first argument the number of
`GetPlatformBinding` calls already issued by the running operation.  The
arguments of `CreateCluster` and `UpdateCluster` are name, server, ca, token,
api version and context (after the id for `UpdateCluster`); `GetPlatform`
returns `none` for a nil handle.  A stub that is not about clusters or
platforms leaves the last three methods failing. -/
structure Client where
  CreatePlatformBinding : String → String → String → String → Except String PlatformBinding
  UpdatePlatformBinding : String → String → Option String → Option String →
    Except String PlatformBinding
  GetPlatformBinding : Nat → String → String → Except String PlatformBinding
  GetCluster : String → Except String Cluster
  CreateCluster : String → String → String → String → String → String →
    Except String Cluster := fun _ _ _ _ _ _ => .error "not stubbed"
  UpdateCluster : String → Option String → Option String → Option String → Option String →
    Option String → Option String → Except String Cluster :=
      fun _ _ _ _ _ _ _ => .error "not stubbed"
  GetPlatform : String → String → Except String (Option Platform) :=
    fun _ _ => .error "not stubbed"

/-! ## `platform_binding_resource.go` -/

/-- Go `PlatformBindingResourceModel`. -/
structure PlatformBindingResourceModel where
  PlatformBindingID : TfString
  ClusterID : TfString
  PlatformConfigID : TfString
  PlatformID : TfString
  PlatformVersion : TfString
  Status : TfString
deriving DecidableEq, Repr

/-- What `req.Plan.Get(ctx, &data)` yields: its diagnostics and the decoded
model. -/
structure PlanRequest where
  PlanDiagnostics : Diagnostics
  Plan : PlatformBindingResourceModel

/-- The local variables of the poll loop, with two ghost counters: the number
of `GetPlatformBinding` calls issued and the seconds slept. -/
structure PollState where
  attempts : Nat
  status : String
  fetches : Nat
  slept : Nat
deriving DecidableEq, Repr

/-- The poll loop of `Create` and `Update` (the two copies are the same text):
`for status == Pending && attempts <= 20 { fetch; status = ...; attempts++; sleep 30s }`.
A failed fetch leaves the function from inside the loop: `.error` carries the
upstream error and the locals at that point. -/
def pollLoop (client : Client) (clusterID bindingID : String) (st : PollState) :
    Except (String × PollState) PollState :=
  if st.status = PlatformBindingStatusPending ∧ st.attempts ≤ 20 then
    match client.GetPlatformBinding st.fetches clusterID bindingID with
    | .error err => .error (err, { st with fetches := st.fetches + 1 })
    | .ok pb =>
      pollLoop client clusterID bindingID
        { status := pb.Status, attempts := st.attempts + 1,
          fetches := st.fetches + 1, slept := st.slept + 30 }
  else .ok st
termination_by 21 - st.attempts
decreasing_by simp_wf; omega

/-- The observable result of one `Create` or `Update`: the response's
diagnostics, the state written by `resp.State.Set` (`none` when it was not
called), the last status observed (`none` when the submit failed), and the
ghost counters. -/
structure Run where
  Diagnostics : Diagnostics
  State : Option PlatformBindingResourceModel
  status : Option String
  fetches : Nat
  slept : Nat
deriving DecidableEq, Repr

/-- Go `PlatformBindingResource.Create`. -/
def PlatformBindingResource.Create (client : Client) (_ctx : Context) (req : PlanRequest) : Run :=
  let data := req.Plan
  let diags : Diagnostics := [] ++ req.PlanDiagnostics
  if diags.HasError then
    { Diagnostics := diags, State := none, status := none, fetches := 0, slept := 0 }
  else
    match client.CreatePlatformBinding data.ClusterID.Value data.PlatformID.Value
        data.PlatformVersion.Value data.PlatformConfigID.Value with
    | .error err =>
      { Diagnostics := diags.AddError "Client Error"
          ("Unable to create platform binding, got error: " ++ err),
        State := none, status := none, fetches := 0, slept := 0 }
    | .ok platformBinding =>
      let data := { data with PlatformBindingID := { Value := platformBinding.PlatformBindingID } }
      match pollLoop client data.ClusterID.Value data.PlatformBindingID.Value
          { attempts := 1, status := platformBinding.Status, fetches := 0, slept := 0 } with
      | .error (err, st) =>
        { Diagnostics := diags.AddError "Client Error"
            ("Unable to poll platform binding, got error: " ++ err),
          State := none, status := some st.status, fetches := st.fetches, slept := st.slept }
      | .ok st =>
        if st.status ≠ PlatformBindingStatusSucceeded then
          { Diagnostics := diags.AddError "Client Error"
              ("Unable to create platform binding, got status: " ++ st.status),
            State := none, status := some st.status, fetches := st.fetches, slept := st.slept }
        else
          let data := { data with Status := { Value := st.status } }
          { Diagnostics := diags, State := some data, status := some st.status,
            fetches := st.fetches, slept := st.slept }

/-- Go `PlatformBindingResource.Update`. -/
def PlatformBindingResource.Update (client : Client) (_ctx : Context) (req : PlanRequest) : Run :=
  let data := req.Plan
  let diags : Diagnostics := [] ++ req.PlanDiagnostics
  if diags.HasError then
    { Diagnostics := diags, State := none, status := none, fetches := 0, slept := 0 }
  else
    match client.UpdatePlatformBinding data.ClusterID.Value data.PlatformBindingID.Value
        (ValueStringOrNull data.PlatformConfigID) (ValueStringOrNull data.PlatformVersion) with
    | .error err =>
      { Diagnostics := diags.AddError "Client Error"
          ("Unable to update platform binding, got error: " ++ err),
        State := none, status := none, fetches := 0, slept := 0 }
    | .ok platformBinding =>
      match pollLoop client data.ClusterID.Value data.PlatformBindingID.Value
          { attempts := 1, status := platformBinding.Status, fetches := 0, slept := 0 } with
      | .error (err, st) =>
        { Diagnostics := diags.AddError "Client Error"
            ("Unable to poll platform binding, got error: " ++ err),
          State := none, status := some st.status, fetches := st.fetches, slept := st.slept }
      | .ok st =>
        if st.status ≠ PlatformBindingStatusSucceeded then
          { Diagnostics := diags.AddError "Client Error"
              ("Unable to update platform binding, got status: " ++ st.status),
            State := none, status := some st.status, fetches := st.fetches, slept := st.slept }
        else
          let data := { data with Status := { Value := st.status } }
          { Diagnostics := diags, State := some data, status := some st.status,
            fetches := st.fetches, slept := st.slept }

/-! ## `encoding/json`: the scanner run by `json.Compact`

`MinifyJSONString` calls `json.Compact` of the Go standard library.  The
scanner reads its input unit by unit and keeps the next state function in the
field `step`; here the state functions are the constructors of `Step` and
`Scanner.run` dispatches on them.  The input of the scanner is a Go string
read byte by byte.  It is modelled as the list of the characters of a Lean
string: every byte of a multi-byte UTF-8 sequence is at least `0x80`, and each
state function treats all such bytes alike (it stays where it is inside a
string literal and reports an error anywhere else), so the characters of a
text are kept, dropped or rejected exactly as its bytes are. -/

/-- The scanner's state functions (`stateBeginValue`, `stateInString`, ...). -/
inductive Step where
  | BeginValueOrEmpty | BeginValue | BeginStringOrEmpty | BeginString
  | EndValue | EndTop
  | InString | InStringEsc | InStringEscU | InStringEscU1 | InStringEscU12 | InStringEscU123
  | Neg | S1 | S0 | Dot | Dot0 | E | ESign | E0
  | T | Tr | Tru | F | Fa | Fal | Fals | N | Nu | Nul
  | Error
deriving DecidableEq, Repr

/-- The entries of the scanner's `parseState` stack. -/
inductive ParseState where
  | parseObjectKey
  | parseObjectValue
  | parseArrayValue
deriving DecidableEq, Repr

/-- A `*json.SyntaxError`: an invalid character with the context in which it
was met, or the end of the input inside a value. -/
inductive SyntaxError where
  | invalidCharacter (c : Char) (context : String)
  | unexpectedEnd
deriving DecidableEq, Repr

/-- The `scanner` struct.  `parseState` is the Go slice: the top of the stack
is its last element. -/
structure Scanner where
  step : Step
  endTop : Bool
  parseState : List ParseState
  err : Option SyntaxError
deriving DecidableEq, Repr

def scanContinue : Nat := 0
def scanBeginLiteral : Nat := 1
def scanBeginObject : Nat := 2
def scanObjectKey : Nat := 3
def scanObjectValue : Nat := 4
def scanEndObject : Nat := 5
def scanBeginArray : Nat := 6
def scanArrayValue : Nat := 7
def scanEndArray : Nat := 8
def scanSkipSpace : Nat := 9
def scanEnd : Nat := 10
def scanError : Nat := 11

def maxNestingDepth : Nat := 10000

/-- Go `newScanner` followed by `reset`. -/
def newScanner : Scanner :=
  { step := .BeginValue, endTop := false, parseState := [], err := none }

/-- Go `isSpace(c)`. -/
def isSpace (c : Char) : Bool :=
  decide (c ≤ ' ') && (c == ' ' || c == '\t' || c == '\r' || c == '\n')

/-- The test `'1' <= c && c <= '9'`. -/
def isDigit19 (c : Char) : Bool := decide ('1' ≤ c) && decide (c ≤ '9')

/-- The test `'0' <= c && c <= '9'`. -/
def isDigit (c : Char) : Bool := decide ('0' ≤ c) && decide (c ≤ '9')

/-- The test for a hexadecimal digit in the `\u` escape states. -/
def isHex (c : Char) : Bool :=
  (decide ('0' ≤ c) && decide (c ≤ '9')) || (decide ('a' ≤ c) && decide (c ≤ 'f')) ||
    (decide ('A' ≤ c) && decide (c ≤ 'F'))

/-- Go `scanner.error(c, context)`. -/
def Scanner.error (s : Scanner) (c : Char) (context : String) : Scanner × Nat :=
  ({ s with step := .Error, err := some (.invalidCharacter c context) }, scanError)

/-- Go `scanner.pushParseState(c, newParseState, successState)`. -/
def Scanner.pushParseState (s : Scanner) (c : Char) (newParseState : ParseState)
    (successState : Nat) : Scanner × Nat :=
  let s := { s with parseState := s.parseState ++ [newParseState] }
  if s.parseState.length ≤ maxNestingDepth then (s, successState)
  else s.error c "exceeded max depth"

/-- Go `scanner.popParseState()`. -/
def Scanner.popParseState (s : Scanner) : Scanner :=
  let n := s.parseState.length - 1
  let s := { s with parseState := s.parseState.take n }
  if n = 0 then { s with step := .EndTop, endTop := true }
  else { s with step := .EndValue }

/-- The assignment `s.parseState[n-1] = ps` for `n = len(s.parseState)`. -/
def Scanner.setTop (s : Scanner) (ps : ParseState) : Scanner :=
  { s with parseState := s.parseState.take (s.parseState.length - 1) ++ [ps] }

/-- Go `stateEndTop`. -/
def stateEndTop (s : Scanner) (c : Char) : Scanner × Nat :=
  if !isSpace c then ((s.error c "after top-level value").1, scanEnd)
  else (s, scanEnd)

/-- Go `stateEndValue`. -/
def stateEndValue (s : Scanner) (c : Char) : Scanner × Nat :=
  let n := s.parseState.length
  if n = 0 then
    stateEndTop { s with step := .EndTop, endTop := true } c
  else if isSpace c then
    ({ s with step := .EndValue }, scanSkipSpace)
  else
    match s.parseState.getLast? with
    | some .parseObjectKey =>
      if c = ':' then
        ({ s.setTop .parseObjectValue with step := .BeginValue }, scanObjectKey)
      else s.error c "after object key"
    | some .parseObjectValue =>
      if c = ',' then
        ({ s.setTop .parseObjectKey with step := .BeginString }, scanObjectValue)
      else if c = '}' then (s.popParseState, scanEndObject)
      else s.error c "after object key:value pair"
    | some .parseArrayValue =>
      if c = ',' then ({ s with step := .BeginValue }, scanArrayValue)
      else if c = ']' then (s.popParseState, scanEndArray)
      else s.error c "after array element"
    | none => s.error c ""

/-- Go `stateBeginValue`. -/
def stateBeginValue (s : Scanner) (c : Char) : Scanner × Nat :=
  if isSpace c then (s, scanSkipSpace)
  else if c = '{' then
    Scanner.pushParseState { s with step := .BeginStringOrEmpty } c .parseObjectKey
      scanBeginObject
  else if c = '[' then
    Scanner.pushParseState { s with step := .BeginValueOrEmpty } c .parseArrayValue
      scanBeginArray
  else if c = '"' then ({ s with step := .InString }, scanBeginLiteral)
  else if c = '-' then ({ s with step := .Neg }, scanBeginLiteral)
  else if c = '0' then ({ s with step := .S0 }, scanBeginLiteral)
  else if c = 't' then ({ s with step := .T }, scanBeginLiteral)
  else if c = 'f' then ({ s with step := .F }, scanBeginLiteral)
  else if c = 'n' then ({ s with step := .N }, scanBeginLiteral)
  else if isDigit19 c then ({ s with step := .S1 }, scanBeginLiteral)
  else s.error c "looking for beginning of value"

/-- Go `stateBeginValueOrEmpty`. -/
def stateBeginValueOrEmpty (s : Scanner) (c : Char) : Scanner × Nat :=
  if isSpace c then (s, scanSkipSpace)
  else if c = ']' then stateEndValue s c
  else stateBeginValue s c

/-- Go `stateBeginString`. -/
def stateBeginString (s : Scanner) (c : Char) : Scanner × Nat :=
  if isSpace c then (s, scanSkipSpace)
  else if c = '"' then ({ s with step := .InString }, scanBeginLiteral)
  else s.error c "looking for beginning of object key string"

/-- Go `stateBeginStringOrEmpty`. -/
def stateBeginStringOrEmpty (s : Scanner) (c : Char) : Scanner × Nat :=
  if isSpace c then (s, scanSkipSpace)
  else if c = '}' then stateEndValue (s.setTop .parseObjectValue) c
  else stateBeginString s c

/-- Go `stateInString`. -/
def stateInString (s : Scanner) (c : Char) : Scanner × Nat :=
  if c = '"' then ({ s with step := .EndValue }, scanContinue)
  else if c = '\\' then ({ s with step := .InStringEsc }, scanContinue)
  else if c.toNat < 0x20 then s.error c "in string literal"
  else (s, scanContinue)

/-- Go `stateInStringEsc`. -/
def stateInStringEsc (s : Scanner) (c : Char) : Scanner × Nat :=
  if c = 'b' ∨ c = 'f' ∨ c = 'n' ∨ c = 'r' ∨ c = 't' ∨ c = '\\' ∨ c = '/' ∨ c = '"' then
    ({ s with step := .InString }, scanContinue)
  else if c = 'u' then ({ s with step := .InStringEscU }, scanContinue)
  else s.error c "in string escape code"

/-- The common body of the four states `stateInStringEscU`, `...U1`, `...U12`,
`...U123`: a hexadecimal digit leads to `next`. -/
def stateInStringEscHex (next : Step) (s : Scanner) (c : Char) : Scanner × Nat :=
  if isHex c then ({ s with step := next }, scanContinue)
  else s.error c "in \\u hexadecimal character escape"

/-- Go `state0`. -/
def state0 (s : Scanner) (c : Char) : Scanner × Nat :=
  if c = '.' then ({ s with step := .Dot }, scanContinue)
  else if c = 'e' ∨ c = 'E' then ({ s with step := .E }, scanContinue)
  else stateEndValue s c

/-- Go `state1`. -/
def state1 (s : Scanner) (c : Char) : Scanner × Nat :=
  if isDigit c then ({ s with step := .S1 }, scanContinue)
  else state0 s c

/-- Go `stateNeg`. -/
def stateNeg (s : Scanner) (c : Char) : Scanner × Nat :=
  if c = '0' then ({ s with step := .S0 }, scanContinue)
  else if isDigit19 c then ({ s with step := .S1 }, scanContinue)
  else s.error c "in numeric literal"

/-- Go `stateDot`. -/
def stateDot (s : Scanner) (c : Char) : Scanner × Nat :=
  if isDigit c then ({ s with step := .Dot0 }, scanContinue)
  else s.error c "after decimal point in numeric literal"

/-- Go `stateDot0`. -/
def stateDot0 (s : Scanner) (c : Char) : Scanner × Nat :=
  if isDigit c then (s, scanContinue)
  else if c = 'e' ∨ c = 'E' then ({ s with step := .E }, scanContinue)
  else stateEndValue s c

/-- Go `stateESign`. -/
def stateESign (s : Scanner) (c : Char) : Scanner × Nat :=
  if isDigit c then ({ s with step := .E0 }, scanContinue)
  else s.error c "in exponent of numeric literal"

/-- Go `stateE`. -/
def stateE (s : Scanner) (c : Char) : Scanner × Nat :=
  if c = '+' ∨ c = '-' then ({ s with step := .ESign }, scanContinue)
  else stateESign s c

/-- Go `stateE0`. -/
def stateE0 (s : Scanner) (c : Char) : Scanner × Nat :=
  if isDigit c then (s, scanContinue)
  else stateEndValue s c

/-- The common body of the literal states `stateT`, `stateTr`, ..., `stateNul`:
the one expected character leads to `next`, any other is an error with the
state's own context text. -/
def stateLiteral (expected : Char) (next : Step) (context : String) (s : Scanner) (c : Char) :
    Scanner × Nat :=
  if c = expected then ({ s with step := next }, scanContinue)
  else s.error c context

/-- Go `stateInStringEscU`. -/
def stateInStringEscU : Scanner → Char → Scanner × Nat :=
  stateInStringEscHex .InStringEscU1

/-- Go `stateInStringEscU1`. -/
def stateInStringEscU1 : Scanner → Char → Scanner × Nat :=
  stateInStringEscHex .InStringEscU12

/-- Go `stateInStringEscU12`. -/
def stateInStringEscU12 : Scanner → Char → Scanner × Nat :=
  stateInStringEscHex .InStringEscU123

/-- Go `stateInStringEscU123`. -/
def stateInStringEscU123 : Scanner → Char → Scanner × Nat :=
  stateInStringEscHex .InString

/-- Go `stateT`. -/
def stateT : Scanner → Char → Scanner × Nat :=
  stateLiteral 'r' .Tr "in literal true (expecting 'r')"

/-- Go `stateTr`. -/
def stateTr : Scanner → Char → Scanner × Nat :=
  stateLiteral 'u' .Tru "in literal true (expecting 'u')"

/-- Go `stateTru`. -/
def stateTru : Scanner → Char → Scanner × Nat :=
  stateLiteral 'e' .EndValue "in literal true (expecting 'e')"

/-- Go `stateF`. -/
def stateF : Scanner → Char → Scanner × Nat :=
  stateLiteral 'a' .Fa "in literal false (expecting 'a')"

/-- Go `stateFa`. -/
def stateFa : Scanner → Char → Scanner × Nat :=
  stateLiteral 'l' .Fal "in literal false (expecting 'l')"

/-- Go `stateFal`. -/
def stateFal : Scanner → Char → Scanner × Nat :=
  stateLiteral 's' .Fals "in literal false (expecting 's')"

/-- Go `stateFals`. -/
def stateFals : Scanner → Char → Scanner × Nat :=
  stateLiteral 'e' .EndValue "in literal false (expecting 'e')"

/-- Go `stateN`. -/
def stateN : Scanner → Char → Scanner × Nat :=
  stateLiteral 'u' .Nu "in literal null (expecting 'u')"

/-- Go `stateNu`. -/
def stateNu : Scanner → Char → Scanner × Nat :=
  stateLiteral 'l' .Nul "in literal null (expecting 'l')"

/-- Go `stateNul`. -/
def stateNul : Scanner → Char → Scanner × Nat :=
  stateLiteral 'l' .EndValue "in literal null (expecting 'l')"

/-- Go `stateError`. -/
def stateError (s : Scanner) (_c : Char) : Scanner × Nat :=
  (s, scanError)

/-- The call `s.step(s, c)`: the state function held in `s.step`, applied. -/
def Scanner.run (s : Scanner) (c : Char) : Scanner × Nat :=
  match s.step with
  | .BeginValueOrEmpty => stateBeginValueOrEmpty s c
  | .BeginValue => stateBeginValue s c
  | .BeginStringOrEmpty => stateBeginStringOrEmpty s c
  | .BeginString => stateBeginString s c
  | .EndValue => stateEndValue s c
  | .EndTop => stateEndTop s c
  | .InString => stateInString s c
  | .InStringEsc => stateInStringEsc s c
  | .InStringEscU => stateInStringEscU s c
  | .InStringEscU1 => stateInStringEscU1 s c
  | .InStringEscU12 => stateInStringEscU12 s c
  | .InStringEscU123 => stateInStringEscU123 s c
  | .Neg => stateNeg s c
  | .S1 => state1 s c
  | .S0 => state0 s c
  | .Dot => stateDot s c
  | .Dot0 => stateDot0 s c
  | .E => stateE s c
  | .ESign => stateESign s c
  | .E0 => stateE0 s c
  | .T => stateT s c
  | .Tr => stateTr s c
  | .Tru => stateTru s c
  | .F => stateF s c
  | .Fa => stateFa s c
  | .Fal => stateFal s c
  | .Fals => stateFals s c
  | .N => stateN s c
  | .Nu => stateNu s c
  | .Nul => stateNul s c
  | .Error => stateError s c

/-- Go `scanner.eof()`. -/
def Scanner.eof (s : Scanner) : Scanner × Nat :=
  if s.err.isSome then (s, scanError)
  else if s.endTop then (s, scanEnd)
  else
    let s := (s.run ' ').1
    if s.endTop then (s, scanEnd)
    else
      let s := if s.err.isNone then { s with err := some .unexpectedEnd } else s
      (s, scanError)

/-- The `for i, c := range src` loop of `compact` (with `escape` false), run
on the rest of `src` from index `i`: the scanner, `start` and the buffer
`dst`.  A byte whose scan code is at least `scanSkipSpace` is dropped by
flushing `src[start:i]` and moving `start` past it; `scanError` breaks. -/
def compactLoop (src : List Char) :
    List Char → Nat → Scanner → Nat → List Char → Scanner × Nat × List Char
  | [], _, scan, start, dst => (scan, start, dst)
  | c :: rest, i, scan, start, dst =>
    let r := scan.run c
    if r.2 ≥ scanSkipSpace then
      if r.2 = scanError then (r.1, start, dst)
      else
        let dst := if start < i then dst ++ (src.drop start).take (i - start) else dst
        compactLoop src rest (i + 1) r.1 (i + 1) dst
    else compactLoop src rest (i + 1) r.1 start dst

/-- Go `json.Compact(dst, src)` on an empty buffer: the compacted text, or the
scanner's error. -/
def compact (src : List Char) : Except SyntaxError (List Char) :=
  let (scan, start, dst) := compactLoop src src 0 newScanner 0 []
  let e := scan.eof
  if e.2 = scanError then
    .error (e.1.err.getD .unexpectedEnd)
  else
    .ok (if start < src.length then dst ++ src.drop start else dst)

/-- The loop of `checkValid`, which `json.Valid` runs: the first `scanError`
ends it. -/
def checkValidLoop : List Char → Scanner → Scanner × Bool
  | [], scan => (scan, true)
  | c :: rest, scan =>
    let r := scan.run c
    if r.2 = scanError then (r.1, false) else checkValidLoop rest r.1

/-- Go `json.Valid(data)`: the scanner accepts the whole text. -/
def jsonValid (data : List Char) : Bool :=
  let r := checkValidLoop data newScanner
  r.2 && decide (r.1.eof.2 ≠ scanError)

/-- Go `MinifyJSONString(val string) string`; `.error err` is `panic(err)`. -/
def MinifyJSONString (val : String) : Except SyntaxError String :=
  match compact val.data with
  | .error err => .error err
  | .ok out => .ok (String.mk out)

/-- The position of a scan with respect to string literals: outside of them,
inside one, or inside one right after a backslash. -/
inductive StripMode where
  | outside | inString | escaped
deriving DecidableEq, Repr

/-- The position after reading `c`. -/
def StripMode.next (m : StripMode) (c : Char) : StripMode :=
  match m with
  | .outside => if c = '"' then .inString else .outside
  | .inString => if c = '"' then .outside else if c = '\\' then .escaped else .inString
  | .escaped => .inString

/-- The text with every insignificant whitespace character removed: a space,
tab, line feed or carriage return outside string literals is dropped, every
other character is kept, in order. -/
def stripInsignificant : StripMode → List Char → List Char
  | _, [] => []
  | m, c :: rest =>
    if m = .outside ∧ (c = ' ' ∨ c = '\t' ∨ c = '\n' ∨ c = '\r') then
      stripInsignificant (m.next c) rest
    else c :: stripInsignificant (m.next c) rest

/-- The string `val` without its insignificant whitespace. -/
def withoutInsignificantWhitespace (val : String) : String :=
  String.mk (stripInsignificant .outside val.data)

/-- Where a scanner state stands with respect to string literals. -/
def Step.mode : Step → StripMode
  | .InString | .InStringEscU | .InStringEscU1 | .InStringEscU12 | .InStringEscU123 => .inString
  | .InStringEsc => .escaped
  | _ => .outside

/-- The states in which a number may end. -/
def Step.numEnd : Step → Bool
  | .S1 | .S0 | .Dot0 | .E0 => true
  | _ => false

/-- A scanner that has not met an error. -/
def Scanner.Ok (s : Scanner) : Prop := s.err = none ∧ s.step ≠ .Error

/-- A scanner that has met an error. -/
def Scanner.Errored (s : Scanner) : Prop := s.err.isSome = true ∧ s.step = .Error

/-- The outcome of one scanner call from a state standing at `m`: either the
scanner goes on, the call's code is at least `scanSkipSpace` exactly for a
whitespace character outside string literals, and the new state stands where
`m.next c` says; or the scanner has met an error. -/
def StepSpec (m : StripMode) (r : Scanner × Nat) (c : Char) : Prop :=
  (r.1.Ok ∧ r.2 ≠ scanError ∧
    (r.2 ≥ scanSkipSpace ↔ (m = .outside ∧ isSpace c = true)) ∧
    r.1.step.mode = m.next c) ∨ r.1.Errored

/-- The pure reading of the loop of `compact`: the scanner at the end, whether
the loop ran to the end of the text (no `scanError`), and the characters
kept. -/
def scanKept : List Char → Scanner → Scanner × Bool × List Char
  | [], scan => (scan, true, [])
  | c :: rest, scan =>
    let r := scan.run c
    if r.2 = scanError then (r.1, false, [])
    else
      let k := scanKept rest r.1
      (k.1, k.2.1, if r.2 ≥ scanSkipSpace then k.2.2 else c :: k.2.2)

/-- The scanner `t`, reading a text without its insignificant whitespace,
stands for the scanner `s` reading the text itself: they are equal, or `s` has
dropped whitespace after a value that `t` has not yet seen ended. -/
def Sim (s t : Scanner) : Prop :=
  s = t ∨
  (s.step = .EndValue ∧ s.parseState ≠ [] ∧ t.step.numEnd = true ∧
    t = { s with step := t.step }) ∨
  (s.step = .EndTop ∧ s.endTop = true ∧ s.parseState = [] ∧ t.parseState = [] ∧
    (t.step.numEnd = true ∨ t.step = .EndValue) ∧ t.err = none)

/-! ## JSON values

The value a JSON text denotes (RFC 8259), used to say when two texts "parse to
the same JSON value".  Numbers are kept as a decimal mantissa and exponent
with the trailing zeros of the fraction removed; strings are decoded. -/

/-- A JSON value. -/
inductive JValue where
  | null
  | bool (b : Bool)
  | number (mantissa : Int) (exponent : Int)
  | string (s : List Char)
  | array (items : List JValue)
  | object (members : List (List Char × JValue))

/-- Drop the leading insignificant whitespace. -/
def skipWhitespace : List Char → List Char
  | [] => []
  | c :: rest =>
    if c = ' ' ∨ c = '\t' ∨ c = '\n' ∨ c = '\r' then skipWhitespace rest else c :: rest

/-- The leading decimal digits of a text, as numbers, and the rest. -/
def takeDigits : List Char → List Nat × List Char
  | [] => ([], [])
  | c :: rest =>
    if '0' ≤ c ∧ c ≤ '9' then
      let r := takeDigits rest
      ((c.toNat - '0'.toNat) :: r.1, r.2)
    else ([], c :: rest)

/-- The number written by a list of decimal digits. -/
def digitsValue (ds : List Nat) : Nat :=
  ds.foldl (fun acc d => 10 * acc + d) 0

/-- The digits of a fraction without its trailing zeros. -/
def dropTrailingZeros (ds : List Nat) : List Nat :=
  (ds.reverse.dropWhile (fun d => d == 0)).reverse

/-- Read a JSON number (after an optional minus sign has been noted in
`negative`): integer part, optional fraction, optional exponent. -/
def parseNumber (negative : Bool) (cs : List Char) : Option (JValue × List Char) :=
  let (intDigits, rest) := takeDigits cs
  if intDigits = [] ∨ (intDigits.length > 1 ∧ intDigits.head? = some 0) then none
  else
    let (fracDigits, rest, fracOk) :=
      match rest with
      | '.' :: rest' =>
        let r := takeDigits rest'
        (r.1, r.2, !r.1.isEmpty)
      | _ => ([], rest, true)
    let (exp, rest, expOk) : Int × List Char × Bool :=
      match rest with
      | 'e' :: '+' :: rest' | 'E' :: '+' :: rest' =>
        let r := takeDigits rest'
        ((digitsValue r.1 : Int), r.2, !r.1.isEmpty)
      | 'e' :: '-' :: rest' | 'E' :: '-' :: rest' =>
        let r := takeDigits rest'
        (-(digitsValue r.1 : Int), r.2, !r.1.isEmpty)
      | 'e' :: rest' | 'E' :: rest' =>
        let r := takeDigits rest'
        ((digitsValue r.1 : Int), r.2, !r.1.isEmpty)
      | _ => (0, rest, true)
    if fracOk && expOk then
      let frac := dropTrailingZeros fracDigits
      let m : Int := digitsValue (intDigits ++ frac)
      some (.number (if negative then -m else m) (exp - frac.length), rest)
    else none

/-- The value of a hexadecimal digit. -/
def hexValue (c : Char) : Option Nat :=
  if '0' ≤ c ∧ c ≤ '9' then some (c.toNat - '0'.toNat)
  else if 'a' ≤ c ∧ c ≤ 'f' then some (c.toNat - 'a'.toNat + 10)
  else if 'A' ≤ c ∧ c ≤ 'F' then some (c.toNat - 'A'.toNat + 10)
  else none

/-- The character an escape sequence of one letter stands for. -/
def decodeEscape (e : Char) : Option Char :=
  if e = '"' then some '"' else if e = '\\' then some '\\' else if e = '/' then some '/'
  else if e = 'b' then some (Char.ofNat 8) else if e = 'f' then some (Char.ofNat 12)
  else if e = 'n' then some '\n' else if e = 'r' then some '\r'
  else if e = 't' then some '\t' else none

/-- The number written by four hexadecimal digits. -/
def hexValue4 (a b c d : Char) : Option Nat :=
  match hexValue a, hexValue b, hexValue c, hexValue d with
  | some a, some b, some c, some d => some (((a * 16 + b) * 16 + c) * 16 + d)
  | _, _, _, _ => none

/-- The code point of a surrogate pair: `r` a high surrogate and `low` a low
surrogate. -/
def surrogatePair (r : Nat) (low : Option Nat) : Option Nat :=
  match low with
  | some r1 =>
    if 0xD800 ≤ r ∧ r < 0xDC00 ∧ 0xDC00 ≤ r1 ∧ r1 < 0xE000 then
      some ((r - 0xD800) * 1024 + (r1 - 0xDC00) + 0x10000)
    else none
  | none => none

/-- Read the body of a string literal, after its opening quote, decoding the
escapes, up to and including the closing quote.  A `\u` escape of a high
surrogate followed by a `\u` escape of a low surrogate stands for one
character; a surrogate that is not part of such a pair stands for U+FFFD, as
in Go. -/
def parseStringBody : List Char → Option (List Char × List Char)
  | [] => none
  | '"' :: rest => some ([], rest)
  | '\\' :: 'u' :: a :: b :: c :: d :: '\\' :: 'u' :: e :: f :: g :: h :: rest =>
    match hexValue4 a b c d with
    | none => none
    | some r =>
      match surrogatePair r (hexValue4 e f g h) with
      | some code =>
        match parseStringBody rest with
        | some (s, rest') => some (Char.ofNat code :: s, rest')
        | none => none
      | none =>
        match parseStringBody ('\\' :: 'u' :: e :: f :: g :: h :: rest) with
        | some (s, rest') =>
          some ((if 0xD800 ≤ r ∧ r < 0xE000 then Char.ofNat 0xFFFD else Char.ofNat r) :: s, rest')
        | none => none
  | '\\' :: 'u' :: a :: b :: c :: d :: rest =>
    match hexValue4 a b c d, parseStringBody rest with
    | some r, some (s, rest') =>
      some ((if 0xD800 ≤ r ∧ r < 0xE000 then Char.ofNat 0xFFFD else Char.ofNat r) :: s, rest')
    | _, _ => none
  | '\\' :: e :: rest =>
    match decodeEscape e, parseStringBody rest with
    | some ch, some (s, rest') => some (ch :: s, rest')
    | _, _ => none
  | c :: rest =>
    if c.toNat < 0x20 then none
    else
      match parseStringBody rest with
      | some (s, rest') => some (c :: s, rest')
      | none => none

/-- What is being read: a value, the rest of an array after `[` or after an
item, the rest of an object after `{` or after a member. -/
inductive ParseGoal where
  | value
  | items (first : Bool)
  | members (first : Bool)

/-- The result of reading towards a goal. -/
inductive Parsed where
  | value (v : JValue)
  | items (vs : List JValue)
  | members (ms : List (List Char × JValue))

/-- Read a JSON value, the items of an array or the members of an object;
`fuel` bounds the nesting and the number of items. -/
def parseGoal : Nat → ParseGoal → List Char → Option (Parsed × List Char)
  | 0, _, _ => none
  | fuel + 1, .value, cs =>
    match skipWhitespace cs with
    | 'n' :: 'u' :: 'l' :: 'l' :: rest => some (.value .null, rest)
    | 't' :: 'r' :: 'u' :: 'e' :: rest => some (.value (.bool true), rest)
    | 'f' :: 'a' :: 'l' :: 's' :: 'e' :: rest => some (.value (.bool false), rest)
    | '"' :: rest =>
      match parseStringBody rest with
      | some (s, rest') => some (.value (.string s), rest')
      | none => none
    | '[' :: rest =>
      match parseGoal fuel (.items true) rest with
      | some (.items vs, rest') => some (.value (.array vs), rest')
      | _ => none
    | '{' :: rest =>
      match parseGoal fuel (.members true) rest with
      | some (.members ms, rest') => some (.value (.object ms), rest')
      | _ => none
    | '-' :: rest =>
      match parseNumber true rest with
      | some (v, rest') => some (.value v, rest')
      | none => none
    | rest =>
      match parseNumber false rest with
      | some (v, rest') => some (.value v, rest')
      | none => none
  | fuel + 1, .items first, cs =>
    match skipWhitespace cs, first with
    | ']' :: rest, true => some (.items [], rest)
    | rest, _ =>
      match parseGoal fuel .value rest with
      | some (.value v, rest') =>
        match skipWhitespace rest' with
        | ',' :: rest'' =>
          match parseGoal fuel (.items false) rest'' with
          | some (.items vs, rest3) => some (.items (v :: vs), rest3)
          | _ => none
        | ']' :: rest'' => some (.items [v], rest'')
        | _ => none
      | _ => none
  | fuel + 1, .members first, cs =>
    match skipWhitespace cs, first with
    | '}' :: rest, true => some (.members [], rest)
    | '"' :: rest, _ =>
      match parseStringBody rest with
      | some (key, rest') =>
        match skipWhitespace rest' with
        | ':' :: rest'' =>
          match parseGoal fuel .value rest'' with
          | some (.value v, rest3) =>
            match skipWhitespace rest3 with
            | ',' :: rest4 =>
              match parseGoal fuel (.members false) rest4 with
              | some (.members ms, rest5) => some (.members ((key, v) :: ms), rest5)
              | _ => none
            | '}' :: rest4 => some (.members [(key, v)], rest4)
            | _ => none
          | _ => none
        | _ => none
      | none => none
    | _, _ => none

/-- The JSON value denoted by a text, when the text is one JSON value
surrounded by optional whitespace. -/
def parseJSON (text : String) : Option JValue :=
  match parseGoal (text.length + 1) .value text.data with
  | some (.value v, rest) => if skipWhitespace rest = [] then some v else none
  | _ => none

/-! ## Go maps and `json.Unmarshal` into `map[string]string` -/

/-- A Go map with string keys, as the list of its entries; `set` keeps each
key at most once. -/
structure GoMap (α : Type) where
  entries : List (String × α)
deriving DecidableEq, Repr

/-- The empty map `map[string]T{}`. -/
def GoMap.empty {α : Type} : GoMap α := { entries := [] }

/-- The assignment `m[key] = value`. -/
def GoMap.set {α : Type} (m : GoMap α) (key : String) (value : α) : GoMap α :=
  { entries := m.entries.filter (fun e => e.1 != key) ++ [(key, value)] }

/-- The lookup `m[key]`, with `none` for a missing key. -/
def GoMap.get {α : Type} (m : GoMap α) (key : String) : Option α :=
  (m.entries.find? (fun e => e.1 == key)).map (fun e => e.2)

/-- What `json.Unmarshal` stores for a member of the object when the target is
`map[string]string`: the decoded string, or the zero value for a member that
is not a string (the type error is recorded and decoding goes on). -/
def memberString : JValue → String
  | .string s => String.mk s
  | _ => ""

/-- Go `json.Unmarshal(data, &parsedData)` with `parsedData` a nil
`map[string]string`, read for the map it leaves behind (its error is dropped
by the caller): a text that is not valid JSON or not an object leaves the map
nil, which ranges like the empty map; an object assigns its members in
order, so the last member of a name wins. -/
def jsonUnmarshalStringMap (data : String) : GoMap String :=
  if jsonValid data.data then
    match parseJSON data with
    | some (.object members) =>
      members.foldl (fun m member => m.set (String.mk member.1) (memberString member.2))
        GoMap.empty
    | _ => GoMap.empty
  else GoMap.empty

/-- The text is a JSON object whose members, in order, have the given names
and string values. -/
def EncodesStringMembers (text : String) (members : List (String × String)) : Prop :=
  jsonValid text.data = true ∧
  parseJSON text = some (.object (members.map (fun m => (m.1.data, JValue.string m.2.data))))

/-- The value of `key` in the mapping an object with these members encodes:
that of the last member named `key`. -/
def encodedValue (members : List (String × String)) (key : String) : Option String :=
  (members.reverse.find? (fun m => m.1 == key)).map (fun m => m.2)

/-- What the host sees of a run that got past the submit: `s` is the last
observed status; state is written exactly when `s` is `Succeeded`, and then
with that status and without a new diagnostic; otherwise one error diagnostic
naming `s` is appended to the plan's diagnostics and no state is written. -/
def SettledOn (req : PlanRequest) (r : Run) (s : String) : Prop :=
  r.status = some s ∧
  (r.State.isSome = true ↔ s = "Succeeded") ∧
  (∀ d, r.State = some d → d.Status = { Value := "Succeeded" }) ∧
  (s = "Succeeded" → r.Diagnostics = req.PlanDiagnostics) ∧
  (s ≠ "Succeeded" → r.State = none ∧
    ∃ detail, r.Diagnostics =
        req.PlanDiagnostics ++ [{ severity := .error, summary := "Client Error", detail := detail }] ∧
      ContainsText detail s)

/-- The status the controller holds after `n` fetches that all returned: the
submit's status for `n = 0`, else the status of fetch number `n`. -/
def observedAfter (client : Client) (cid bid : String) (submitted : PlatformBinding)
    (n : Nat) : Option String :=
  match n with
  | 0 => some submitted.Status
  | m + 1 =>
    match client.GetPlatformBinding m cid bid with
    | .ok pb => some pb.Status
    | .error _ => none

/-- What the host sees of a run that a failed remote call ended: no state, and
one `Client Error` diagnostic carrying the upstream text `err`. -/
def AbortedWith (req : PlanRequest) (r : Run) (err : String) : Prop :=
  r.State = none ∧
  ∃ detail, r.Diagnostics =
      req.PlanDiagnostics ++ [{ severity := .error, summary := "Client Error", detail := detail }] ∧
    ContainsText detail err

/-- The number of fetches, among the first `n` of a run, that were issued when
the context was already cancelled. -/
def fetchesAfterCancel (ctx : Context) (n : Nat) : Nat :=
  (List.range n).countP ctx.Done

/-- A stub handle with the given status. -/
def stubBinding (status : String) : PlatformBinding :=
  { PlatformBindingID := "PB-1", PlatformConfigID := "cfg", PlatformID := "p",
    PlatformVersion := "1", Status := status }

/-- A stub cluster handle without optional fields. -/
def stubCluster : Cluster :=
  { ClusterID := "C-1", Name := "k1", ApiVersion := "v1", Ca := none, Server := none,
    Context := none }

/-- A stub client: the submit calls answer `submit`, fetch number `n + 1`
answers `polls n`; an answer is a status or an error text. -/
def stubClient (submit : Except String String) (polls : Nat → Except String String) : Client :=
  { CreatePlatformBinding := fun _ _ _ _ => submit.map stubBinding
    UpdatePlatformBinding := fun _ _ _ _ => submit.map stubBinding
    GetPlatformBinding := fun n _ _ => (polls n).map stubBinding
    GetCluster := fun _ => .ok stubCluster }

/-- A stub plan, decoded without diagnostics. -/
def stubRequest : PlanRequest :=
  { PlanDiagnostics := []
    Plan := { PlatformBindingID := { Value := "PB-1" }, ClusterID := { Value := "C-1" },
              PlatformConfigID := { Value := "cfg" }, PlatformID := { Value := "p" },
              PlatformVersion := { Value := "1" }, Status := { Unknown := true } } }

/-- A context that is never cancelled. -/
def background : Context := { Done := fun _ => false }

/-- A context cancelled once `n` fetches have been issued. -/
def cancelledFrom (n : Nat) : Context := { Done := fun t => decide (n ≤ t) }

/-- A stub client whose submit returns `Pending`, whose first `k` fetches
return `Pending` and whose later fetches return `Succeeded`. -/
def pendingThenSucceeded (k : Nat) : Client :=
  stubClient (.ok "Pending") (fun n => if n < k then .ok "Pending" else .ok "Succeeded")

/-- A stub client whose submit returns `Pending`, whose first two fetches
return `Pending` and whose third fetch fails. -/
def failingThirdFetch : Client :=
  stubClient (.ok "Pending") (fun n => if n < 2 then .ok "Pending" else .error "boom")

/-- A stub client whose submit returns `Pending` and whose every fetch returns
`Pending`. -/
def alwaysPending : Client :=
  stubClient (.ok "Pending") (fun _ => .ok "Pending")

/-- The ways the polling of a run can have ended: the budget of 20 fetches is
spent, or the status held at the end is not `Pending` (this covers a run that
never polled), or the last fetch issued failed. -/
def PollingEnded (client : Client) (r : Run) : Prop :=
  r.fetches ≤ 20 ∧
  (r.fetches = 20 ∨ r.status ≠ some "Pending" ∨
    ∃ cid bid e, 0 < r.fetches ∧ client.GetPlatformBinding (r.fetches - 1) cid bid = .error e)

/-! ## `cluster_resource.go` -/

/-- Go `ClusterResourceModel`. -/
structure ClusterResourceModel where
  ClusterID : TfString
  Name : TfString
  Token : TfString
  ApiVersion : TfString
  Ca : TfString
  Server : TfString
  Context : TfString
deriving DecidableEq, Repr

/-- What `req.State.Get(ctx, &data)` yields: its diagnostics and the decoded
prior state. -/
structure ClusterStateRequest where
  StateDiagnostics : Diagnostics
  State : ClusterResourceModel

/-- The response of a cluster operation that returned: its diagnostics and
the state written by `resp.State.Set` (`none` when it was not called). -/
structure ClusterRun where
  Diagnostics : Diagnostics
  State : Option ClusterResourceModel
deriving DecidableEq, Repr

/-- Go `ClusterResource.Read`; `.error err` is the `panic(err)` of
`MinifyJSONString`. -/
def ClusterResource.Read (client : Client) (_ctx : Context) (req : ClusterStateRequest) :
    Except SyntaxError ClusterRun :=
  let data := req.State
  let diags : Diagnostics := [] ++ req.StateDiagnostics
  if diags.HasError then
    .ok { Diagnostics := diags, State := none }
  else
    match client.GetCluster data.ClusterID.Value with
    | .error err =>
      .ok { Diagnostics := diags.AddError "Client Error"
              ("Unable to read cluster, got error: " ++ err),
            State := none }
    | .ok cluster =>
      let data := { data with Name := { Value := cluster.Name } }
      let data := { data with ApiVersion := { Value := cluster.ApiVersion } }
      let data := { data with Ca := StringValueOrNull cluster.Ca }
      let data := { data with Server := StringValueOrNull cluster.Server }
      let data := { data with Context := StringValueOrNull cluster.Context }
      match MinifyJSONString data.Context.Value with
      | .error err => .error err
      | .ok minified =>
        let data := { data with Context := { data.Context with Value := minified } }
        .ok { Diagnostics := diags, State := some data }

/-- A stub client whose `GetCluster` returns `cluster`. -/
def clusterClient (cluster : Cluster) : Client :=
  { CreatePlatformBinding := fun _ _ _ _ => .error "unused"
    UpdatePlatformBinding := fun _ _ _ _ => .error "unused"
    GetPlatformBinding := fun _ _ _ => .error "unused"
    GetCluster := fun _ => .ok cluster }

/-- A stub prior state of a cluster, decoded without diagnostics. -/
def stubClusterState : ClusterStateRequest :=
  { StateDiagnostics := []
    State := { ClusterID := { Value := "C-1" }, Name := { Value := "k1" },
               Token := { Value := "T" }, ApiVersion := { Value := "v1" },
               Ca := { Null := true }, Server := { Null := true },
               Context := { Null := true } } }

/-- A stub cluster whose context is the given text. -/
def clusterWithContext (context : String) : Cluster :=
  { stubCluster with Context := some context }

/-! ## `platform_binding_resource.go`: `Read` -/

/-- What `req.State.Get(ctx, &data)` yields for a platform binding: its
diagnostics and the decoded prior state. -/
structure BindingStateRequest where
  StateDiagnostics : Diagnostics
  State : PlatformBindingResourceModel

/-- The response of `PlatformBindingResource.Read`: its diagnostics and the
state written by `resp.State.Set` (`none` when it was not called). -/
structure BindingRead where
  Diagnostics : Diagnostics
  State : Option PlatformBindingResourceModel
deriving DecidableEq, Repr

/-- Go `PlatformBindingResource.Read`; its one fetch is the first
`GetPlatformBinding` call of the operation. -/
def PlatformBindingResource.Read (client : Client) (_ctx : Context)
    (req : BindingStateRequest) : BindingRead :=
  let data := req.State
  let diags : Diagnostics := [] ++ req.StateDiagnostics
  if diags.HasError then
    { Diagnostics := diags, State := none }
  else
    match client.GetPlatformBinding 0 data.ClusterID.Value data.PlatformBindingID.Value with
    | .error err =>
      { Diagnostics := diags.AddError "Client Error"
          ("Unable to read platform binding, got error: " ++ err),
        State := none }
    | .ok platformBinding =>
      let data := { data with PlatformConfigID := { Value := platformBinding.PlatformConfigID } }
      let data := { data with PlatformID := { Value := platformBinding.PlatformID } }
      let data := { data with PlatformVersion := { Value := platformBinding.PlatformVersion } }
      let data := { data with Status := { Value := platformBinding.Status } }
      { Diagnostics := diags, State := some data }

/-! ## `cluster_resource.go`: `Create` and `Update` -/

/-- A write request as the remote API receives it: the arguments of
`CreateCluster` (plain strings) or of `UpdateCluster` (an id and nullable
strings). -/
inductive ClusterWrite where
  | create (name server ca token apiVersion context : String)
  | update (id : String) (name server ca token apiVersion context : Option String)
deriving DecidableEq, Repr

/-- What `req.Plan.Get(ctx, &data)` yields for a cluster: its diagnostics and
the decoded plan. -/
structure ClusterPlanRequest where
  PlanDiagnostics : Diagnostics
  Plan : ClusterResourceModel

/-- The observable result of a cluster `Create` or `Update`: the response's
diagnostics, the state written (`none` when `resp.State.Set` was not called),
and two ghost fields: the write request issued to the remote API (`none` when
none was issued) and the seconds slept. -/
structure ClusterWriteRun where
  Diagnostics : Diagnostics
  State : Option ClusterResourceModel
  sent : Option ClusterWrite
  slept : Nat
deriving DecidableEq, Repr

/-- Go `ClusterResource.Create`. -/
def ClusterResource.Create (client : Client) (_ctx : Context) (req : ClusterPlanRequest) :
    ClusterWriteRun :=
  let data := req.Plan
  let diags : Diagnostics := [] ++ req.PlanDiagnostics
  if diags.HasError then
    { Diagnostics := diags, State := none, sent := none, slept := 0 }
  else
    let sent := ClusterWrite.create data.Name.Value data.Server.Value data.Ca.Value
      data.Token.Value data.ApiVersion.Value data.Context.Value
    match client.CreateCluster data.Name.Value data.Server.Value data.Ca.Value
        data.Token.Value data.ApiVersion.Value data.Context.Value with
    | .error err =>
      { Diagnostics := diags.AddError "Client Error"
          ("Unable to create cluster, got error: " ++ err),
        State := none, sent := some sent, slept := 0 }
    | .ok cluster =>
      let data := { data with ClusterID := { Value := cluster.ClusterID } }
      { Diagnostics := diags, State := some data, sent := some sent, slept := 40 }

/-- Go `ClusterResource.Update`. -/
def ClusterResource.Update (client : Client) (_ctx : Context) (req : ClusterPlanRequest) :
    ClusterWriteRun :=
  let data := req.Plan
  let diags : Diagnostics := [] ++ req.PlanDiagnostics
  if diags.HasError then
    { Diagnostics := diags, State := none, sent := none, slept := 0 }
  else
    let sent := ClusterWrite.update data.ClusterID.Value (ValueStringOrNull data.Name)
      (ValueStringOrNull data.Server) (ValueStringOrNull data.Ca)
      (ValueStringOrNull data.Token) (ValueStringOrNull data.ApiVersion)
      (ValueStringOrNull data.Context)
    match client.UpdateCluster data.ClusterID.Value (ValueStringOrNull data.Name)
        (ValueStringOrNull data.Server) (ValueStringOrNull data.Ca)
        (ValueStringOrNull data.Token) (ValueStringOrNull data.ApiVersion)
        (ValueStringOrNull data.Context) with
    | .error err =>
      { Diagnostics := diags.AddError "Client Error"
          ("Unable to update cluster, got error: " ++ err),
        State := none, sent := some sent, slept := 0 }
    | .ok _ =>
      { Diagnostics := diags, State := some data, sent := some sent, slept := 0 }

/-- The stub server of the round-trip property: it stores the fields it is
sent and returns them unchanged.  A field sent as a plain string is stored as
that string (present), a field sent as a nullable string is stored as sent. -/
def storedCluster : ClusterWrite → Cluster
  | .create name server ca _ apiVersion context =>
    { ClusterID := "C-1", Name := name, ApiVersion := apiVersion, Ca := some ca,
      Server := some server, Context := some context }
  | .update id name server ca _ apiVersion context =>
    { ClusterID := id, Name := name.getD "", ApiVersion := apiVersion.getD "", Ca := ca,
      Server := server, Context := context }

/-- The client of the storing stub server: both write calls succeed and hand
back the stored cluster; `GetCluster` is not used during a write. -/
def storingClient : Client :=
  { CreatePlatformBinding := fun _ _ _ _ => .error "unused"
    UpdatePlatformBinding := fun _ _ _ _ => .error "unused"
    GetPlatformBinding := fun _ _ _ => .error "unused"
    GetCluster := fun _ => .error "unused"
    CreateCluster := fun name server ca token apiVersion context =>
      .ok (storedCluster (.create name server ca token apiVersion context))
    UpdateCluster := fun id name server ca token apiVersion context =>
      .ok (storedCluster (.update id name server ca token apiVersion context)) }

/-- Write with the storing stub server, then read back: the response of the
`Read` that follows a write whose request was `sent`; `none` when the write
issued no request. -/
def readBack (write : ClusterWriteRun) (ctx : Context) :
    Option (Except SyntaxError ClusterRun) :=
  match write.sent, write.State with
  | some sent, some state =>
    some (ClusterResource.Read (clusterClient (storedCluster sent)) ctx
      { StateDiagnostics := [], State := state })
  | _, _ => none

/-- A stub plan of a cluster with the given optional attributes. -/
def clusterPlan (ca server context : TfString) : ClusterPlanRequest :=
  { PlanDiagnostics := []
    Plan := { ClusterID := { Value := "C-1" }, Name := { Value := "k1" },
              Token := { Value := "T" }, ApiVersion := { Value := "v1" },
              Ca := ca, Server := server, Context := context } }

/-- The number of fetches, among the first `n` of an operation, that returned
without error. -/
def successfulFetches (client : Client) (cid bid : String) (n : Nat) : Nat :=
  (List.range n).countP (fun i =>
    match client.GetPlatformBinding i cid bid with
    | .ok _ => true
    | .error _ => false)

/-- What the injected clock shows of a run that issued its fetches against
`cid` and `bid`: the time slept is 30 s for each fetch that returned, at most
600 s in all, and nothing was slept before a first fetch that failed. -/
def SleepCadence (client : Client) (cid bid : String) (r : Run) : Prop :=
  r.slept = 30 * successfulFetches client cid bid r.fetches ∧
  r.slept ≤ 600 ∧
  (∀ e, client.GetPlatformBinding 0 cid bid = .error e → r.slept = 0)

/-- A stub state of a platform binding, decoded without diagnostics. -/
def stubBindingState : BindingStateRequest :=
  { StateDiagnostics := [], State := stubRequest.Plan }

/-- The state `Read` writes for `stubClusterState` when the server returns
`clusterWithContext "1"`. -/
def stubClusterReadState : ClusterResourceModel :=
  { stubClusterState.State with
    Name := { Value := "k1" }, ApiVersion := { Value := "v1" },
    Ca := { Null := true }, Server := { Null := true }, Context := { Value := "1" } }

/-- The state `Read` writes for `stubBindingState` when the server returns
`stubBinding "Succeeded"`. -/
def stubBindingReadState : PlatformBindingResourceModel :=
  { stubBindingState.State with
    PlatformConfigID := { Value := "cfg" }, PlatformID := { Value := "p" },
    PlatformVersion := { Value := "1" }, Status := { Value := "Succeeded" } }

/-! ## `platform_data_source.go` -/

/-- The `types.Object` stored for a service, with the attributes of
`PlatformServiceModelAttrTypes`: `id`, `name`, `namespace`, `service_id`,
`service_version`, `dependencies`, `delete_dependencies`; a `types.List` is
the list of its elements. -/
structure ServiceObject where
  ID : TfString
  Name : TfString
  Namespace : TfString
  ServiceID : TfString
  ServiceVersion : TfString
  Dependencies : List TfString
  DeleteDependencies : List TfString
deriving DecidableEq, Repr

/-- The `types.Object` stored for a config, with the attributes of
`PlatformConfigModelAttrTypes`: `id`, `name`, `config`; a `types.Map` is the
map of its elements. -/
structure ConfigObject where
  ID : TfString
  Name : TfString
  Config : GoMap TfString
deriving DecidableEq, Repr

/-- Go `PlatformDataSourceModel`. -/
structure PlatformDataSourceModel where
  PlatformID : TfString
  PlatformVersion : TfString
  Name : TfString
  Description : TfString
  CatalogedDate : TfString
  MaxAPIVersion : TfString
  MinAPIVersion : TfString
  Services : GoMap ServiceObject
  Configs : GoMap ConfigObject
deriving DecidableEq, Repr

/-- What `req.Config.Get(ctx, &data)` yields: its diagnostics and the decoded
configuration. -/
structure PlatformConfigRequest where
  ConfigDiagnostics : Diagnostics
  Config : PlatformDataSourceModel

/-- The response of `PlatformDataSource.Read`: its diagnostics and the state
written by `resp.State.Set` (`none` when it was not called). -/
structure PlatformRead where
  Diagnostics : Diagnostics
  State : Option PlatformDataSourceModel
deriving DecidableEq, Repr

/-- The body of the loop over `platform.GetServices()`: the two inner loops
append each dependency as a known string, then `services[name]` is
assigned. -/
def serviceEntry (services : GoMap ServiceObject) (service : PlatformService) :
    GoMap ServiceObject :=
  let dependencies : List TfString :=
    service.Dependencies.foldl (fun deps dep => deps ++ [{ Value := dep }]) []
  let delete_dependencies : List TfString :=
    service.Delete_dependencies.foldl (fun deps dep => deps ++ [{ Value := dep }]) []
  services.set service.Name
    { ID := { Value := service.PlatformServiceID },
      Name := { Value := service.Name },
      Namespace := { Value := service.Namespace },
      ServiceID := { Value := service.ServiceID },
      ServiceVersion := { Value := service.ServiceVersion },
      Dependencies := dependencies,
      DeleteDependencies := delete_dependencies }

/-- The body of the loop over `platform.GetConfigs()`: the config string is
unmarshalled, each of its entries is copied as a known string, then
`configs[name]` is assigned. -/
def configEntry (configs : GoMap ConfigObject) (config : PlatformConfig) :
    GoMap ConfigObject :=
  let parsedData := jsonUnmarshalStringMap config.Config
  let valuesData : GoMap TfString :=
    parsedData.entries.foldl (fun values entry => values.set entry.1 { Value := entry.2 })
      GoMap.empty
  configs.set config.Name
    { ID := { Value := config.PlatformConfigID },
      Name := { Value := config.Name },
      Config := valuesData }

/-- Go `PlatformDataSource.Read`. -/
def PlatformDataSource.Read (client : Client) (_ctx : Context)
    (req : PlatformConfigRequest) : PlatformRead :=
  let data := req.Config
  let diags : Diagnostics := [] ++ req.ConfigDiagnostics
  if diags.HasError then
    { Diagnostics := diags, State := none }
  else
    match client.GetPlatform data.PlatformID.Value data.PlatformVersion.Value with
    | .error err =>
      { Diagnostics := diags.AddError "Client Error"
          ("Unable to read platform, got error: " ++ err),
        State := none }
    | .ok none =>
      { Diagnostics := diags.AddError "Client Error" "Unable to read platform, not found",
        State := none }
    | .ok (some platform) =>
      let data := { data with Name := { Value := platform.Name } }
      let data := { data with Description := StringValueOrNull platform.Description }
      let data := { data with CatalogedDate := StringValueOrNull platform.CatalogedDate }
      let data := { data with MaxAPIVersion := { Value := platform.MaxAPIVersion } }
      let data := { data with MinAPIVersion := { Value := platform.MinAPIVersion } }
      let services := platform.Services.foldl serviceEntry GoMap.empty
      let data := { data with Services := services }
      let configs := platform.Configs.foldl configEntry GoMap.empty
      let data := { data with Configs := configs }
      { Diagnostics := diags, State := some data }

/-- A stub client whose `GetPlatform` returns `platform`. -/
def platformClient (platform : Platform) : Client :=
  { CreatePlatformBinding := fun _ _ _ _ => .error "unused"
    UpdatePlatformBinding := fun _ _ _ _ => .error "unused"
    GetPlatformBinding := fun _ _ _ => .error "unused"
    GetCluster := fun _ => .error "unused"
    GetPlatform := fun _ _ => .ok (some platform) }

/-- A stub configuration of the platform data source, decoded without
diagnostics; the computed attributes are unknown. -/
def stubPlatformConfig : PlatformConfigRequest :=
  { ConfigDiagnostics := []
    Config := { PlatformID := { Value := "p" }, PlatformVersion := { Value := "1" },
                Name := { Unknown := true }, Description := { Unknown := true },
                CatalogedDate := { Unknown := true }, MaxAPIVersion := { Unknown := true },
                MinAPIVersion := { Unknown := true }, Services := GoMap.empty,
                Configs := GoMap.empty } }

/-- The service of the scenario: `s1` with dependencies `a`, `b`. -/
def scenarioService : PlatformService :=
  { PlatformServiceID := "ps-1", Name := "s1", Namespace := "ns", ServiceID := "svc",
    ServiceVersion := "1", Dependencies := ["a", "b"], Delete_dependencies := ["b", "a"] }

/-- The config of the scenario: `c1`, whose config string is the object with
member `k` of value `v`. -/
def scenarioConfig : PlatformConfig :=
  { PlatformConfigID := "pc-1", Name := "c1", Config := "\x7b\"k\":\"v\"\x7d" }

/-- The platform of the scenario; its description is present and empty, its
cataloged date is absent. -/
def scenarioPlatform : Platform :=
  { Name := "platform", Description := some "", CatalogedDate := none,
    MaxAPIVersion := "v2", MinAPIVersion := "v1",
    Services := [scenarioService], Configs := [scenarioConfig] }

/-- A stub cluster whose `ca` and `server` are present and empty and whose
context is the JSON text `1`. -/
def emptyFieldsCluster : Cluster :=
  { stubCluster with Ca := some "", Server := some "", Context := some "1" }

/-! ## The poll loop -/

theorem containsText_append (pre s : String) : ContainsText (pre ++ s) s :=
  ⟨pre, "", by simp⟩

theorem pollLoop_ok_spec (client : Client) (cid bid : String) (st st' : PollState)
    (h : pollLoop client cid bid st = .ok st') :
    st.fetches ≤ st'.fetches ∧ st.attempts ≤ st'.attempts ∧
    st'.fetches - st.fetches = st'.attempts - st.attempts ∧
    st'.slept = st.slept + 30 * (st'.fetches - st.fetches) ∧
    ¬ (st'.status = PlatformBindingStatusPending ∧ st'.attempts ≤ 20) ∧
    (st'.fetches = st.fetches → st' = st) ∧
    (st.fetches < st'.fetches →
      ∃ pb, client.GetPlatformBinding (st'.fetches - 1) cid bid = .ok pb ∧
        pb.Status = st'.status) ∧
    (st.fetches < st'.fetches → st.status = PlatformBindingStatusPending) ∧
    (∀ i, st.fetches ≤ i → i + 1 < st'.fetches →
      ∃ pb, client.GetPlatformBinding i cid bid = .ok pb ∧
        pb.Status = PlatformBindingStatusPending) := by
  induction st using pollLoop.induct client cid bid with
  | case1 st hc err hg =>
    rw [pollLoop, if_pos hc, hg] at h
    cases h
  | case2 st hc pb hg ih =>
    rw [pollLoop, if_pos hc, hg] at h
    obtain ⟨h1, h2, h3, h4, h5, h6, h7, h9, h8⟩ := ih h
    simp only at h1 h2 h3 h4 h6 h7 h8 h9
    refine ⟨by omega, by omega, by omega, by omega, h5, by omega, ?_, fun _ => hc.1, ?_⟩
    · intro _
      by_cases hlt : st.fetches + 1 < st'.fetches
      · exact h7 hlt
      · have heq : st'.fetches = st.fetches + 1 := by omega
        have hst := h6 heq
        subst hst
        exact ⟨pb, by simpa using hg, rfl⟩
    · intro i hi hlt
      by_cases hi' : st.fetches + 1 ≤ i
      · exact h8 i hi' hlt
      · have hi0 : i = st.fetches := by omega
        subst hi0
        exact ⟨pb, hg, h9 hlt⟩
  | case3 st hc =>
    rw [pollLoop, if_neg hc] at h
    cases h
    refine ⟨le_refl _, le_refl _, by simp, by simp, hc, fun _ => rfl, ?_, ?_, ?_⟩
    · intro hlt; exact absurd hlt (lt_irrefl _)
    · intro hlt; exact absurd hlt (lt_irrefl _)
    · intro i hi hlt; omega

theorem pollLoop_error_spec (client : Client) (cid bid : String) (st st' : PollState)
    (err : String) (h : pollLoop client cid bid st = .error (err, st')) :
    st.fetches < st'.fetches ∧
    st'.fetches - st.fetches ≤ 21 - st.attempts ∧
    st'.slept = st.slept + 30 * (st'.fetches - 1 - st.fetches) ∧
    st'.status = PlatformBindingStatusPending ∧
    st.status = PlatformBindingStatusPending ∧
    client.GetPlatformBinding (st'.fetches - 1) cid bid = .error err ∧
    (∀ i, st.fetches ≤ i → i + 1 < st'.fetches →
      ∃ pb, client.GetPlatformBinding i cid bid = .ok pb ∧
        pb.Status = PlatformBindingStatusPending) := by
  induction st using pollLoop.induct client cid bid with
  | case1 st hc e hg =>
    rw [pollLoop, if_pos hc, hg] at h
    cases h
    refine ⟨by simp, by simp; omega, by simp, hc.1, hc.1, by simpa using hg, ?_⟩
    intro i hi hlt
    simp only at hlt
    omega
  | case2 st hc pb hg ih =>
    rw [pollLoop, if_pos hc, hg] at h
    obtain ⟨h1, h2, h3, h4, h5, h6, h7⟩ := ih h
    simp only at h1 h2 h3 h4 h5 h6 h7
    refine ⟨by omega, by omega, by omega, h4, hc.1, h6, ?_⟩
    intro i hi hlt
    by_cases hi' : st.fetches + 1 ≤ i
    · exact h7 i hi' hlt
    · have hi0 : i = st.fetches := by omega
      subst hi0
      exact ⟨pb, hg, h5⟩
  | case3 st hc =>
    rw [pollLoop, if_neg hc] at h
    cases h

theorem pollLoop_total (client : Client) (cid bid : String) (st : PollState)
    (hfetch : ∀ n, ∃ pb, client.GetPlatformBinding n cid bid = .ok pb) :
    ∃ st', pollLoop client cid bid st = .ok st' := by
  induction st using pollLoop.induct client cid bid with
  | case1 st hc e hg =>
    obtain ⟨pb, hpb⟩ := hfetch st.fetches
    rw [hpb] at hg
    cases hg
  | case2 st hc pb hg ih =>
    obtain ⟨st', hst'⟩ := ih
    exact ⟨st', by rw [pollLoop, if_pos hc, hg]; exact hst'⟩
  | case3 st hc =>
    exact ⟨st, by rw [pollLoop, if_neg hc]⟩

theorem pollLoop_pending_run (client : Client) (cid bid : String) (k : Nat) :
    ∀ st : PollState, st.status = PlatformBindingStatusPending → st.attempts + k ≤ 21 →
      (∀ i, i < k → ∃ pb, client.GetPlatformBinding (st.fetches + i) cid bid = .ok pb ∧
        pb.Status = PlatformBindingStatusPending) →
      pollLoop client cid bid st =
        pollLoop client cid bid
          { attempts := st.attempts + k, status := PlatformBindingStatusPending,
            fetches := st.fetches + k, slept := st.slept + 30 * k } := by
  induction k with
  | zero =>
    intro st hs _ _
    cases st
    simp only at hs
    subst hs
    rfl
  | succ k ih =>
    intro st hs hk hf
    obtain ⟨pb, hpb, hpbs⟩ := hf 0 (Nat.succ_pos k)
    rw [Nat.add_zero] at hpb
    rw [pollLoop, if_pos ⟨hs, by omega⟩, hpb]
    simp only [hpbs]
    rw [ih _ rfl (by simp only; omega)]
    · simp only
      congr 2
      · omega
      · omega
      · omega
    · intro i hi
      obtain ⟨pb', hpb', hs'⟩ := hf (i + 1) (by omega)
      refine ⟨pb', ?_, hs'⟩
      simp only
      rw [← hpb']
      congr 1
      omega

/-! ## Platform binding `Create` and `Update` -/

theorem create_of_poll_ok (client : Client) (ctx : Context) (req : PlanRequest)
    (pb : PlatformBinding) (st : PollState)
    (hplan : req.PlanDiagnostics.HasError = false)
    (hsub : client.CreatePlatformBinding req.Plan.ClusterID.Value req.Plan.PlatformID.Value
      req.Plan.PlatformVersion.Value req.Plan.PlatformConfigID.Value = .ok pb)
    (hpoll : pollLoop client req.Plan.ClusterID.Value pb.PlatformBindingID
      { attempts := 1, status := pb.Status, fetches := 0, slept := 0 } = .ok st) :
    PlatformBindingResource.Create client ctx req =
      if st.status ≠ PlatformBindingStatusSucceeded then
        { Diagnostics := req.PlanDiagnostics ++
            [{ severity := .error, summary := "Client Error",
               detail := "Unable to create platform binding, got status: " ++ st.status }],
          State := none, status := some st.status, fetches := st.fetches, slept := st.slept }
      else
        { Diagnostics := req.PlanDiagnostics,
          State := some { req.Plan with
            PlatformBindingID := { Value := pb.PlatformBindingID },
            Status := { Value := st.status } },
          status := some st.status, fetches := st.fetches, slept := st.slept } := by
  simp only [PlatformBindingResource.Create, List.nil_append, hplan, hsub, hpoll,
    Diagnostics.AddError]
  simp

theorem create_of_poll_error (client : Client) (ctx : Context) (req : PlanRequest)
    (pb : PlatformBinding) (st : PollState) (err : String)
    (hplan : req.PlanDiagnostics.HasError = false)
    (hsub : client.CreatePlatformBinding req.Plan.ClusterID.Value req.Plan.PlatformID.Value
      req.Plan.PlatformVersion.Value req.Plan.PlatformConfigID.Value = .ok pb)
    (hpoll : pollLoop client req.Plan.ClusterID.Value pb.PlatformBindingID
      { attempts := 1, status := pb.Status, fetches := 0, slept := 0 } = .error (err, st)) :
    PlatformBindingResource.Create client ctx req =
      { Diagnostics := req.PlanDiagnostics ++
          [{ severity := .error, summary := "Client Error",
             detail := "Unable to poll platform binding, got error: " ++ err }],
        State := none, status := some st.status, fetches := st.fetches, slept := st.slept } := by
  simp only [PlatformBindingResource.Create, List.nil_append, hplan, hsub, hpoll,
    Diagnostics.AddError]
  simp

theorem create_of_submit_error (client : Client) (ctx : Context) (req : PlanRequest)
    (err : String)
    (hplan : req.PlanDiagnostics.HasError = false)
    (hsub : client.CreatePlatformBinding req.Plan.ClusterID.Value req.Plan.PlatformID.Value
      req.Plan.PlatformVersion.Value req.Plan.PlatformConfigID.Value = .error err) :
    PlatformBindingResource.Create client ctx req =
      { Diagnostics := req.PlanDiagnostics ++
          [{ severity := .error, summary := "Client Error",
             detail := "Unable to create platform binding, got error: " ++ err }],
        State := none, status := none, fetches := 0, slept := 0 } := by
  simp only [PlatformBindingResource.Create, List.nil_append, hplan, hsub,
    Diagnostics.AddError]
  simp

theorem update_of_poll_ok (client : Client) (ctx : Context) (req : PlanRequest)
    (pb : PlatformBinding) (st : PollState)
    (hplan : req.PlanDiagnostics.HasError = false)
    (hsub : client.UpdatePlatformBinding req.Plan.ClusterID.Value
      req.Plan.PlatformBindingID.Value (ValueStringOrNull req.Plan.PlatformConfigID)
      (ValueStringOrNull req.Plan.PlatformVersion) = .ok pb)
    (hpoll : pollLoop client req.Plan.ClusterID.Value req.Plan.PlatformBindingID.Value
      { attempts := 1, status := pb.Status, fetches := 0, slept := 0 } = .ok st) :
    PlatformBindingResource.Update client ctx req =
      if st.status ≠ PlatformBindingStatusSucceeded then
        { Diagnostics := req.PlanDiagnostics ++
            [{ severity := .error, summary := "Client Error",
               detail := "Unable to update platform binding, got status: " ++ st.status }],
          State := none, status := some st.status, fetches := st.fetches, slept := st.slept }
      else
        { Diagnostics := req.PlanDiagnostics,
          State := some { req.Plan with Status := { Value := st.status } },
          status := some st.status, fetches := st.fetches, slept := st.slept } := by
  simp only [PlatformBindingResource.Update, List.nil_append, hplan, hsub, hpoll,
    Diagnostics.AddError]
  simp

theorem update_of_poll_error (client : Client) (ctx : Context) (req : PlanRequest)
    (pb : PlatformBinding) (st : PollState) (err : String)
    (hplan : req.PlanDiagnostics.HasError = false)
    (hsub : client.UpdatePlatformBinding req.Plan.ClusterID.Value
      req.Plan.PlatformBindingID.Value (ValueStringOrNull req.Plan.PlatformConfigID)
      (ValueStringOrNull req.Plan.PlatformVersion) = .ok pb)
    (hpoll : pollLoop client req.Plan.ClusterID.Value req.Plan.PlatformBindingID.Value
      { attempts := 1, status := pb.Status, fetches := 0, slept := 0 } = .error (err, st)) :
    PlatformBindingResource.Update client ctx req =
      { Diagnostics := req.PlanDiagnostics ++
          [{ severity := .error, summary := "Client Error",
             detail := "Unable to poll platform binding, got error: " ++ err }],
        State := none, status := some st.status, fetches := st.fetches, slept := st.slept } := by
  simp only [PlatformBindingResource.Update, List.nil_append, hplan, hsub, hpoll,
    Diagnostics.AddError]
  simp

theorem update_of_submit_error (client : Client) (ctx : Context) (req : PlanRequest)
    (err : String)
    (hplan : req.PlanDiagnostics.HasError = false)
    (hsub : client.UpdatePlatformBinding req.Plan.ClusterID.Value
      req.Plan.PlatformBindingID.Value (ValueStringOrNull req.Plan.PlatformConfigID)
      (ValueStringOrNull req.Plan.PlatformVersion) = .error err) :
    PlatformBindingResource.Update client ctx req =
      { Diagnostics := req.PlanDiagnostics ++
          [{ severity := .error, summary := "Client Error",
             detail := "Unable to update platform binding, got error: " ++ err }],
        State := none, status := none, fetches := 0, slept := 0 } := by
  simp only [PlatformBindingResource.Update, List.nil_append, hplan, hsub,
    Diagnostics.AddError]
  simp

theorem settledOn_of_final (req : PlanRequest) (msg : String)
    (d : PlatformBindingResourceModel) (st : PollState)
    (hd : d.Status = { Value := st.status }) :
    SettledOn req
      (if st.status ≠ PlatformBindingStatusSucceeded then
        { Diagnostics := req.PlanDiagnostics ++
            [{ severity := .error, summary := "Client Error", detail := msg ++ st.status }],
          State := none, status := some st.status, fetches := st.fetches, slept := st.slept }
      else
        { Diagnostics := req.PlanDiagnostics, State := some d,
          status := some st.status, fetches := st.fetches, slept := st.slept })
      st.status := by
  by_cases hs : st.status = PlatformBindingStatusSucceeded
  · have hs' : st.status = "Succeeded" := hs
    rw [if_neg (not_not.mpr hs)]
    refine ⟨rfl, by simp [hs'], ?_, fun _ => rfl, fun h => absurd hs' h⟩
    intro d' hd'
    simp only [Option.some.injEq] at hd'
    subst hd'
    rw [hd, hs']
  · have hs' : st.status ≠ "Succeeded" := hs
    rw [if_pos hs]
    refine ⟨rfl, by simp [hs'], ?_, fun h => absurd h hs', fun _ => ⟨rfl, _, rfl, ?_⟩⟩
    · intro d' hd'
      simp at hd'
    · exact containsText_append _ _

theorem observedAfter_of_poll (client : Client) (cid bid : String) (pb : PlatformBinding)
    (st : PollState)
    (hpoll : pollLoop client cid bid
      { attempts := 1, status := pb.Status, fetches := 0, slept := 0 } = .ok st) :
    observedAfter client cid bid pb st.fetches = some st.status := by
  obtain ⟨_, _, _, _, _, h6, h7, _, _⟩ := pollLoop_ok_spec client cid bid _ st hpoll
  simp only at h6 h7
  by_cases h0 : st.fetches = 0
  · rw [h0, h6 h0]
    rfl
  · obtain ⟨pb', hpb', hs'⟩ := h7 (Nat.pos_of_ne_zero h0)
    obtain ⟨m, hm⟩ := Nat.exists_eq_succ_of_ne_zero h0
    rw [hm] at hpb' ⊢
    simp only [Nat.succ_eq_add_one, Nat.add_sub_cancel] at hpb'
    simp only [observedAfter, Nat.succ_eq_add_one, hpb', hs']

/-- C1: in `Create` and in `Update`, when the plan decodes, the submit returns
and every poll fetch returns without error, the run ends on a last observed
status `s` (the status of the last answer received), state is written if and
only if `s` is `Succeeded`, the status written is then `Succeeded` and no
diagnostic is added; for every other `s` exactly one error diagnostic whose
text contains `s` is added and no state is written. -/
theorem platformBinding_writes_state_iff_succeeded (client : Client) (ctx : Context)
    (req : PlanRequest) (created updated : PlatformBinding)
    (hplan : req.PlanDiagnostics.HasError = false)
    (hcreate : client.CreatePlatformBinding req.Plan.ClusterID.Value req.Plan.PlatformID.Value
      req.Plan.PlatformVersion.Value req.Plan.PlatformConfigID.Value = .ok created)
    (hupdate : client.UpdatePlatformBinding req.Plan.ClusterID.Value
      req.Plan.PlatformBindingID.Value (ValueStringOrNull req.Plan.PlatformConfigID)
      (ValueStringOrNull req.Plan.PlatformVersion) = .ok updated)
    (hfetch : ∀ n cid bid, ∃ pb, client.GetPlatformBinding n cid bid = .ok pb) :
    (∃ s, SettledOn req (PlatformBindingResource.Create client ctx req) s ∧
      observedAfter client req.Plan.ClusterID.Value created.PlatformBindingID created
        (PlatformBindingResource.Create client ctx req).fetches = some s) ∧
    (∃ s, SettledOn req (PlatformBindingResource.Update client ctx req) s ∧
      observedAfter client req.Plan.ClusterID.Value req.Plan.PlatformBindingID.Value updated
        (PlatformBindingResource.Update client ctx req).fetches = some s) := by
  constructor
  · obtain ⟨st, hst⟩ := pollLoop_total client req.Plan.ClusterID.Value
      created.PlatformBindingID
      { attempts := 1, status := created.Status, fetches := 0, slept := 0 }
      (fun n => hfetch n _ _)
    have hobs := observedAfter_of_poll client _ _ created st hst
    have hrun := create_of_poll_ok client ctx req created st hplan hcreate hst
    refine ⟨st.status, ?_, ?_⟩
    · rw [hrun]
      exact settledOn_of_final req _ _ st rfl
    · rw [hrun]
      split <;> exact hobs
  · obtain ⟨st, hst⟩ := pollLoop_total client req.Plan.ClusterID.Value
      req.Plan.PlatformBindingID.Value
      { attempts := 1, status := updated.Status, fetches := 0, slept := 0 }
      (fun n => hfetch n _ _)
    have hobs := observedAfter_of_poll client _ _ updated st hst
    have hrun := update_of_poll_ok client ctx req updated st hplan hupdate hst
    refine ⟨st.status, ?_, ?_⟩
    · rw [hrun]
      exact settledOn_of_final req _ _ st rfl
    · rw [hrun]
      split <;> exact hobs

theorem platformBinding_writes_state_iff_succeeded_witness :
    (∃ s, SettledOn stubRequest
        (PlatformBindingResource.Create
          (stubClient (.ok "Pending") (fun _ => .ok "Failed")) background stubRequest) s ∧
      observedAfter (stubClient (.ok "Pending") (fun _ => .ok "Failed"))
        stubRequest.Plan.ClusterID.Value (stubBinding "Pending").PlatformBindingID
        (stubBinding "Pending")
        (PlatformBindingResource.Create
          (stubClient (.ok "Pending") (fun _ => .ok "Failed")) background stubRequest).fetches
        = some s) ∧
    (∃ s, SettledOn stubRequest
        (PlatformBindingResource.Update
          (stubClient (.ok "Pending") (fun _ => .ok "Failed")) background stubRequest) s ∧
      observedAfter (stubClient (.ok "Pending") (fun _ => .ok "Failed"))
        stubRequest.Plan.ClusterID.Value stubRequest.Plan.PlatformBindingID.Value
        (stubBinding "Pending")
        (PlatformBindingResource.Update
          (stubClient (.ok "Pending") (fun _ => .ok "Failed")) background stubRequest).fetches
        = some s) :=
  platformBinding_writes_state_iff_succeeded
    (stubClient (.ok "Pending") (fun _ => .ok "Failed")) background stubRequest
    (stubBinding "Pending") (stubBinding "Pending") rfl rfl rfl (fun _ _ _ => ⟨_, rfl⟩)

theorem pollLoop_always_pending (client : Client) (cid bid : String)
    (hfetch : ∀ n, ∃ pb, client.GetPlatformBinding n cid bid = .ok pb ∧ pb.Status = "Pending") :
    pollLoop client cid bid { attempts := 1, status := "Pending", fetches := 0, slept := 0 } =
      .ok { attempts := 21, status := "Pending", fetches := 20, slept := 600 } := by
  rw [pollLoop_pending_run client cid bid 20 _ rfl (by simp)
    (fun i _ => by simpa using hfetch i)]
  rw [pollLoop, if_neg (by simp)]
  rfl

theorem pollLoop_pending_then (client : Client) (cid bid : String) (k : Nat) (s : String)
    (pb : PlatformBinding) (hk : k ≤ 19) (hs : s ≠ "Pending")
    (hpending : ∀ n, n < k →
      ∃ pb, client.GetPlatformBinding n cid bid = .ok pb ∧ pb.Status = "Pending")
    (hthen : client.GetPlatformBinding k cid bid = .ok pb) (hpb : pb.Status = s) :
    pollLoop client cid bid { attempts := 1, status := "Pending", fetches := 0, slept := 0 } =
      .ok { attempts := k + 2, status := s, fetches := k + 1, slept := 30 * (k + 1) } := by
  rw [pollLoop_pending_run client cid bid k _ rfl (by simp only; omega)
    (fun i hi => by simpa using hpending i hi)]
  rw [pollLoop, if_pos ⟨rfl, by simp only; omega⟩]
  simp only [Nat.zero_add, hthen, hpb]
  rw [pollLoop, if_neg (by simp [PlatformBindingStatusPending, hs])]
  simp only [Nat.zero_add, Except.ok.injEq, PollState.mk.injEq, true_and]
  omega

/-- C2: with a plan that decodes, a submit that returns `Pending` and fetches
that all return `Pending`, `Create` and `Update` each issue exactly 20 poll
fetches (the submit's status is not one of them), write no state, and add one
error diagnostic whose text contains `Pending`. -/
theorem platformBinding_always_pending_spends_budget (client : Client) (ctx : Context)
    (req : PlanRequest) (created updated : PlatformBinding)
    (hplan : req.PlanDiagnostics.HasError = false)
    (hcreate : client.CreatePlatformBinding req.Plan.ClusterID.Value req.Plan.PlatformID.Value
      req.Plan.PlatformVersion.Value req.Plan.PlatformConfigID.Value = .ok created)
    (hcreated : created.Status = "Pending")
    (hupdate : client.UpdatePlatformBinding req.Plan.ClusterID.Value
      req.Plan.PlatformBindingID.Value (ValueStringOrNull req.Plan.PlatformConfigID)
      (ValueStringOrNull req.Plan.PlatformVersion) = .ok updated)
    (hupdated : updated.Status = "Pending")
    (hfetch : ∀ n cid bid,
      ∃ pb, client.GetPlatformBinding n cid bid = .ok pb ∧ pb.Status = "Pending") :
    ((PlatformBindingResource.Create client ctx req).fetches = 20 ∧
      (PlatformBindingResource.Create client ctx req).State = none ∧
      ∃ detail, (PlatformBindingResource.Create client ctx req).Diagnostics =
          req.PlanDiagnostics ++
            [{ severity := .error, summary := "Client Error", detail := detail }] ∧
        ContainsText detail "Pending") ∧
    ((PlatformBindingResource.Update client ctx req).fetches = 20 ∧
      (PlatformBindingResource.Update client ctx req).State = none ∧
      ∃ detail, (PlatformBindingResource.Update client ctx req).Diagnostics =
          req.PlanDiagnostics ++
            [{ severity := .error, summary := "Client Error", detail := detail }] ∧
        ContainsText detail "Pending") := by
  constructor
  · have hpoll := pollLoop_always_pending client req.Plan.ClusterID.Value
      created.PlatformBindingID (fun n => hfetch n _ _)
    rw [← hcreated] at hpoll
    rw [create_of_poll_ok client ctx req created _ hplan hcreate hpoll]
    rw [if_pos (by simp [hcreated, PlatformBindingStatusSucceeded])]
    exact ⟨rfl, rfl, _, rfl, by simp only [hcreated]; exact containsText_append _ _⟩
  · have hpoll := pollLoop_always_pending client req.Plan.ClusterID.Value
      req.Plan.PlatformBindingID.Value (fun n => hfetch n _ _)
    rw [← hupdated] at hpoll
    rw [update_of_poll_ok client ctx req updated _ hplan hupdate hpoll]
    rw [if_pos (by simp [hupdated, PlatformBindingStatusSucceeded])]
    exact ⟨rfl, rfl, _, rfl, by simp only [hupdated]; exact containsText_append _ _⟩

theorem platformBinding_always_pending_spends_budget_witness :
    ((PlatformBindingResource.Create
        (stubClient (.ok "Pending") (fun _ => .ok "Pending")) background stubRequest).fetches
        = 20 ∧
      (PlatformBindingResource.Create
        (stubClient (.ok "Pending") (fun _ => .ok "Pending")) background stubRequest).State
        = none ∧
      ∃ detail, (PlatformBindingResource.Create
          (stubClient (.ok "Pending") (fun _ => .ok "Pending")) background
          stubRequest).Diagnostics =
          stubRequest.PlanDiagnostics ++
            [{ severity := .error, summary := "Client Error", detail := detail }] ∧
        ContainsText detail "Pending") ∧
    ((PlatformBindingResource.Update
        (stubClient (.ok "Pending") (fun _ => .ok "Pending")) background stubRequest).fetches
        = 20 ∧
      (PlatformBindingResource.Update
        (stubClient (.ok "Pending") (fun _ => .ok "Pending")) background stubRequest).State
        = none ∧
      ∃ detail, (PlatformBindingResource.Update
          (stubClient (.ok "Pending") (fun _ => .ok "Pending")) background
          stubRequest).Diagnostics =
          stubRequest.PlanDiagnostics ++
            [{ severity := .error, summary := "Client Error", detail := detail }] ∧
        ContainsText detail "Pending") :=
  platformBinding_always_pending_spends_budget
    (stubClient (.ok "Pending") (fun _ => .ok "Pending")) background stubRequest
    (stubBinding "Pending") (stubBinding "Pending") rfl rfl rfl rfl rfl
    (fun _ _ _ => ⟨_, rfl, rfl⟩)

/-- C3: for every `k ≤ 19` (so for every `1 ≤ k ≤ 19`), with a plan that
decodes, a submit that returns `Pending`, fetches `1..k` returning `Pending`
and every later fetch returning `Succeeded`, `Create` and `Update` each issue
exactly `k + 1` fetches after the submit, add no diagnostic, and write state
with status `Succeeded`. -/
theorem platformBinding_converges_after_pending (client : Client) (ctx : Context)
    (req : PlanRequest) (created updated : PlatformBinding) (k : Nat)
    (hk : k ≤ 19)
    (hplan : req.PlanDiagnostics.HasError = false)
    (hcreate : client.CreatePlatformBinding req.Plan.ClusterID.Value req.Plan.PlatformID.Value
      req.Plan.PlatformVersion.Value req.Plan.PlatformConfigID.Value = .ok created)
    (hcreated : created.Status = "Pending")
    (hupdate : client.UpdatePlatformBinding req.Plan.ClusterID.Value
      req.Plan.PlatformBindingID.Value (ValueStringOrNull req.Plan.PlatformConfigID)
      (ValueStringOrNull req.Plan.PlatformVersion) = .ok updated)
    (hupdated : updated.Status = "Pending")
    (hpending : ∀ n cid bid, n < k →
      ∃ pb, client.GetPlatformBinding n cid bid = .ok pb ∧ pb.Status = "Pending")
    (hlater : ∀ n cid bid, k ≤ n →
      ∃ pb, client.GetPlatformBinding n cid bid = .ok pb ∧ pb.Status = "Succeeded") :
    ((PlatformBindingResource.Create client ctx req).fetches = k + 1 ∧
      (PlatformBindingResource.Create client ctx req).Diagnostics = req.PlanDiagnostics ∧
      (PlatformBindingResource.Create client ctx req).Diagnostics.HasError = false ∧
      ∃ d, (PlatformBindingResource.Create client ctx req).State = some d ∧
        d.Status = { Value := "Succeeded" }) ∧
    ((PlatformBindingResource.Update client ctx req).fetches = k + 1 ∧
      (PlatformBindingResource.Update client ctx req).Diagnostics = req.PlanDiagnostics ∧
      (PlatformBindingResource.Update client ctx req).Diagnostics.HasError = false ∧
      ∃ d, (PlatformBindingResource.Update client ctx req).State = some d ∧
        d.Status = { Value := "Succeeded" }) := by
  constructor
  · obtain ⟨pb, hpb, hpbs⟩ := hlater k req.Plan.ClusterID.Value created.PlatformBindingID
      (le_refl k)
    have hpoll := pollLoop_pending_then client req.Plan.ClusterID.Value
      created.PlatformBindingID k "Succeeded" pb hk (by decide)
      (fun n hn => hpending n _ _ hn) hpb hpbs
    rw [← hcreated] at hpoll
    rw [create_of_poll_ok client ctx req created _ hplan hcreate hpoll]
    rw [if_neg (by simp [PlatformBindingStatusSucceeded])]
    exact ⟨rfl, rfl, hplan, _, rfl, rfl⟩
  · obtain ⟨pb, hpb, hpbs⟩ := hlater k req.Plan.ClusterID.Value
      req.Plan.PlatformBindingID.Value (le_refl k)
    have hpoll := pollLoop_pending_then client req.Plan.ClusterID.Value
      req.Plan.PlatformBindingID.Value k "Succeeded" pb hk (by decide)
      (fun n hn => hpending n _ _ hn) hpb hpbs
    rw [← hupdated] at hpoll
    rw [update_of_poll_ok client ctx req updated _ hplan hupdate hpoll]
    rw [if_neg (by simp [PlatformBindingStatusSucceeded])]
    exact ⟨rfl, rfl, hplan, _, rfl, rfl⟩

theorem pendingThenSucceeded_early (k n : Nat) (cid bid : String) (h : n < k) :
    ∃ pb, (pendingThenSucceeded k).GetPlatformBinding n cid bid = .ok pb ∧
      pb.Status = "Pending" :=
  ⟨stubBinding "Pending", by simp [pendingThenSucceeded, stubClient, h, Except.map], rfl⟩

theorem pendingThenSucceeded_late (k n : Nat) (cid bid : String) (h : k ≤ n) :
    ∃ pb, (pendingThenSucceeded k).GetPlatformBinding n cid bid = .ok pb ∧
      pb.Status = "Succeeded" :=
  ⟨stubBinding "Succeeded",
    by simp [pendingThenSucceeded, stubClient, Nat.not_lt.mpr h, Except.map], rfl⟩

theorem platformBinding_converges_after_pending_witness :
    ((PlatformBindingResource.Create (pendingThenSucceeded 1) background stubRequest).fetches
        = 1 + 1 ∧
      (PlatformBindingResource.Create (pendingThenSucceeded 1) background stubRequest).Diagnostics
        = stubRequest.PlanDiagnostics ∧
      (PlatformBindingResource.Create (pendingThenSucceeded 1) background
        stubRequest).Diagnostics.HasError = false ∧
      ∃ d, (PlatformBindingResource.Create (pendingThenSucceeded 1) background
          stubRequest).State = some d ∧
        d.Status = { Value := "Succeeded" }) ∧
    ((PlatformBindingResource.Update (pendingThenSucceeded 1) background stubRequest).fetches
        = 1 + 1 ∧
      (PlatformBindingResource.Update (pendingThenSucceeded 1) background stubRequest).Diagnostics
        = stubRequest.PlanDiagnostics ∧
      (PlatformBindingResource.Update (pendingThenSucceeded 1) background
        stubRequest).Diagnostics.HasError = false ∧
      ∃ d, (PlatformBindingResource.Update (pendingThenSucceeded 1) background
          stubRequest).State = some d ∧
        d.Status = { Value := "Succeeded" }) :=
  platformBinding_converges_after_pending (pendingThenSucceeded 1) background stubRequest
    (stubBinding "Pending") (stubBinding "Pending") 1 (by decide) rfl rfl rfl rfl rfl
    (fun n cid bid h => pendingThenSucceeded_early 1 n cid bid h)
    (fun n cid bid h => pendingThenSucceeded_late 1 n cid bid h)

theorem aborted_of_fetch_error (client : Client) (cid bid : String) (pb : PlatformBinding)
    (st : PollState) (err e : String) (j : Nat)
    (hpoll : pollLoop client cid bid
      { attempts := 1, status := pb.Status, fetches := 0, slept := 0 } = .error (err, st))
    (hj : 1 ≤ j) (hissued : j ≤ st.fetches)
    (hfail : client.GetPlatformBinding (j - 1) cid bid = .error e) :
    st.fetches = j ∧ err = e := by
  obtain ⟨h1, _, _, _, _, h6, h7⟩ := pollLoop_error_spec client cid bid _ st err hpoll
  simp only at h1 h7
  have hjeq : st.fetches = j := by
    by_contra hne
    obtain ⟨pb', hpb', _⟩ := h7 (j - 1) (Nat.zero_le _) (by omega)
    rw [hpb'] at hfail
    cases hfail
  subst hjeq
  rw [h6] at hfail
  cases hfail
  exact ⟨rfl, rfl⟩

theorem no_failed_fetch_of_poll_ok (client : Client) (cid bid : String) (pb : PlatformBinding)
    (st : PollState) (e : String) (j : Nat)
    (hpoll : pollLoop client cid bid
      { attempts := 1, status := pb.Status, fetches := 0, slept := 0 } = .ok st)
    (hj : 1 ≤ j) (hissued : j ≤ st.fetches)
    (hfail : client.GetPlatformBinding (j - 1) cid bid = .error e) : False := by
  obtain ⟨_, _, _, _, _, _, h7, _, h8⟩ := pollLoop_ok_spec client cid bid _ st hpoll
  simp only at h7 h8
  by_cases hlast : j = st.fetches
  · obtain ⟨pb', hpb', _⟩ := h7 (by omega)
    rw [← hlast, hfail] at hpb'
    cases hpb'
  · obtain ⟨pb', hpb', _⟩ := h8 (j - 1) (Nat.zero_le _) (by omega)
    rw [hpb'] at hfail
    cases hfail

/-- C4: with a plan that decodes, the first remote call that fails ends
`Create` and `Update`.  A failed submit is followed by no fetch; if fetch
number `j` was issued and failed, exactly `j` fetches were issued.  In both
cases no state is written and one `Client Error` diagnostic whose text
contains the upstream error is added. -/
theorem platformBinding_first_error_aborts (client : Client) (ctx : Context)
    (req : PlanRequest) (hplan : req.PlanDiagnostics.HasError = false) :
    (∀ e, client.CreatePlatformBinding req.Plan.ClusterID.Value req.Plan.PlatformID.Value
        req.Plan.PlatformVersion.Value req.Plan.PlatformConfigID.Value = .error e →
      (PlatformBindingResource.Create client ctx req).fetches = 0 ∧
      AbortedWith req (PlatformBindingResource.Create client ctx req) e) ∧
    (∀ pb j e, client.CreatePlatformBinding req.Plan.ClusterID.Value req.Plan.PlatformID.Value
        req.Plan.PlatformVersion.Value req.Plan.PlatformConfigID.Value = .ok pb →
      1 ≤ j → j ≤ (PlatformBindingResource.Create client ctx req).fetches →
      client.GetPlatformBinding (j - 1) req.Plan.ClusterID.Value pb.PlatformBindingID
        = .error e →
      (PlatformBindingResource.Create client ctx req).fetches = j ∧
      AbortedWith req (PlatformBindingResource.Create client ctx req) e) ∧
    (∀ e, client.UpdatePlatformBinding req.Plan.ClusterID.Value
        req.Plan.PlatformBindingID.Value (ValueStringOrNull req.Plan.PlatformConfigID)
        (ValueStringOrNull req.Plan.PlatformVersion) = .error e →
      (PlatformBindingResource.Update client ctx req).fetches = 0 ∧
      AbortedWith req (PlatformBindingResource.Update client ctx req) e) ∧
    (∀ pb j e, client.UpdatePlatformBinding req.Plan.ClusterID.Value
        req.Plan.PlatformBindingID.Value (ValueStringOrNull req.Plan.PlatformConfigID)
        (ValueStringOrNull req.Plan.PlatformVersion) = .ok pb →
      1 ≤ j → j ≤ (PlatformBindingResource.Update client ctx req).fetches →
      client.GetPlatformBinding (j - 1) req.Plan.ClusterID.Value
        req.Plan.PlatformBindingID.Value = .error e →
      (PlatformBindingResource.Update client ctx req).fetches = j ∧
      AbortedWith req (PlatformBindingResource.Update client ctx req) e) := by
  refine ⟨?_, ?_, ?_, ?_⟩
  · intro e hsub
    rw [create_of_submit_error client ctx req e hplan hsub]
    exact ⟨rfl, rfl, _, rfl, containsText_append _ _⟩
  · intro pb j e hsub hj hissued hfail
    cases hpoll : pollLoop client req.Plan.ClusterID.Value pb.PlatformBindingID
        { attempts := 1, status := pb.Status, fetches := 0, slept := 0 } with
    | error p =>
      obtain ⟨err, st⟩ := p
      rw [create_of_poll_error client ctx req pb st err hplan hsub hpoll] at hissued ⊢
      obtain ⟨hn, he⟩ := aborted_of_fetch_error client _ _ pb st err e j hpoll hj hissued hfail
      subst he
      exact ⟨hn, rfl, _, rfl, containsText_append _ _⟩
    | ok st =>
      rw [create_of_poll_ok client ctx req pb st hplan hsub hpoll] at hissued
      have hissued' : j ≤ st.fetches := by
        split at hissued <;> exact hissued
      exact absurd (no_failed_fetch_of_poll_ok client _ _ pb st e j hpoll hj hissued' hfail)
        not_false
  · intro e hsub
    rw [update_of_submit_error client ctx req e hplan hsub]
    exact ⟨rfl, rfl, _, rfl, containsText_append _ _⟩
  · intro pb j e hsub hj hissued hfail
    cases hpoll : pollLoop client req.Plan.ClusterID.Value req.Plan.PlatformBindingID.Value
        { attempts := 1, status := pb.Status, fetches := 0, slept := 0 } with
    | error p =>
      obtain ⟨err, st⟩ := p
      rw [update_of_poll_error client ctx req pb st err hplan hsub hpoll] at hissued ⊢
      obtain ⟨hn, he⟩ := aborted_of_fetch_error client _ _ pb st err e j hpoll hj hissued hfail
      subst he
      exact ⟨hn, rfl, _, rfl, containsText_append _ _⟩
    | ok st =>
      rw [update_of_poll_ok client ctx req pb st hplan hsub hpoll] at hissued
      have hissued' : j ≤ st.fetches := by
        split at hissued <;> exact hissued
      exact absurd (no_failed_fetch_of_poll_ok client _ _ pb st e j hpoll hj hissued' hfail)
        not_false

theorem failingThirdFetch_create :
    PlatformBindingResource.Create failingThirdFetch background stubRequest =
      { Diagnostics := [{ severity := .error, summary := "Client Error",
                          detail := "Unable to poll platform binding, got error: boom" }],
        State := none, status := some "Pending", fetches := 3, slept := 60 } := by
  simp [PlatformBindingResource.Create, pollLoop, failingThirdFetch, stubClient, stubRequest,
    stubBinding, Diagnostics.HasError, Diagnostics.AddError, PlatformBindingStatusPending,
    Except.map]

theorem failingThirdFetch_update :
    PlatformBindingResource.Update failingThirdFetch background stubRequest =
      { Diagnostics := [{ severity := .error, summary := "Client Error",
                          detail := "Unable to poll platform binding, got error: boom" }],
        State := none, status := some "Pending", fetches := 3, slept := 60 } := by
  simp [PlatformBindingResource.Update, pollLoop, failingThirdFetch, stubClient, stubRequest,
    stubBinding, Diagnostics.HasError, Diagnostics.AddError, PlatformBindingStatusPending,
    Except.map]

theorem platformBinding_first_error_aborts_witness :
    ((PlatformBindingResource.Create failingThirdFetch background stubRequest).fetches = 3 ∧
      AbortedWith stubRequest
        (PlatformBindingResource.Create failingThirdFetch background stubRequest) "boom") ∧
    ((PlatformBindingResource.Update failingThirdFetch background stubRequest).fetches = 3 ∧
      AbortedWith stubRequest
        (PlatformBindingResource.Update failingThirdFetch background stubRequest) "boom") :=
  ⟨(platformBinding_first_error_aborts failingThirdFetch background stubRequest rfl).2.1
      (stubBinding "Pending") 3 "boom" rfl (by decide)
      (by simp [failingThirdFetch_create]) rfl,
   (platformBinding_first_error_aborts failingThirdFetch background stubRequest rfl).2.2.2
      (stubBinding "Pending") 3 "boom" rfl (by decide)
      (by simp [failingThirdFetch_update]) rfl⟩

theorem pollLoop_ok_attempts (client : Client) (cid bid : String) (st st' : PollState)
    (h : pollLoop client cid bid st = .ok st') (hst : st.attempts ≤ 21) :
    st'.attempts ≤ 21 := by
  induction st using pollLoop.induct client cid bid with
  | case1 st hc err hg =>
    rw [pollLoop, if_pos hc, hg] at h
    cases h
  | case2 st hc pb hg ih =>
    rw [pollLoop, if_pos hc, hg] at h
    exact ih h (by simp only; omega)
  | case3 st hc =>
    rw [pollLoop, if_neg hc] at h
    cases h
    exact hst

theorem pollingEnded_of_poll_error (client : Client) (cid bid : String) (s0 : String)
    (r : Run) (st : PollState) (err : String)
    (hpoll : pollLoop client cid bid { attempts := 1, status := s0, fetches := 0, slept := 0 }
      = .error (err, st))
    (hr : r.fetches = st.fetches) :
    PollingEnded client r := by
  obtain ⟨h1, h2, _, _, _, h6, _⟩ := pollLoop_error_spec client cid bid _ st err hpoll
  simp only at h1 h2
  refine ⟨by omega, Or.inr (Or.inr ⟨cid, bid, err, by omega, ?_⟩)⟩
  rw [hr]
  exact h6

theorem pollingEnded_of_poll_ok (client : Client) (cid bid : String) (s0 : String)
    (r : Run) (st : PollState)
    (hpoll : pollLoop client cid bid { attempts := 1, status := s0, fetches := 0, slept := 0 }
      = .ok st)
    (hf : r.fetches = st.fetches) (hs : r.status = some st.status) :
    PollingEnded client r := by
  obtain ⟨_, h2, h3, _, h5, _, _, _, _⟩ := pollLoop_ok_spec client cid bid _ st hpoll
  have h21 := pollLoop_ok_attempts client cid bid _ st hpoll (by simp)
  simp only at h2 h3
  refine ⟨by omega, ?_⟩
  by_cases hp : st.status = "Pending"
  · left
    have : ¬ st.attempts ≤ 20 := fun hle => h5 ⟨hp, hle⟩
    omega
  · right; left
    rw [hs]
    simpa using hp

theorem create_pollingEnded (client : Client) (ctx : Context) (req : PlanRequest) :
    PollingEnded client (PlatformBindingResource.Create client ctx req) := by
  by_cases hplan : req.PlanDiagnostics.HasError = true
  · simp only [PlatformBindingResource.Create, List.nil_append, hplan, if_true]
    exact ⟨by simp, Or.inr (Or.inl (by simp))⟩
  · have hplan' : req.PlanDiagnostics.HasError = false := by simpa using hplan
    cases hsub : client.CreatePlatformBinding req.Plan.ClusterID.Value req.Plan.PlatformID.Value
        req.Plan.PlatformVersion.Value req.Plan.PlatformConfigID.Value with
    | error e =>
      rw [create_of_submit_error client ctx req e hplan' hsub]
      exact ⟨by simp, Or.inr (Or.inl (by simp))⟩
    | ok pb =>
      cases hpoll : pollLoop client req.Plan.ClusterID.Value pb.PlatformBindingID
          { attempts := 1, status := pb.Status, fetches := 0, slept := 0 } with
      | error p =>
        obtain ⟨err, st⟩ := p
        refine pollingEnded_of_poll_error client _ _ _ _ st err hpoll ?_
        rw [create_of_poll_error client ctx req pb st err hplan' hsub hpoll]
      | ok st =>
        refine pollingEnded_of_poll_ok client _ _ _ _ st hpoll ?_ ?_
        · rw [create_of_poll_ok client ctx req pb st hplan' hsub hpoll]
          split <;> rfl
        · rw [create_of_poll_ok client ctx req pb st hplan' hsub hpoll]
          split <;> rfl

theorem update_pollingEnded (client : Client) (ctx : Context) (req : PlanRequest) :
    PollingEnded client (PlatformBindingResource.Update client ctx req) := by
  by_cases hplan : req.PlanDiagnostics.HasError = true
  · simp only [PlatformBindingResource.Update, List.nil_append, hplan, if_true]
    exact ⟨by simp, Or.inr (Or.inl (by simp))⟩
  · have hplan' : req.PlanDiagnostics.HasError = false := by simpa using hplan
    cases hsub : client.UpdatePlatformBinding req.Plan.ClusterID.Value
        req.Plan.PlatformBindingID.Value (ValueStringOrNull req.Plan.PlatformConfigID)
        (ValueStringOrNull req.Plan.PlatformVersion) with
    | error e =>
      rw [update_of_submit_error client ctx req e hplan' hsub]
      exact ⟨by simp, Or.inr (Or.inl (by simp))⟩
    | ok pb =>
      cases hpoll : pollLoop client req.Plan.ClusterID.Value req.Plan.PlatformBindingID.Value
          { attempts := 1, status := pb.Status, fetches := 0, slept := 0 } with
      | error p =>
        obtain ⟨err, st⟩ := p
        refine pollingEnded_of_poll_error client _ _ _ _ st err hpoll ?_
        rw [update_of_poll_error client ctx req pb st err hplan' hsub hpoll]
      | ok st =>
        refine pollingEnded_of_poll_ok client _ _ _ _ st hpoll ?_ ?_
        · rw [update_of_poll_ok client ctx req pb st hplan' hsub hpoll]
          split <;> rfl
        · rw [update_of_poll_ok client ctx req pb st hplan' hsub hpoll]
          split <;> rfl

theorem alwaysPending_create (ctx : Context) :
    (PlatformBindingResource.Create alwaysPending ctx stubRequest).fetches = 20 := by
  have hpoll := pollLoop_always_pending alwaysPending "C-1" "PB-1"
    (fun _ => ⟨stubBinding "Pending", rfl, rfl⟩)
  rw [create_of_poll_ok alwaysPending ctx stubRequest (stubBinding "Pending") _ rfl rfl hpoll]
  rw [if_pos (by decide)]

theorem alwaysPending_update (ctx : Context) :
    (PlatformBindingResource.Update alwaysPending ctx stubRequest).fetches = 20 := by
  have hpoll := pollLoop_always_pending alwaysPending "C-1" "PB-1"
    (fun _ => ⟨stubBinding "Pending", rfl, rfl⟩)
  rw [update_of_poll_ok alwaysPending ctx stubRequest (stubBinding "Pending") _ rfl rfl hpoll]
  rw [if_pos (by decide)]

/-- C6, as stated, fails: with a context cancelled once the first fetch has
been issued and a server that stays `Pending`, `Create` and `Update` each
issue 19 further fetches after the cancellation. -/
theorem platformBinding_polls_after_cancellation :
    fetchesAfterCancel (cancelledFrom 1)
      (PlatformBindingResource.Create alwaysPending (cancelledFrom 1) stubRequest).fetches
      = 19 ∧
    fetchesAfterCancel (cancelledFrom 1)
      (PlatformBindingResource.Update alwaysPending (cancelledFrom 1) stubRequest).fetches
      = 19 := by
  rw [alwaysPending_create, alwaysPending_update]
  decide

/-- C6, amended: `Create` and `Update` never consult the host-supplied
context.  A run is the same (fetches issued, diagnostics, state) under any two
contexts, cancelled or not, and its polling ends only when the status held is
no longer `Pending`, when a fetch fails, or when 20 fetches have been
issued. -/
theorem platformBinding_ignores_cancellation (client : Client) (ctx ctx' : Context)
    (req : PlanRequest) :
    PlatformBindingResource.Create client ctx req =
      PlatformBindingResource.Create client ctx' req ∧
    PlatformBindingResource.Update client ctx req =
      PlatformBindingResource.Update client ctx' req ∧
    PollingEnded client (PlatformBindingResource.Create client ctx req) ∧
    PollingEnded client (PlatformBindingResource.Update client ctx req) :=
  ⟨rfl, rfl, create_pollingEnded client ctx req, update_pollingEnded client ctx req⟩

/-! ## The scanner, one character at a time -/

theorem char_le_iff (a b : Char) : a ≤ b ↔ a.toNat ≤ b.toNat := Iff.rfl

theorem char_eq_iff (a b : Char) : a = b ↔ a.toNat = b.toNat :=
  ⟨fun h => by rw [h], fun h => Char.ext (UInt32.ext h)⟩

theorem isSpace_iff (c : Char) :
    isSpace c = true ↔ c.toNat = 32 ∨ c.toNat = 9 ∨ c.toNat = 13 ∨ c.toNat = 10 := by
  simp only [isSpace, Bool.and_eq_true, Bool.or_eq_true, decide_eq_true_eq, beq_iff_eq,
    char_le_iff, char_eq_iff]
  simp
  omega

theorem isDigit_iff (c : Char) : isDigit c = true ↔ 48 ≤ c.toNat ∧ c.toNat ≤ 57 := by
  simp only [isDigit, Bool.and_eq_true, decide_eq_true_eq, char_le_iff]
  simp

theorem isDigit19_iff (c : Char) : isDigit19 c = true ↔ 49 ≤ c.toNat ∧ c.toNat ≤ 57 := by
  simp only [isDigit19, Bool.and_eq_true, decide_eq_true_eq, char_le_iff]
  simp

theorem isHex_iff (c : Char) : isHex c = true ↔
    (48 ≤ c.toNat ∧ c.toNat ≤ 57) ∨ (97 ≤ c.toNat ∧ c.toNat ≤ 102) ∨
      (65 ≤ c.toNat ∧ c.toNat ≤ 70) := by
  simp only [isHex, Bool.and_eq_true, Bool.or_eq_true, decide_eq_true_eq, char_le_iff]
  simp
  tauto

theorem isSpace_ne_quote (c : Char) (h : isSpace c = true) : ¬ c = '"' := by
  rw [isSpace_iff] at h
  rw [char_eq_iff]
  simp
  omega

theorem isDigit_ne_quote (c : Char) (h : isDigit c = true) : ¬ c = '"' := by
  rw [isDigit_iff] at h
  rw [char_eq_iff]
  simp
  omega

theorem isDigit_not_space (c : Char) (h : isDigit c = true) : isSpace c = false := by
  rw [isDigit_iff] at h
  rw [← Bool.not_eq_true, isSpace_iff]
  omega

theorem isDigit19_isDigit (c : Char) (h : isDigit19 c = true) : isDigit c = true := by
  rw [isDigit19_iff] at h
  rw [isDigit_iff]
  omega

theorem isHex_ne_quote (c : Char) (h : isHex c = true) : ¬ c = '"' ∧ ¬ c = '\\' := by
  rw [isHex_iff] at h
  rw [char_eq_iff, char_eq_iff]
  simp
  omega

theorem stepSpec_error (m : StripMode) (s : Scanner) (c : Char) (context : String) (v : Nat) :
    StepSpec m ((s.error c context).1, v) c :=
  Or.inr ⟨rfl, rfl⟩

theorem stateEndTop_spec (s : Scanner) (c : Char) (hs : s.err = none) (hstep : s.step = .EndTop) :
    StepSpec .outside (stateEndTop s c) c := by
  by_cases h1 : isSpace c = true
  · left
    simp [stateEndTop, Scanner.Ok, hs, hstep, Step.mode, StripMode.next, isSpace_ne_quote c h1,
      h1, scanSkipSpace, scanEnd, scanError]
  · right
    simp [stateEndTop, h1, Scanner.error, Scanner.Errored]

theorem stateEndValue_spec (s : Scanner) (c : Char) (hs : s.err = none) :
    StepSpec .outside (stateEndValue s c) c := by
  by_cases h1 : s.parseState.length = 0
  · simp only [stateEndValue, h1, if_true]
    exact stateEndTop_spec _ c hs rfl
  · by_cases h2 : isSpace c = true
    · left
      simp [stateEndValue, h1, Scanner.Ok, hs, Step.mode, StripMode.next,
        isSpace_ne_quote c h2, h2, scanSkipSpace, scanError]
    · rcases hgl : s.parseState.getLast? with _ | ps
      · right
        simp [stateEndValue, h1, h2, hgl, Scanner.error, Scanner.Errored]
      · cases ps <;>
          simp only [stateEndValue, h1, h2, hgl, Scanner.error, Scanner.popParseState,
            Scanner.setTop, if_false] <;>
          split_ifs <;>
          simp_all [StepSpec, Scanner.Ok, Scanner.Errored, Step.mode, StripMode.next,
            scanSkipSpace, scanObjectKey, scanObjectValue, scanEndObject, scanArrayValue,
            scanEndArray, scanError]

theorem stepSpec_outside (s : Scanner) (v : Nat) (c : Char) (hs : s.Ok)
    (hm : s.step.mode = StripMode.outside.next c) (hv : v < scanSkipSpace)
    (hsp : isSpace c = false) : StepSpec .outside (s, v) c := by
  left
  refine ⟨hs, ?_, ?_, hm⟩
  · simp only [scanSkipSpace, scanError] at hv ⊢
    omega
  · simp only [scanSkipSpace] at hv ⊢
    simp [hsp]
    omega

theorem stepSpec_space (s : Scanner) (c : Char) (hs : s.Ok) (hm : s.step.mode = .outside)
    (hsp : isSpace c = true) : StepSpec .outside (s, scanSkipSpace) c := by
  left
  simp [hs, hm, StripMode.next, isSpace_ne_quote c hsp, hsp, scanSkipSpace, scanError]

theorem stateBeginValue_spec (s : Scanner) (c : Char) (hs : s.err = none)
    (hne : s.step ≠ .Error) (hm : s.step.mode = .outside) :
    StepSpec .outside (stateBeginValue s c) c := by
  by_cases h1 : isSpace c = true
  · simp only [stateBeginValue, h1, if_true]
    exact stepSpec_space s c ⟨hs, hne⟩ hm h1
  · have h1' : isSpace c = false := by simpa using h1
    simp only [stateBeginValue, h1', Bool.false_eq_true, if_false]
    split_ifs with h2 h3 h4 h5 h6 h7 h8 h9 h10
    · simp only [Scanner.pushParseState]
      split_ifs
      · exact stepSpec_outside _ _ c ⟨hs, by simp⟩ (by simp [h2, Step.mode, StripMode.next])
          (by decide) h1'
      · exact stepSpec_error _ _ _ _ _
    · simp only [Scanner.pushParseState]
      split_ifs
      · exact stepSpec_outside _ _ c ⟨hs, by simp⟩ (by simp [h3, Step.mode, StripMode.next])
          (by decide) h1'
      · exact stepSpec_error _ _ _ _ _
    · exact stepSpec_outside _ _ c ⟨hs, by simp⟩ (by simp [h4, Step.mode, StripMode.next])
        (by decide) h1'
    · exact stepSpec_outside _ _ c ⟨hs, by simp⟩ (by simp [h4, Step.mode, StripMode.next])
        (by decide) h1'
    · exact stepSpec_outside _ _ c ⟨hs, by simp⟩ (by simp [h4, Step.mode, StripMode.next])
        (by decide) h1'
    · exact stepSpec_outside _ _ c ⟨hs, by simp⟩ (by simp [h4, Step.mode, StripMode.next])
        (by decide) h1'
    · exact stepSpec_outside _ _ c ⟨hs, by simp⟩ (by simp [h4, Step.mode, StripMode.next])
        (by decide) h1'
    · exact stepSpec_outside _ _ c ⟨hs, by simp⟩ (by simp [h4, Step.mode, StripMode.next])
        (by decide) h1'
    · exact stepSpec_outside _ _ c ⟨hs, by simp⟩ (by simp [h4, Step.mode, StripMode.next])
        (by decide) h1'
    · exact stepSpec_error _ _ _ _ _

theorem stateBeginValueOrEmpty_spec (s : Scanner) (c : Char) (hs : s.err = none)
    (hne : s.step ≠ .Error) (hm : s.step.mode = .outside) :
    StepSpec .outside (stateBeginValueOrEmpty s c) c := by
  by_cases h1 : isSpace c = true
  · simp only [stateBeginValueOrEmpty, h1, if_true]
    exact stepSpec_space s c ⟨hs, hne⟩ hm h1
  · have h1' : isSpace c = false := by simpa using h1
    simp only [stateBeginValueOrEmpty, h1', Bool.false_eq_true, if_false]
    split_ifs
    · exact stateEndValue_spec s c hs
    · exact stateBeginValue_spec s c hs hne hm

theorem stateBeginString_spec (s : Scanner) (c : Char) (hs : s.err = none)
    (hne : s.step ≠ .Error) (hm : s.step.mode = .outside) :
    StepSpec .outside (stateBeginString s c) c := by
  by_cases h1 : isSpace c = true
  · simp only [stateBeginString, h1, if_true]
    exact stepSpec_space s c ⟨hs, hne⟩ hm h1
  · have h1' : isSpace c = false := by simpa using h1
    simp only [stateBeginString, h1', Bool.false_eq_true, if_false]
    split_ifs with h2
    · exact stepSpec_outside _ _ c ⟨hs, by simp⟩ (by simp [h2, Step.mode, StripMode.next])
        (by decide) h1'
    · exact stepSpec_error _ _ _ _ _

theorem stateBeginStringOrEmpty_spec (s : Scanner) (c : Char) (hs : s.err = none)
    (hne : s.step ≠ .Error) (hm : s.step.mode = .outside) :
    StepSpec .outside (stateBeginStringOrEmpty s c) c := by
  by_cases h1 : isSpace c = true
  · simp only [stateBeginStringOrEmpty, h1, if_true]
    exact stepSpec_space s c ⟨hs, hne⟩ hm h1
  · have h1' : isSpace c = false := by simpa using h1
    simp only [stateBeginStringOrEmpty, h1', Bool.false_eq_true, if_false]
    split_ifs
    · exact stateEndValue_spec _ c hs
    · exact stateBeginString_spec s c hs hne hm

theorem stateInString_spec (s : Scanner) (c : Char) (hs : s.err = none)
    (hstep : s.step = .InString) :
    StepSpec .inString (stateInString s c) c := by
  simp only [stateInString, Scanner.error]
  split_ifs <;>
    simp_all [StepSpec, Scanner.Ok, Scanner.Errored, Step.mode, StripMode.next, scanSkipSpace,
      scanContinue, scanError]

theorem stateInStringEsc_spec (s : Scanner) (c : Char) (hs : s.err = none) :
    StepSpec .escaped (stateInStringEsc s c) c := by
  simp only [stateInStringEsc, Scanner.error]
  split_ifs <;>
    simp_all [StepSpec, Scanner.Ok, Scanner.Errored, Step.mode, StripMode.next, scanSkipSpace,
      scanContinue, scanError]

theorem stateInStringEscHex_spec (next : Step) (s : Scanner) (c : Char) (hs : s.err = none)
    (hnext : next.mode = .inString) (hne : next ≠ .Error) :
    StepSpec .inString (stateInStringEscHex next s c) c := by
  simp only [stateInStringEscHex, Scanner.error]
  split_ifs with h
  · left
    simp [Scanner.Ok, hs, hne, hnext, StripMode.next, isHex_ne_quote c h, scanSkipSpace,
      scanContinue, scanError]
  · right
    simp [Scanner.Errored]

theorem state0_spec (s : Scanner) (c : Char) (hs : s.err = none) :
    StepSpec .outside (state0 s c) c := by
  simp only [state0]
  split_ifs with h1 h2
  · subst h1
    exact stepSpec_outside _ _ _ ⟨hs, by simp⟩ rfl (by decide) (by decide)
  · rcases h2 with h2 | h2 <;> subst h2 <;>
      exact stepSpec_outside _ _ _ ⟨hs, by simp⟩ rfl (by decide) (by decide)
  · exact stateEndValue_spec s c hs

theorem stepSpec_digit (s : Scanner) (c : Char) (hs : s.Ok) (hm : s.step.mode = .outside)
    (h : isDigit c = true) : StepSpec .outside (s, scanContinue) c := by
  left
  simp [hs, hm, StripMode.next, isDigit_ne_quote c h, isDigit_not_space c h, scanSkipSpace,
    scanContinue, scanError]

theorem state1_spec (s : Scanner) (c : Char) (hs : s.err = none) :
    StepSpec .outside (state1 s c) c := by
  simp only [state1]
  split_ifs with h
  · exact stepSpec_digit _ c ⟨hs, by simp⟩ rfl h
  · exact state0_spec s c hs

theorem stateNeg_spec (s : Scanner) (c : Char) (hs : s.err = none) :
    StepSpec .outside (stateNeg s c) c := by
  simp only [stateNeg]
  split_ifs with h1 h2
  · subst h1
    exact stepSpec_digit _ _ ⟨hs, by simp⟩ rfl (by decide)
  · exact stepSpec_digit _ c ⟨hs, by simp⟩ rfl (isDigit19_isDigit c h2)
  · exact stepSpec_error _ _ _ _ _

theorem stateDot_spec (s : Scanner) (c : Char) (hs : s.err = none) :
    StepSpec .outside (stateDot s c) c := by
  simp only [stateDot]
  split_ifs with h
  · exact stepSpec_digit _ c ⟨hs, by simp⟩ rfl h
  · exact stepSpec_error _ _ _ _ _

theorem stateDot0_spec (s : Scanner) (c : Char) (hs : s.err = none) (hstep : s.step = .Dot0) :
    StepSpec .outside (stateDot0 s c) c := by
  simp only [stateDot0]
  split_ifs with h1 h2
  · exact stepSpec_digit _ c ⟨hs, by simp [hstep]⟩ (by simp [hstep, Step.mode]) h1
  · rcases h2 with h2 | h2 <;> subst h2 <;>
      exact stepSpec_outside _ _ _ ⟨hs, by simp⟩ rfl (by decide) (by decide)
  · exact stateEndValue_spec s c hs

theorem stateESign_spec (s : Scanner) (c : Char) (hs : s.err = none) :
    StepSpec .outside (stateESign s c) c := by
  simp only [stateESign]
  split_ifs with h
  · exact stepSpec_digit _ c ⟨hs, by simp⟩ rfl h
  · exact stepSpec_error _ _ _ _ _

theorem stateE_spec (s : Scanner) (c : Char) (hs : s.err = none) :
    StepSpec .outside (stateE s c) c := by
  simp only [stateE]
  split_ifs with h
  · rcases h with h | h <;> subst h <;>
      exact stepSpec_outside _ _ _ ⟨hs, by simp⟩ rfl (by decide) (by decide)
  · exact stateESign_spec s c hs

theorem stateE0_spec (s : Scanner) (c : Char) (hs : s.err = none) (hstep : s.step = .E0) :
    StepSpec .outside (stateE0 s c) c := by
  simp only [stateE0]
  split_ifs with h
  · exact stepSpec_digit _ c ⟨hs, by simp [hstep]⟩ (by simp [hstep, Step.mode]) h
  · exact stateEndValue_spec s c hs

theorem stateLiteral_spec (expected : Char) (next : Step) (context : String) (s : Scanner)
    (c : Char) (hs : s.err = none) (hnext : next.mode = .outside) (hne : next ≠ .Error)
    (hq : ¬ expected = '"') (hsp : isSpace expected = false) :
    StepSpec .outside (stateLiteral expected next context s c) c := by
  simp only [stateLiteral]
  split_ifs with h
  · left
    subst h
    simp [Scanner.Ok, hs, hne, hnext, StripMode.next, hq, hsp, scanSkipSpace, scanContinue,
      scanError]
  · exact stepSpec_error _ _ _ _ _

theorem run_spec (s : Scanner) (c : Char) (hs : s.Ok) : StepSpec s.step.mode (s.run c) c := by
  obtain ⟨he, hne⟩ := hs
  unfold Scanner.run
  cases hstep : s.step with
  | BeginValueOrEmpty => exact stateBeginValueOrEmpty_spec s c he hne (by rw [hstep]; rfl)
  | BeginValue => exact stateBeginValue_spec s c he hne (by rw [hstep]; rfl)
  | BeginStringOrEmpty => exact stateBeginStringOrEmpty_spec s c he hne (by rw [hstep]; rfl)
  | BeginString => exact stateBeginString_spec s c he hne (by rw [hstep]; rfl)
  | EndValue => exact stateEndValue_spec s c he
  | EndTop => exact stateEndTop_spec s c he hstep
  | InString => exact stateInString_spec s c he hstep
  | InStringEsc => exact stateInStringEsc_spec s c he
  | InStringEscU => exact stateInStringEscHex_spec _ s c he rfl (by simp)
  | InStringEscU1 => exact stateInStringEscHex_spec _ s c he rfl (by simp)
  | InStringEscU12 => exact stateInStringEscHex_spec _ s c he rfl (by simp)
  | InStringEscU123 => exact stateInStringEscHex_spec _ s c he rfl (by simp)
  | Neg => exact stateNeg_spec s c he
  | S1 => exact state1_spec s c he
  | S0 => exact state0_spec s c he
  | Dot => exact stateDot_spec s c he
  | Dot0 => exact stateDot0_spec s c he hstep
  | E => exact stateE_spec s c he
  | ESign => exact stateESign_spec s c he
  | E0 => exact stateE0_spec s c he hstep
  | T => exact stateLiteral_spec _ _ _ s c he rfl (by simp) (by decide) (by decide)
  | Tr => exact stateLiteral_spec _ _ _ s c he rfl (by simp) (by decide) (by decide)
  | Tru => exact stateLiteral_spec _ _ _ s c he rfl (by simp) (by decide) (by decide)
  | F => exact stateLiteral_spec _ _ _ s c he rfl (by simp) (by decide) (by decide)
  | Fa => exact stateLiteral_spec _ _ _ s c he rfl (by simp) (by decide) (by decide)
  | Fal => exact stateLiteral_spec _ _ _ s c he rfl (by simp) (by decide) (by decide)
  | Fals => exact stateLiteral_spec _ _ _ s c he rfl (by simp) (by decide) (by decide)
  | N => exact stateLiteral_spec _ _ _ s c he rfl (by simp) (by decide) (by decide)
  | Nu => exact stateLiteral_spec _ _ _ s c he rfl (by simp) (by decide) (by decide)
  | Nul => exact stateLiteral_spec _ _ _ s c he rfl (by simp) (by decide) (by decide)
  | Error => exact absurd hstep hne

/-! ## The scanner over a text -/

theorem run_errored (s : Scanner) (c : Char) (h : s.Errored) : s.run c = (s, scanError) := by
  unfold Scanner.run
  rw [h.2]
  rfl

theorem run_sane (s : Scanner) (c : Char) (h : s.Ok ∨ s.Errored) :
    (s.run c).1.Ok ∨ (s.run c).1.Errored := by
  rcases h with h | h
  · rcases run_spec s c h with h' | h'
    · exact Or.inl h'.1
    · exact Or.inr h'
  · rw [run_errored s c h]
    exact Or.inr h

theorem run_scanError (s : Scanner) (c : Char) (h : s.Ok ∨ s.Errored)
    (hv : (s.run c).2 = scanError) : (s.run c).1.Errored := by
  rcases h with h | h
  · rcases run_spec s c h with h' | h'
    · exact absurd hv h'.2.1
    · exact h'
  · rw [run_errored s c h]
    exact h

theorem scanKept_cons_scanner (c : Char) (rest : List Char) (s : Scanner) :
    (scanKept (c :: rest) s).1 =
      if (s.run c).2 = scanError then (s.run c).1 else (scanKept rest (s.run c).1).1 := by
  simp only [scanKept]
  split_ifs <;> rfl

theorem scanKept_cons_done (c : Char) (rest : List Char) (s : Scanner) :
    (scanKept (c :: rest) s).2.1 =
      if (s.run c).2 = scanError then false else (scanKept rest (s.run c).1).2.1 := by
  simp only [scanKept]
  split_ifs <;> rfl

theorem scanKept_cons_kept (c : Char) (rest : List Char) (s : Scanner) :
    (scanKept (c :: rest) s).2.2 =
      if (s.run c).2 = scanError then []
      else if (s.run c).2 ≥ scanSkipSpace then (scanKept rest (s.run c).1).2.2
      else c :: (scanKept rest (s.run c).1).2.2 := by
  simp only [scanKept]
  split_ifs <;> rfl

theorem scanKept_errored (l : List Char) (s : Scanner) (h : s.Errored) :
    (scanKept l s).1.Errored := by
  cases l with
  | nil => exact h
  | cons c rest =>
    rw [scanKept_cons_scanner, run_errored s c h, if_pos rfl]
    exact h

theorem scanKept_sane (l : List Char) :
    ∀ s : Scanner, s.Ok ∨ s.Errored → (scanKept l s).1.Ok ∨ (scanKept l s).1.Errored := by
  induction l with
  | nil => intro s h; exact h
  | cons c rest ih =>
    intro s h
    rw [scanKept_cons_scanner]
    split_ifs with hv
    · exact Or.inr (run_scanError s c h hv)
    · exact ih _ (run_sane s c h)

theorem scanKept_broken (l : List Char) :
    ∀ s : Scanner, s.Ok ∨ s.Errored → (scanKept l s).2.1 = false → (scanKept l s).1.Errored := by
  induction l with
  | nil => intro s _ h; simp [scanKept] at h
  | cons c rest ih =>
    intro s h hb
    rw [scanKept_cons_done] at hb
    rw [scanKept_cons_scanner]
    split_ifs at hb ⊢ with hv
    · exact run_scanError s c h hv
    · exact ih _ (run_sane s c h) hb

theorem isSpace_iff_whitespace (c : Char) :
    isSpace c = true ↔ (c = ' ' ∨ c = '\t' ∨ c = '\n' ∨ c = '\r') := by
  rw [isSpace_iff, char_eq_iff, char_eq_iff, char_eq_iff, char_eq_iff]
  simp
  omega

theorem errored_err_ne_none (s : Scanner) (h : s.Errored) : s.err ≠ none := by
  intro hn
  have := h.1
  rw [hn] at this
  cases this

theorem scanKept_eq_strip (l : List Char) :
    ∀ s : Scanner, s.Ok → (scanKept l s).1.err = none →
      (scanKept l s).2.2 = stripInsignificant s.step.mode l := by
  induction l with
  | nil => intro s _ _; rfl
  | cons c rest ih =>
    intro s hs hfin
    rw [scanKept_cons_scanner] at hfin
    rw [scanKept_cons_kept]
    rcases run_spec s c hs with ⟨hok, hv, hdrop, hmode⟩ | herr
    · rw [if_neg hv] at hfin ⊢
      have hrest := ih _ hok hfin
      rw [hrest, hmode]
      simp only [stripInsignificant, ← isSpace_iff_whitespace]
      by_cases hd : (s.run c).2 ≥ scanSkipSpace
      · rw [if_pos hd, if_pos (hdrop.mp hd)]
      · rw [if_neg hd, if_neg (fun h => hd (hdrop.mpr h))]
    · exfalso
      split_ifs at hfin with hv
      · exact errored_err_ne_none _ herr hfin
      · exact errored_err_ne_none _ (scanKept_errored rest _ herr) hfin

theorem eof_of_errored (s : Scanner) (h : s.Errored) : s.eof.2 = scanError := by
  simp [Scanner.eof, h.1]

theorem eof_ok_err_none (s : Scanner) (h : s.eof.2 ≠ scanError) : s.err = none := by
  by_contra hne
  have : s.err.isSome = true := by
    cases hs : s.err with
    | none => exact absurd hs hne
    | some _ => rfl
  simp [Scanner.eof, this] at h

theorem checkValidLoop_eq (l : List Char) :
    ∀ s : Scanner, checkValidLoop l s = ((scanKept l s).1, (scanKept l s).2.1) := by
  induction l with
  | nil => intro s; rfl
  | cons c rest ih =>
    intro s
    rw [checkValidLoop, scanKept_cons_scanner, scanKept_cons_done]
    split_ifs
    · rfl
    · exact ih _

theorem compactLoop_eq (src : List Char) :
    ∀ (rest pre : List Char) (scan : Scanner) (start : Nat) (dst : List Char),
      src = pre ++ rest → start ≤ pre.length →
      (compactLoop src rest pre.length scan start dst).1 = (scanKept rest scan).1 ∧
      ((scanKept rest scan).2.1 = true →
        (compactLoop src rest pre.length scan start dst).2.2 ++
            src.drop (compactLoop src rest pre.length scan start dst).2.1 =
          dst ++ pre.drop start ++ (scanKept rest scan).2.2) := by
  intro rest
  induction rest with
  | nil =>
    intro pre scan start dst hsrc hstart
    simp only [List.append_nil] at hsrc
    subst hsrc
    simp [compactLoop, scanKept]
  | cons c rest ih =>
    intro pre scan start dst hsrc hstart
    have hsrc' : src = (pre ++ [c]) ++ rest := by simp [hsrc]
    have hlen : (pre ++ [c]).length = pre.length + 1 := by simp
    rw [compactLoop, scanKept_cons_scanner, scanKept_cons_done, scanKept_cons_kept]
    by_cases hd : (scan.run c).2 ≥ scanSkipSpace
    · by_cases hv : (scan.run c).2 = scanError
      · simp only [if_pos hd, if_pos hv]
        simp
      · have hflush : (if start < pre.length then
            dst ++ List.take (pre.length - start) (List.drop start src) else dst) =
            dst ++ pre.drop start := by
          split_ifs with hlt
          · rw [hsrc, List.drop_append_of_le_length hstart, List.take_append_of_le_length
              (by simp), List.take_of_length_le (by simp)]
          · rw [List.drop_of_length_le (by omega), List.append_nil]
        simp only [if_pos hd, if_neg hv, hflush]
        have := ih (pre ++ [c]) (scan.run c).1 (pre.length + 1) (dst ++ pre.drop start) hsrc'
          (by simp)
        rw [hlen] at this
        refine ⟨this.1, fun hk => ?_⟩
        rw [this.2 hk]
        simp
    · have hv : ¬ (scan.run c).2 = scanError := by
        intro h; apply hd; rw [h]; decide
      simp only [if_neg hd, if_neg hv]
      have := ih (pre ++ [c]) (scan.run c).1 start dst hsrc' (by simp; omega)
      rw [hlen] at this
      refine ⟨this.1, fun hk => ?_⟩
      rw [this.2 hk, List.drop_append_of_le_length hstart]
      simp

theorem compact_eq (src : List Char) :
    compact src =
      if (scanKept src newScanner).2.1 = true ∧ (scanKept src newScanner).1.eof.2 ≠ scanError
      then .ok (scanKept src newScanner).2.2
      else .error ((scanKept src newScanner).1.eof.1.err.getD .unexpectedEnd) := by
  have h := compactLoop_eq src src [] newScanner 0 [] rfl (Nat.le_refl _)
  simp only [List.length_nil, List.drop_nil, List.append_nil, List.nil_append] at h
  obtain ⟨h1, h2⟩ := h
  unfold compact
  rw [show compactLoop src src 0 newScanner 0 [] =
    ((compactLoop src src 0 newScanner 0 []).1, (compactLoop src src 0 newScanner 0 []).2.1,
      (compactLoop src src 0 newScanner 0 []).2.2) from rfl]
  simp only [h1]
  by_cases hk : (scanKept src newScanner).2.1 = true
  · by_cases he : (scanKept src newScanner).1.eof.2 = scanError
    · simp [he]
    · have h2' := h2 hk
      simp only [he, if_false, hk, true_and, ne_eq, not_false_eq_true, if_true]
      congr 1
      split_ifs with hlt
      · exact h2'
      · rw [List.drop_of_length_le (by omega), List.append_nil] at h2'
        exact h2'
  · have hk' : (scanKept src newScanner).2.1 = false := by simpa using hk
    have he := eof_of_errored _
      (scanKept_broken src newScanner (Or.inl ⟨rfl, by simp [newScanner]⟩) hk')
    simp [he, hk']

theorem jsonValid_iff (src : List Char) :
    jsonValid src = true ↔
      ((scanKept src newScanner).2.1 = true ∧ (scanKept src newScanner).1.eof.2 ≠ scanError) := by
  simp [jsonValid, checkValidLoop_eq]

theorem compact_of_valid (src : List Char) (h : jsonValid src = true) :
    compact src = .ok (stripInsignificant .outside src) := by
  rw [compact_eq, if_pos ((jsonValid_iff src).mp h)]
  obtain ⟨_, he⟩ := (jsonValid_iff src).mp h
  rw [scanKept_eq_strip src newScanner ⟨rfl, by simp [newScanner]⟩ (eof_ok_err_none _ he)]
  rfl

theorem compact_ok_valid (src out : List Char) (h : compact src = .ok out) :
    jsonValid src = true := by
  rw [compact_eq] at h
  split_ifs at h with hc
  exact (jsonValid_iff src).mpr hc

/-! ## Scanning a text without its insignificant whitespace -/

theorem isSpace_ne (c d : Char) (h : isSpace c = true) (hd : isSpace d = false) : ¬ c = d := by
  intro hcd
  rw [hcd, hd] at h
  cases h

theorem isSpace_not_digit (c : Char) (h : isSpace c = true) : isDigit c = false := by
  cases hd : isDigit c with
  | false => rfl
  | true => rw [isDigit_not_space c hd] at h; cases h

theorem isSpace_not_digit19 (c : Char) (h : isSpace c = true) : isDigit19 c = false := by
  cases hd : isDigit19 c with
  | false => rfl
  | true => rw [isDigit_not_space c (isDigit19_isDigit c hd)] at h; cases h

theorem isSpace_not_literal (c : Char) (h : isSpace c = true) :
    ¬ c = '0' ∧ ¬ c = '+' ∧ ¬ c = '-' ∧ ¬ c = 'r' ∧ ¬ c = 'u' ∧ ¬ c = 'e' ∧ ¬ c = 'a' ∧
      ¬ c = 'l' ∧ ¬ c = 's' :=
  ⟨isSpace_ne c _ h (by decide), isSpace_ne c _ h (by decide), isSpace_ne c _ h (by decide),
    isSpace_ne c _ h (by decide), isSpace_ne c _ h (by decide), isSpace_ne c _ h (by decide),
    isSpace_ne c _ h (by decide), isSpace_ne c _ h (by decide), isSpace_ne c _ h (by decide)⟩

theorem stateEndValue_space (s : Scanner) (c : Char) (h : isSpace c = true) :
    stateEndValue s c =
      if s.parseState.length = 0 then ({ s with step := .EndTop, endTop := true }, scanEnd)
      else ({ s with step := .EndValue }, scanSkipSpace) := by
  simp only [stateEndValue, stateEndTop, h, Bool.not_true, Bool.false_eq_true, if_false, if_true]

theorem stateEndValue_step_irrelevant (s : Scanner) (c : Char) (st : Step)
    (hlen : s.parseState.length ≠ 0) (hsp : isSpace c = false)
    (herr : (stateEndValue s c).1.step ≠ .Error) :
    stateEndValue { s with step := st } c = stateEndValue s c ∧
      (c = ':' ∨ c = ',' ∨ c = '}' ∨ c = ']') := by
  rcases hgl : s.parseState.getLast? with _ | ps
  · simp [stateEndValue, hlen, hsp, hgl, Scanner.error] at herr
  · cases ps <;>
      simp only [stateEndValue, hlen, hsp, hgl, Scanner.error, Scanner.popParseState,
        Scanner.setTop, if_false, Bool.false_eq_true] at herr ⊢ <;>
      split_ifs at herr ⊢ <;> simp_all

theorem numEnd_run (t : Scanner) (c : Char) (hnum : t.step.numEnd = true)
    (hd : isDigit c = false) (h1 : ¬ c = '.') (h2 : ¬ c = 'e') (h3 : ¬ c = 'E') :
    t.run c = stateEndValue t c := by
  unfold Scanner.run
  cases hstep : t.step <;> rw [hstep] at hnum <;>
    first
    | (exfalso; revert hnum; decide)
    | simp [state1, state0, stateDot0, stateE0, hd, h1, h2, h3]

theorem numEnd_run_space (t : Scanner) (c : Char) (hnum : t.step.numEnd = true)
    (h : isSpace c = true) : t.run c = stateEndValue t c :=
  numEnd_run t c hnum (isSpace_not_digit c h) (isSpace_ne c _ h (by decide))
    (isSpace_ne c _ h (by decide)) (isSpace_ne c _ h (by decide))

theorem sim_dropped (s t : Scanner) (c : Char) (hs : s.Ok) (hsim : Sim s t)
    (hok : (s.run c).1.Ok) (hd : (s.run c).2 ≥ scanSkipSpace) : Sim (s.run c).1 t := by
  have hsp : s.step.mode = .outside ∧ isSpace c = true := by
    rcases run_spec s c hs with ⟨_, _, hdrop, _⟩ | herr
    · exact hdrop.mp hd
    · exact absurd herr.2 hok.2
  obtain ⟨hm, hc⟩ := hsp
  obtain ⟨n0, nplus, nminus, nr, nu, ne, na, nl, ns⟩ := isSpace_not_literal c hc
  have hev : ∀ u : Scanner, u.err = none → u.run c = stateEndValue u c →
      (u.step.numEnd = true ∨ u.step = .EndValue) → Sim (u.run c).1 u := by
    intro u hue hrun hst
    rw [hrun, stateEndValue_space u c hc]
    split_ifs with hlen
    · right; right
      have hnil : u.parseState = [] := List.length_eq_zero.mp hlen
      exact ⟨rfl, rfl, hnil, hnil, hst, hue⟩
    · have hnn : u.parseState ≠ [] := fun h => hlen (by rw [h]; rfl)
      rcases hst with hst | hst
      · right; left
        exact ⟨rfl, hnn, hst, rfl⟩
      · left
        rw [← hst]
  rcases hsim with heq | ⟨hst, hnn, hnum, ht⟩ | ⟨hst, het, hnil, htn, htst, hte⟩
  · subst heq
    have key : (s.run c).1 = s ∨
        (s.run c = stateEndValue s c ∧ (s.step.numEnd = true ∨ s.step = .EndValue)) := by
      unfold Scanner.run at hok ⊢
      cases hstep : s.step <;> rw [hstep] at hok hm <;> simp only at hok ⊢
      case BeginValueOrEmpty => left; simp [stateBeginValueOrEmpty, hc]
      case BeginValue => left; simp [stateBeginValue, hc]
      case BeginStringOrEmpty => left; simp [stateBeginStringOrEmpty, hc]
      case BeginString => left; simp [stateBeginString, hc]
      case EndValue => right; simp
      case EndTop => left; simp [stateEndTop, hc]
      case S1 =>
        right
        refine ⟨?_, Or.inl rfl⟩
        have := numEnd_run_space s c (by rw [hstep]; rfl) hc
        unfold Scanner.run at this
        rw [hstep] at this
        exact this
      case S0 =>
        right
        refine ⟨?_, Or.inl rfl⟩
        have := numEnd_run_space s c (by rw [hstep]; rfl) hc
        unfold Scanner.run at this
        rw [hstep] at this
        exact this
      case Dot0 =>
        right
        refine ⟨?_, Or.inl rfl⟩
        have := numEnd_run_space s c (by rw [hstep]; rfl) hc
        unfold Scanner.run at this
        rw [hstep] at this
        exact this
      case E0 =>
        right
        refine ⟨?_, Or.inl rfl⟩
        have := numEnd_run_space s c (by rw [hstep]; rfl) hc
        unfold Scanner.run at this
        rw [hstep] at this
        exact this
      case InString => exact absurd hm (by decide)
      case InStringEsc => exact absurd hm (by decide)
      case InStringEscU => exact absurd hm (by decide)
      case InStringEscU1 => exact absurd hm (by decide)
      case InStringEscU12 => exact absurd hm (by decide)
      case InStringEscU123 => exact absurd hm (by decide)
      case Error => exact absurd hstep hs.2
      case Neg =>
        exfalso
        simp [stateNeg, n0, isSpace_not_digit19 c hc, Scanner.error, Scanner.Ok] at hok
      case Dot =>
        exfalso
        simp [stateDot, isSpace_not_digit c hc, Scanner.error, Scanner.Ok] at hok
      case E =>
        exfalso
        simp [stateE, stateESign, nplus, nminus, isSpace_not_digit c hc, Scanner.error,
          Scanner.Ok] at hok
      case ESign =>
        exfalso
        simp [stateESign, isSpace_not_digit c hc, Scanner.error, Scanner.Ok] at hok
      all_goals
        exfalso
        simp [stateT, stateTr, stateTru, stateF, stateFa, stateFal, stateFals, stateN, stateNu,
          stateNul, stateLiteral, nr, nu, ne, na, nl, ns, Scanner.error, Scanner.Ok] at hok
    rcases key with key | ⟨hrun, hst⟩
    · rw [key]; exact Or.inl rfl
    · exact hev s hs.1 hrun hst
  · have hrun : s.run c = stateEndValue s c := by
      unfold Scanner.run; rw [hst]
    rw [hrun, stateEndValue_space s c hc]
    have hlen : ¬ s.parseState.length = 0 := fun h => hnn (List.length_eq_zero.mp h)
    rw [if_neg hlen]
    right; left
    exact ⟨rfl, hnn, hnum, ht⟩
  · have hrun : s.run c = stateEndTop s c := by
      unfold Scanner.run; rw [hst]
    rw [hrun]
    simp only [stateEndTop, hc, Bool.not_true, Bool.false_eq_true, if_false]
    right; right
    exact ⟨hst, het, hnil, htn, htst, hte⟩

theorem sim_kept (s t : Scanner) (c : Char) (hsim : Sim s t)
    (hok : (s.run c).1.Ok) (hk : ¬ (s.run c).2 ≥ scanSkipSpace) : t.run c = s.run c := by
  rcases hsim with heq | ⟨hst, hnn, hnum, ht⟩ | ⟨hst, _, _, _, _, _⟩
  · rw [heq]
  · have hrun : s.run c = stateEndValue s c := by
      unfold Scanner.run; rw [hst]
    have hlen : s.parseState.length ≠ 0 := fun h => hnn (List.length_eq_zero.mp h)
    have hsp : isSpace c = false := by
      cases hc : isSpace c with
      | false => rfl
      | true =>
        exfalso
        apply hk
        rw [hrun, stateEndValue_space s c hc, if_neg hlen]
    rw [hrun] at hok ⊢
    obtain ⟨heq, hchar⟩ := stateEndValue_step_irrelevant s c t.step hlen hsp hok.2
    rw [← ht] at heq
    rw [← heq]
    apply numEnd_run t c hnum
    · rcases hchar with h | h | h | h <;> subst h <;> decide
    · rcases hchar with h | h | h | h <;> subst h <;> decide
    · rcases hchar with h | h | h | h <;> subst h <;> decide
    · rcases hchar with h | h | h | h <;> subst h <;> decide
  · exfalso
    apply hk
    have hrun : s.run c = stateEndTop s c := by
      unfold Scanner.run; rw [hst]
    rw [hrun]
    simp only [stateEndTop]
    split_ifs <;> simp [scanEnd, scanSkipSpace]

theorem eof_of_endTop (t : Scanner) (he : t.err = none) (h : t.endTop = true) :
    t.eof.2 ≠ scanError := by
  simp [Scanner.eof, he, h, scanEnd, scanError]

theorem eof_of_run_endTop (t : Scanner) (he : t.err = none)
    (h : (t.run ' ').1.endTop = true) : t.eof.2 ≠ scanError := by
  by_cases ht : t.endTop = true
  · exact eof_of_endTop t he ht
  · simp [Scanner.eof, he, ht, h, scanEnd, scanError]

theorem sim_eof (s t : Scanner) (hs : s.Ok) (hsim : Sim s t) (he : s.eof.2 ≠ scanError) :
    t.eof.2 ≠ scanError := by
  rcases hsim with heq | ⟨hst, hnn, hnum, ht⟩ | ⟨hst, _, _, htn, htst, hte⟩
  · rw [← heq]; exact he
  · have hlen : ¬ s.parseState.length = 0 := fun h => hnn (List.length_eq_zero.mp h)
    have hte : t.err = none := by rw [ht]; exact hs.1
    have htop : t.endTop = s.endTop := by rw [ht]
    by_cases hse : s.endTop = true
    · exact eof_of_endTop t hte (by rw [htop]; exact hse)
    · exfalso
      apply he
      have hrun : s.run ' ' = stateEndValue s ' ' := by
        unfold Scanner.run; rw [hst]
      simp [Scanner.eof, hs.1, hse, hrun, stateEndValue_space s ' ' (by decide), hlen]
  · apply eof_of_run_endTop t hte
    have hlen : t.parseState.length = 0 := by rw [htn]; rfl
    have hrun : t.run ' ' = stateEndValue t ' ' := by
      rcases htst with h | h
      · exact numEnd_run_space t ' ' h (by decide)
      · unfold Scanner.run; rw [h]
    rw [hrun, stateEndValue_space t ' ' (by decide), if_pos hlen]

theorem scanKept_sim (l : List Char) :
    ∀ s t : Scanner, s.Ok → Sim s t → (scanKept l s).2.1 = true →
      (scanKept l s).1.err = none →
      (scanKept (scanKept l s).2.2 t).2.1 = true ∧
      (scanKept (scanKept l s).2.2 t).2.2 = (scanKept l s).2.2 ∧
      (scanKept l s).1.Ok ∧
      Sim (scanKept l s).1 (scanKept (scanKept l s).2.2 t).1 := by
  induction l with
  | nil =>
    intro s t hs hsim _ _
    exact ⟨rfl, rfl, hs, hsim⟩
  | cons c rest ih =>
    intro s t hs hsim hdone hfin
    rw [scanKept_cons_done] at hdone
    rw [scanKept_cons_scanner] at hfin ⊢
    rw [scanKept_cons_kept]
    rcases run_spec s c hs with ⟨hok, hv, _, _⟩ | herr
    · rw [if_neg hv] at hdone hfin ⊢
      rw [if_neg hv]
      by_cases hd : (s.run c).2 ≥ scanSkipSpace
      · rw [if_pos hd]
        exact ih _ t hok (sim_dropped s t c hs hsim hok hd) hdone hfin
      · rw [if_neg hd]
        have hrun := sim_kept s t c hsim hok hd
        have := ih _ (s.run c).1 hok (Or.inl rfl) hdone hfin
        rw [scanKept_cons_done, scanKept_cons_kept, scanKept_cons_scanner, hrun, if_neg hv,
          if_neg hv, if_neg hv, if_neg hd]
        exact ⟨this.1, by rw [this.2.1], this.2.2.1, this.2.2.2⟩
    · exfalso
      split_ifs at hfin with hv
      · exact errored_err_ne_none _ herr hfin
      · exact errored_err_ne_none _ (scanKept_errored rest _ herr) hfin

theorem newScanner_ok : newScanner.Ok := ⟨rfl, by simp [newScanner]⟩

theorem compact_idempotent (src out : List Char) (h : compact src = .ok out) :
    jsonValid out = true ∧ compact out = .ok out := by
  rw [compact_eq] at h
  split_ifs at h with hc
  obtain ⟨hdone, he⟩ := hc
  simp only [Except.ok.injEq] at h
  obtain ⟨h1, h2, h3, h4⟩ := scanKept_sim src newScanner newScanner newScanner_ok (Or.inl rfl)
    hdone (eof_ok_err_none _ he)
  rw [h] at h1 h2 h4
  have he' := sim_eof _ _ h3 h4 he
  refine ⟨(jsonValid_iff out).mpr ⟨h1, he'⟩, ?_⟩
  rw [compact_eq, if_pos ⟨h1, he'⟩, h2]

/-! ## `MinifyJSONString` and `ClusterResource.Read` -/

theorem minify_of_valid (val : String) (h : jsonValid val.data = true) :
    MinifyJSONString val = .ok (withoutInsignificantWhitespace val) := by
  simp only [MinifyJSONString, compact_of_valid val.data h, withoutInsignificantWhitespace]

theorem minify_ok_valid (val out : String) (h : MinifyJSONString val = .ok out) :
    jsonValid val.data = true := by
  unfold MinifyJSONString at h
  cases hc : compact val.data with
  | error e => rw [hc] at h; cases h
  | ok o => exact compact_ok_valid val.data o hc

theorem clusterRead_of_minified (client : Client) (ctx : Context) (req : ClusterStateRequest)
    (cluster : Cluster) (minified : String)
    (hstate : req.StateDiagnostics.HasError = false)
    (hget : client.GetCluster req.State.ClusterID.Value = .ok cluster)
    (hmin : MinifyJSONString (StringValueOrNull cluster.Context).Value = .ok minified) :
    ClusterResource.Read client ctx req =
      .ok { Diagnostics := req.StateDiagnostics,
            State := some { req.State with
              Name := { Value := cluster.Name },
              ApiVersion := { Value := cluster.ApiVersion },
              Ca := StringValueOrNull cluster.Ca,
              Server := StringValueOrNull cluster.Server,
              Context := { StringValueOrNull cluster.Context with Value := minified } } } := by
  simp only [ClusterResource.Read, List.nil_append, hstate, hget, hmin]
  simp

theorem clusterRead_of_panic (client : Client) (ctx : Context) (req : ClusterStateRequest)
    (cluster : Cluster) (err : SyntaxError)
    (hstate : req.StateDiagnostics.HasError = false)
    (hget : client.GetCluster req.State.ClusterID.Value = .ok cluster)
    (hmin : MinifyJSONString (StringValueOrNull cluster.Context).Value = .error err) :
    ClusterResource.Read client ctx req = .error err := by
  simp only [ClusterResource.Read, List.nil_append, hstate, hget, hmin]
  simp

/-- C5, at the failing input: `GetCluster` returns a cluster without `ca`,
`server` and `context`; `Read` maps the absent context to the null string,
hands its empty `Value` to `MinifyJSONString`, and panics with the scanner's
"unexpected end of JSON input" instead of writing `context = null`. -/
theorem clusterRead_panics_without_context :
    (StringValueOrNull stubCluster.Context) = { Null := true, Value := "" } ∧
    MinifyJSONString "" = .error .unexpectedEnd ∧
    ClusterResource.Read (clusterClient stubCluster) background stubClusterState =
      .error .unexpectedEnd :=
  ⟨rfl, rfl, clusterRead_of_panic (clusterClient stubCluster) background stubClusterState
    stubCluster .unexpectedEnd rfl rfl rfl⟩

/-- C7: for a cluster whose server-side context `c` is valid JSON (accepted by
`json.Valid`), `MinifyJSONString c` returns `c` with every insignificant
whitespace character (space, tab, line feed, carriage return outside string
literals) removed and every other character kept in order, and `Read` writes
state with `context` equal to that text; `{ "a" : 1 }` is returned as
`{"a":1}`. -/
theorem clusterRead_context_minified (client : Client) (ctx : Context)
    (req : ClusterStateRequest) (cluster : Cluster) (c : String)
    (hstate : req.StateDiagnostics.HasError = false)
    (hget : client.GetCluster req.State.ClusterID.Value = .ok cluster)
    (hctx : cluster.Context = some c)
    (hvalid : jsonValid c.data = true) :
    MinifyJSONString c = .ok (withoutInsignificantWhitespace c) ∧
    (∃ d, ClusterResource.Read client ctx req =
        .ok { Diagnostics := req.StateDiagnostics, State := some d } ∧
      d.Context = { Value := withoutInsignificantWhitespace c } ∧
      MinifyJSONString c = .ok d.Context.Value) ∧
    MinifyJSONString "\x7b \"a\" : 1 \x7d" = .ok "\x7b\"a\":1\x7d" := by
  have hmin := minify_of_valid c hvalid
  refine ⟨hmin, ⟨_, clusterRead_of_minified client ctx req cluster
    (withoutInsignificantWhitespace c) hstate hget (by rw [hctx]; exact hmin), ?_, ?_⟩, rfl⟩
  · rw [hctx]; rfl
  · exact hmin

theorem clusterRead_context_minified_witness :
    MinifyJSONString "\x7b \"a\" : 1 \x7d" = .ok (withoutInsignificantWhitespace "\x7b \"a\" : 1 \x7d") ∧
    (∃ d, ClusterResource.Read (clusterClient (clusterWithContext "\x7b \"a\" : 1 \x7d")) background
          stubClusterState =
        .ok { Diagnostics := stubClusterState.StateDiagnostics, State := some d } ∧
      d.Context = { Value := withoutInsignificantWhitespace "\x7b \"a\" : 1 \x7d" } ∧
      MinifyJSONString "\x7b \"a\" : 1 \x7d" = .ok d.Context.Value) ∧
    MinifyJSONString "\x7b \"a\" : 1 \x7d" = .ok "\x7b\"a\":1\x7d" :=
  clusterRead_context_minified (clusterClient (clusterWithContext "\x7b \"a\" : 1 \x7d")) background
    stubClusterState (clusterWithContext "\x7b \"a\" : 1 \x7d") "\x7b \"a\" : 1 \x7d" rfl rfl rfl rfl

/-- C8: for every valid JSON text `J` (accepted by `json.Valid`),
`MinifyJSONString J` returns a text `M` that is itself valid JSON, and
`MinifyJSONString M` returns `M` again. -/
theorem minify_idempotent (J : String) (hvalid : jsonValid J.data = true) :
    ∃ M, MinifyJSONString J = .ok M ∧ jsonValid M.data = true ∧
      MinifyJSONString M = .ok M := by
  have hc := compact_of_valid J.data hvalid
  obtain ⟨hv, hi⟩ := compact_idempotent J.data _ hc
  refine ⟨withoutInsignificantWhitespace J, minify_of_valid J hvalid, hv, ?_⟩
  simp only [MinifyJSONString, withoutInsignificantWhitespace, hi]

theorem minify_idempotent_witness :
    ∃ M, MinifyJSONString "\x7b \"a\" : [1 , 2] \x7d" = .ok M ∧ jsonValid M.data = true ∧
      MinifyJSONString M = .ok M :=
  minify_idempotent "\x7b \"a\" : [1 , 2] \x7d" rfl

/-- C9, as stated, fails: `1.0` and `1.00` are valid JSON texts that parse to
the same JSON value, and so are `"\u0041"` and `"A"`, yet `MinifyJSONString`
returns each text unchanged, so the outputs differ. -/
theorem minify_keeps_spelling :
    (jsonValid "1.0".data = true ∧ jsonValid "1.00".data = true ∧
      parseJSON "1.0" = some (.number 1 0) ∧ parseJSON "1.00" = some (.number 1 0) ∧
      MinifyJSONString "1.0" = .ok "1.0" ∧ MinifyJSONString "1.00" = .ok "1.00" ∧
      MinifyJSONString "1.0" ≠ MinifyJSONString "1.00") ∧
    (jsonValid "\"\\u0041\"".data = true ∧ jsonValid "\"A\"".data = true ∧
      parseJSON "\"\\u0041\"" = some (.string ['A']) ∧
      parseJSON "\"A\"" = some (.string ['A']) ∧
      MinifyJSONString "\"\\u0041\"" = .ok "\"\\u0041\"" ∧
      MinifyJSONString "\"A\"" = .ok "\"A\"" ∧
      MinifyJSONString "\"\\u0041\"" ≠ MinifyJSONString "\"A\"") := by
  have h1 : MinifyJSONString "1.0" = .ok "1.0" := rfl
  have h2 : MinifyJSONString "1.00" = .ok "1.00" := rfl
  have h3 : MinifyJSONString "\"\\u0041\"" = .ok "\"\\u0041\"" := rfl
  have h4 : MinifyJSONString "\"A\"" = .ok "\"A\"" := rfl
  refine ⟨⟨rfl, rfl, rfl, rfl, h1, h2, ?_⟩, ⟨rfl, rfl, rfl, rfl, h3, h4, ?_⟩⟩
  · rw [h1, h2]
    intro h
    simp only [Except.ok.injEq] at h
    revert h
    decide
  · rw [h3, h4]
    intro h
    simp only [Except.ok.injEq] at h
    revert h
    decide

/-- C9, amended: `MinifyJSONString` is canonical with respect to
insignificant whitespace only.  Two valid JSON texts have the same minified
output exactly when they are equal once their insignificant whitespace is
removed; a difference in key order, number spelling or string escapes is
kept. -/
theorem minify_canonical_up_to_whitespace (J1 J2 : String)
    (h1 : jsonValid J1.data = true) (h2 : jsonValid J2.data = true) :
    MinifyJSONString J1 = MinifyJSONString J2 ↔
      withoutInsignificantWhitespace J1 = withoutInsignificantWhitespace J2 := by
  rw [minify_of_valid J1 h1, minify_of_valid J2 h2]
  constructor
  · intro h
    simpa using h
  · intro h
    rw [h]

theorem minify_canonical_up_to_whitespace_witness :
    MinifyJSONString "\x7b \"a\" : 1 \x7d" = MinifyJSONString "\x7b\"a\":\t1\x7d\n" ↔
      withoutInsignificantWhitespace "\x7b \"a\" : 1 \x7d" =
        withoutInsignificantWhitespace "\x7b\"a\":\t1\x7d\n" :=
  minify_canonical_up_to_whitespace "\x7b \"a\" : 1 \x7d" "\x7b\"a\":\t1\x7d\n" rfl rfl

/-! ## The tri-state helpers -/

/-- C10: `StringValueOrNull` maps an absent string to the null string and a
present `v` to the known string `v`; `ValueStringOrNull` maps a null string to
absent and any other to its value; `ValueStringOrNull (StringValueOrNull p) = p`
for every optional string `p`, and `StringValueOrNull (ValueStringOrNull s) = s`
for every tri-state string `s` that is the null string or a known string. -/
theorem triState_helpers_inverse :
    StringValueOrNull none = { Null := true } ∧
    (∀ v, StringValueOrNull (some v) = { Value := v }) ∧
    (∀ s : TfString, s.IsNull = true → ValueStringOrNull s = none) ∧
    (∀ s : TfString, s.IsNull = false → ValueStringOrNull s = some s.Value) ∧
    (∀ p, ValueStringOrNull (StringValueOrNull p) = p) ∧
    (∀ s : TfString, (s = { Null := true } ∨ (s.Null = false ∧ s.Unknown = false)) →
      StringValueOrNull (ValueStringOrNull s) = s) := by
  refine ⟨rfl, fun _ => rfl, ?_, ?_, ?_, ?_⟩
  · intro s h
    simp [ValueStringOrNull, h]
  · intro s h
    simp [ValueStringOrNull, h]
  · intro p
    cases p <;> rfl
  · intro s h
    rcases h with h | ⟨hn, hu⟩
    · subst h
      rfl
    · obtain ⟨u, n, v⟩ := s
      simp only at hn hu
      subst hn hu
      rfl

theorem triState_helpers_inverse_witness :
    StringValueOrNull (ValueStringOrNull { Value := "v" }) = { Value := "v" } ∧
    StringValueOrNull (ValueStringOrNull { Null := true }) = { Null := true } ∧
    ValueStringOrNull { Null := true } = none ∧
    ValueStringOrNull { Value := "v" } = some "v" :=
  ⟨triState_helpers_inverse.2.2.2.2.2 { Value := "v" } (Or.inr ⟨rfl, rfl⟩),
   triState_helpers_inverse.2.2.2.2.2 { Null := true } (Or.inl rfl),
   triState_helpers_inverse.2.2.1 { Null := true } rfl,
   triState_helpers_inverse.2.2.2.1 { Value := "v" } rfl⟩

/-! ## Identifiers under `Read` -/

theorem clusterRead_state (client : Client) (ctx : Context) (req : ClusterStateRequest)
    (run : ClusterRun) (d : ClusterResourceModel)
    (h : ClusterResource.Read client ctx req = .ok run) (hd : run.State = some d) :
    ∃ cluster minified, client.GetCluster req.State.ClusterID.Value = .ok cluster ∧
      MinifyJSONString (StringValueOrNull cluster.Context).Value = .ok minified ∧
      d = { req.State with
              Name := { Value := cluster.Name },
              ApiVersion := { Value := cluster.ApiVersion },
              Ca := StringValueOrNull cluster.Ca,
              Server := StringValueOrNull cluster.Server,
              Context := { StringValueOrNull cluster.Context with Value := minified } } := by
  unfold ClusterResource.Read at h
  simp only [List.nil_append] at h
  by_cases hdiag : req.StateDiagnostics.HasError = true
  · rw [if_pos hdiag] at h
    cases h
    cases hd
  · rw [if_neg hdiag] at h
    cases hget : client.GetCluster req.State.ClusterID.Value with
    | error e =>
      rw [hget] at h
      cases h
      cases hd
    | ok cluster =>
      rw [hget] at h
      simp only at h
      cases hmin : MinifyJSONString (StringValueOrNull cluster.Context).Value with
      | error e =>
        rw [hmin] at h
        cases h
      | ok minified =>
        rw [hmin] at h
        cases h
        cases hd
        exact ⟨cluster, minified, rfl, hmin, rfl⟩

theorem bindingRead_state (client : Client) (ctx : Context) (req : BindingStateRequest)
    (d : PlatformBindingResourceModel)
    (hd : (PlatformBindingResource.Read client ctx req).State = some d) :
    ∃ pb, client.GetPlatformBinding 0 req.State.ClusterID.Value
        req.State.PlatformBindingID.Value = .ok pb ∧
      d = { req.State with
              PlatformConfigID := { Value := pb.PlatformConfigID },
              PlatformID := { Value := pb.PlatformID },
              PlatformVersion := { Value := pb.PlatformVersion },
              Status := { Value := pb.Status } } := by
  unfold PlatformBindingResource.Read at hd
  simp only [List.nil_append] at hd
  by_cases hdiag : req.StateDiagnostics.HasError = true
  · rw [if_pos hdiag] at hd
    cases hd
  · rw [if_neg hdiag] at hd
    cases hget : client.GetPlatformBinding 0 req.State.ClusterID.Value
        req.State.PlatformBindingID.Value with
    | error e =>
      rw [hget] at hd
      cases hd
    | ok pb =>
      rw [hget] at hd
      simp only [Option.some.injEq] at hd
      exact ⟨pb, rfl, hd.symm⟩

/-- C13: whenever `ClusterResource.Read` writes state, the `id` written is the
`id` of the prior state; whenever `PlatformBindingResource.Read` writes state,
the `id` and the `cluster_id` written are those of the prior state; both
whatever the server returns. -/
theorem read_preserves_identifiers (client : Client) (ctx : Context) :
    (∀ (req : ClusterStateRequest) (run : ClusterRun) (d : ClusterResourceModel),
      ClusterResource.Read client ctx req = .ok run → run.State = some d →
      d.ClusterID = req.State.ClusterID) ∧
    (∀ (req : BindingStateRequest) (d : PlatformBindingResourceModel),
      (PlatformBindingResource.Read client ctx req).State = some d →
      d.PlatformBindingID = req.State.PlatformBindingID ∧
      d.ClusterID = req.State.ClusterID) := by
  constructor
  · intro req run d h hd
    obtain ⟨cluster, minified, _, _, hdeq⟩ := clusterRead_state client ctx req run d h hd
    rw [hdeq]
  · intro req d hd
    obtain ⟨pb, _, hdeq⟩ := bindingRead_state client ctx req d hd
    rw [hdeq]
    exact ⟨rfl, rfl⟩

theorem read_preserves_identifiers_witness :
    stubClusterReadState.ClusterID = stubClusterState.State.ClusterID ∧
    stubBindingReadState.PlatformBindingID = stubBindingState.State.PlatformBindingID ∧
    stubBindingReadState.ClusterID = stubBindingState.State.ClusterID :=
  ⟨(read_preserves_identifiers (clusterClient (clusterWithContext "1")) background).1
      stubClusterState { Diagnostics := [], State := some stubClusterReadState }
      stubClusterReadState rfl rfl,
   (read_preserves_identifiers (stubClient (.ok "Pending") (fun _ => .ok "Succeeded"))
      background).2 stubBindingState stubBindingReadState rfl⟩

/-! ## The poll cadence -/

theorem countP_range_all (p : Nat → Bool) (n : Nat) (h : ∀ i, i < n → p i = true) :
    (List.range n).countP p = n := by
  induction n with
  | zero => rfl
  | succ n ih =>
    rw [List.range_succ, List.countP_append, ih (fun i hi => h i (by omega))]
    simp [h n (by omega)]

theorem countP_range_all_but_last (p : Nat → Bool) (n : Nat) (h : ∀ i, i < n → p i = true)
    (hlast : p n = false) : (List.range (n + 1)).countP p = n := by
  rw [List.range_succ, List.countP_append, countP_range_all p n h]
  simp [hlast]

theorem sleepCadence_of_poll_ok (client : Client) (cid bid : String) (s0 : String)
    (r : Run) (st : PollState)
    (hpoll : pollLoop client cid bid { attempts := 1, status := s0, fetches := 0, slept := 0 }
      = .ok st)
    (hf : r.fetches = st.fetches) (hs : r.slept = st.slept) :
    SleepCadence client cid bid r := by
  obtain ⟨_, h2, h3, h4, _, h6, h7, _, h8⟩ := pollLoop_ok_spec client cid bid _ st hpoll
  have h21 := pollLoop_ok_attempts client cid bid _ st hpoll (by simp)
  simp only at h2 h3 h4 h6 h7 h8
  have hall : ∀ i, i < st.fetches →
      (match client.GetPlatformBinding i cid bid with
        | .ok _ => true
        | .error _ => false) = true := by
    intro i hi
    by_cases hlast : i + 1 < st.fetches
    · obtain ⟨pb, hpb, _⟩ := h8 i (Nat.zero_le _) hlast
      rw [hpb]
    · obtain ⟨pb, hpb, _⟩ := h7 (by omega)
      have : st.fetches - 1 = i := by omega
      rw [this] at hpb
      rw [hpb]
  refine ⟨?_, ?_, ?_⟩
  · rw [hs, hf, successfulFetches, countP_range_all _ _ hall, h4]
    omega
  · rw [hs, h4]
    omega
  · intro e he
    rw [hs]
    by_cases h0 : st.fetches = 0
    · rw [h6 h0]
    · have := hall 0 (Nat.pos_of_ne_zero h0)
      rw [he] at this
      cases this

theorem sleepCadence_of_poll_error (client : Client) (cid bid : String) (s0 : String)
    (r : Run) (st : PollState) (err : String)
    (hpoll : pollLoop client cid bid { attempts := 1, status := s0, fetches := 0, slept := 0 }
      = .error (err, st))
    (hf : r.fetches = st.fetches) (hs : r.slept = st.slept) :
    SleepCadence client cid bid r := by
  obtain ⟨h1, h2, h3, _, _, h6, h7⟩ := pollLoop_error_spec client cid bid _ st err hpoll
  simp only at h1 h2 h3 h7
  obtain ⟨m, hm⟩ : ∃ m, st.fetches = m + 1 := ⟨st.fetches - 1, by omega⟩
  rw [hm] at h6 h7 h3 h2
  simp only [Nat.add_sub_cancel] at h6
  have hall : ∀ i, i < m →
      (match client.GetPlatformBinding i cid bid with
        | .ok _ => true
        | .error _ => false) = true := by
    intro i hi
    obtain ⟨pb, hpb, _⟩ := h7 i (Nat.zero_le _) (by omega)
    rw [hpb]
  have hcount : successfulFetches client cid bid (m + 1) = m := by
    rw [successfulFetches]
    exact countP_range_all_but_last _ m hall (by rw [h6])
  refine ⟨?_, ?_, ?_⟩
  · rw [hs, hf, hm, hcount, h3]
    simp
  · rw [hs, h3]
    omega
  · intro e he
    rw [hs, h3]
    by_cases h0 : m = 0
    · subst h0; rfl
    · have := hall 0 (Nat.pos_of_ne_zero h0)
      rw [he] at this
      cases this

/-- C15: on the injected clock, for every sequence of fetch answers, with a
plan that decodes and a submit that returns, `Create` and `Update` sleep 30 s
after every fetch that returns (the last one included) and at no other time:
the time slept is 30 s times the number of fetches that returned, nothing is
slept before the first fetch, and the total never exceeds 600 s. -/
theorem platformBinding_sleep_cadence (client : Client) (ctx : Context)
    (req : PlanRequest) (created updated : PlatformBinding)
    (hplan : req.PlanDiagnostics.HasError = false)
    (hcreate : client.CreatePlatformBinding req.Plan.ClusterID.Value req.Plan.PlatformID.Value
      req.Plan.PlatformVersion.Value req.Plan.PlatformConfigID.Value = .ok created)
    (hupdate : client.UpdatePlatformBinding req.Plan.ClusterID.Value
      req.Plan.PlatformBindingID.Value (ValueStringOrNull req.Plan.PlatformConfigID)
      (ValueStringOrNull req.Plan.PlatformVersion) = .ok updated) :
    SleepCadence client req.Plan.ClusterID.Value created.PlatformBindingID
      (PlatformBindingResource.Create client ctx req) ∧
    SleepCadence client req.Plan.ClusterID.Value req.Plan.PlatformBindingID.Value
      (PlatformBindingResource.Update client ctx req) := by
  constructor
  · cases hpoll : pollLoop client req.Plan.ClusterID.Value created.PlatformBindingID
        { attempts := 1, status := created.Status, fetches := 0, slept := 0 } with
    | error p =>
      obtain ⟨err, st⟩ := p
      refine sleepCadence_of_poll_error client _ _ _ _ st err hpoll ?_ ?_ <;>
        rw [create_of_poll_error client ctx req created st err hplan hcreate hpoll]
    | ok st =>
      refine sleepCadence_of_poll_ok client _ _ _ _ st hpoll ?_ ?_ <;>
        rw [create_of_poll_ok client ctx req created st hplan hcreate hpoll] <;>
        split <;> rfl
  · cases hpoll : pollLoop client req.Plan.ClusterID.Value req.Plan.PlatformBindingID.Value
        { attempts := 1, status := updated.Status, fetches := 0, slept := 0 } with
    | error p =>
      obtain ⟨err, st⟩ := p
      refine sleepCadence_of_poll_error client _ _ _ _ st err hpoll ?_ ?_ <;>
        rw [update_of_poll_error client ctx req updated st err hplan hupdate hpoll]
    | ok st =>
      refine sleepCadence_of_poll_ok client _ _ _ _ st hpoll ?_ ?_ <;>
        rw [update_of_poll_ok client ctx req updated st hplan hupdate hpoll] <;>
        split <;> rfl

theorem platformBinding_sleep_cadence_witness :
    SleepCadence failingThirdFetch stubRequest.Plan.ClusterID.Value
      (stubBinding "Pending").PlatformBindingID
      (PlatformBindingResource.Create failingThirdFetch background stubRequest) ∧
    SleepCadence failingThirdFetch stubRequest.Plan.ClusterID.Value
      stubRequest.Plan.PlatformBindingID.Value
      (PlatformBindingResource.Update failingThirdFetch background stubRequest) :=
  platformBinding_sleep_cadence failingThirdFetch background stubRequest
    (stubBinding "Pending") (stubBinding "Pending") rfl rfl rfl

/-! ## Go maps -/

theorem find?_filter_ne {α : Type} (key k : String) (hk : ¬ k = key) (l : List (String × α)) :
    List.find? (fun e => e.1 == k) (List.filter (fun e => e.1 != key) l) =
      List.find? (fun e => e.1 == k) l := by
  induction l with
  | nil => rfl
  | cons e rest ih =>
    by_cases hek : e.1 = key
    · have hp : (e.1 != key) = false := by simp [hek]
      have hq : (e.1 == k) = false := by
        rw [hek]
        simpa using fun h => hk h.symm
      rw [List.filter_cons, List.find?_cons, hq]
      simp only [hp, Bool.false_eq_true, if_false]
      exact ih
    · have hp : (e.1 != key) = true := by simpa using hek
      rw [List.filter_cons]
      simp only [hp, if_true]
      rw [List.find?_cons, List.find?_cons, ih]

theorem GoMap.get_set {α : Type} (m : GoMap α) (key : String) (value : α) (k : String) :
    (m.set key value).get k = if k = key then some value else m.get k := by
  unfold GoMap.set GoMap.get
  simp only [List.find?_append]
  by_cases hk : k = key
  · subst hk
    have hnone : List.find? (fun e => e.1 == k)
        (List.filter (fun e => e.1 != k) m.entries) = none := by
      rw [List.find?_eq_none]
      intro e he
      have := (List.mem_filter.mp he).2
      simpa using this
    simp [hnone]
  · rw [if_neg hk, find?_filter_ne key k hk]
    cases hfind : List.find? (fun e => e.1 == k) m.entries with
    | some e => simp
    | none =>
      have : ¬ key = k := fun h => hk h.symm
      simp [this]

theorem GoMap.get_empty {α : Type} (k : String) : (GoMap.empty : GoMap α).get k = none := rfl

theorem GoMap.get_foldl_set {α β : Type} (key : β → String) (value : β → α) (l : List β) :
    ∀ (m : GoMap α) (k : String),
      (l.foldl (fun acc x => acc.set (key x) (value x)) m).get k =
        match l.reverse.find? (fun x => key x == k) with
        | some x => some (value x)
        | none => m.get k := by
  induction l with
  | nil => intro m k; rfl
  | cons a rest ih =>
    intro m k
    rw [List.foldl_cons, ih, List.reverse_cons, List.find?_append]
    cases hfind : List.find? (fun x => key x == k) rest.reverse with
    | some x => rfl
    | none =>
      simp only [Option.none_or, List.find?_cons, List.find?_nil]
      rw [GoMap.get_set]
      by_cases hk : key a = k
      · simp [hk]
      · have hb : (key a == k) = false := by simpa using hk
        have : ¬ k = key a := fun h => hk h.symm
        simp only [hb, if_neg this]

theorem find?_of_nodup {β : Type} (key : β → String) (l : List β) (x : β)
    (hnodup : (l.map key).Nodup) (hx : x ∈ l) :
    l.find? (fun y => key y == key x) = some x := by
  induction l with
  | nil => cases hx
  | cons a rest ih =>
    rw [List.map_cons, List.nodup_cons] at hnodup
    rcases List.mem_cons.mp hx with hxa | hxr
    · subst hxa
      simp
    · have hne : ¬ key a = key x := by
        intro h
        apply hnodup.1
        rw [h]
        exact List.mem_map_of_mem key hxr
      simp only [List.find?_cons]
      have : (key a == key x) = false := by simpa using hne
      rw [this]
      exact ih hnodup.2 hxr

theorem GoMap.get_foldl_set_of_nodup {α β : Type} (key : β → String) (value : β → α)
    (l : List β) (m : GoMap α) (x : β) (hnodup : (l.map key).Nodup) (hx : x ∈ l) :
    (l.foldl (fun acc x => acc.set (key x) (value x)) m).get (key x) = some (value x) := by
  rw [GoMap.get_foldl_set]
  have hrev : (l.reverse.map key).Nodup := by
    rw [List.map_reverse]
    exact List.nodup_reverse.mpr hnodup
  rw [find?_of_nodup key l.reverse x hrev (List.mem_reverse.mpr hx)]

theorem foldl_append_singleton {α β : Type} (f : α → β) (l : List α) :
    ∀ acc : List β, l.foldl (fun deps dep => deps ++ [f dep]) acc = acc ++ l.map f := by
  induction l with
  | nil => intro acc; simp
  | cons a rest ih =>
    intro acc
    rw [List.foldl_cons, ih]
    simp

theorem GoMap.nodup_set {α : Type} (m : GoMap α) (key : String) (value : α)
    (h : (m.entries.map (fun e => e.1)).Nodup) :
    ((m.set key value).entries.map (fun e => e.1)).Nodup := by
  unfold GoMap.set
  simp only [List.map_append, List.map_cons, List.map_nil]
  rw [List.nodup_append]
  refine ⟨?_, List.nodup_singleton _, ?_⟩
  · exact List.Nodup.sublist (List.Sublist.map _ (List.filter_sublist _)) h
  · intro k hk hk'
    rw [List.mem_singleton] at hk'
    subst hk'
    obtain ⟨e, he, hek⟩ := List.mem_map.mp hk
    have := (List.mem_filter.mp he).2
    simp [hek] at this

theorem GoMap.nodup_foldl_set {α β : Type} (key : β → String) (value : β → α) (l : List β) :
    ∀ m : GoMap α, (m.entries.map (fun e => e.1)).Nodup →
      ((l.foldl (fun acc x => acc.set (key x) (value x)) m).entries.map (fun e => e.1)).Nodup := by
  induction l with
  | nil => intro m h; exact h
  | cons a rest ih =>
    intro m h
    rw [List.foldl_cons]
    exact ih _ (GoMap.nodup_set m (key a) (value a) h)

theorem find?_reverse_of_nodup {β : Type} (key : β → String) (l : List β) (k : String)
    (hnodup : (l.map key).Nodup) :
    l.reverse.find? (fun y => key y == k) = l.find? (fun y => key y == k) := by
  cases hfind : l.find? (fun y => key y == k) with
  | none =>
    rw [List.find?_eq_none] at hfind ⊢
    intro x hx
    exact hfind x (List.mem_reverse.mp hx)
  | some x =>
    have hx : x ∈ l := List.mem_of_find?_eq_some hfind
    have hk : key x = k := by
      have := List.find?_some hfind
      simpa using this
    subst hk
    have hrev : (l.reverse.map key).Nodup := by
      rw [List.map_reverse]
      exact List.nodup_reverse.mpr hnodup
    exact find?_of_nodup key l.reverse x hrev (List.mem_reverse.mpr hx)

theorem valuesData_get (parsedData : GoMap String)
    (hnodup : (parsedData.entries.map (fun e => e.1)).Nodup) (k : String) :
    (parsedData.entries.foldl
        (fun values entry => values.set entry.1 ({ Value := entry.2 } : TfString))
        GoMap.empty).get k =
      (parsedData.get k).map (fun v => ({ Value := v } : TfString)) := by
  rw [GoMap.get_foldl_set (fun e : String × String => e.1)
    (fun e : String × String => ({ Value := e.2 } : TfString))]
  rw [find?_reverse_of_nodup (fun e : String × String => e.1) parsedData.entries k hnodup]
  unfold GoMap.get
  cases List.find? (fun e => e.1 == k) parsedData.entries with
  | none => rfl
  | some e => rfl

theorem jsonUnmarshalStringMap_nodup (data : String) :
    ((jsonUnmarshalStringMap data).entries.map (fun e => e.1)).Nodup := by
  unfold jsonUnmarshalStringMap
  split_ifs
  · split
    · exact GoMap.nodup_foldl_set _ _ _ _ List.nodup_nil
    · exact List.nodup_nil
  · exact List.nodup_nil

theorem jsonUnmarshalStringMap_get (text : String) (members : List (String × String))
    (h : EncodesStringMembers text members) (k : String) :
    (jsonUnmarshalStringMap text).get k = encodedValue members k := by
  obtain ⟨hvalid, hparse⟩ := h
  unfold jsonUnmarshalStringMap
  rw [if_pos hvalid, hparse]
  simp only
  rw [GoMap.get_foldl_set (fun member : List Char × JValue => String.mk member.1)
    (fun member : List Char × JValue => memberString member.2)]
  rw [← List.map_reverse, List.find?_map]
  unfold encodedValue
  cases hfind : List.find? (fun m : String × String => m.1 == k) members.reverse with
  | none =>
    have : List.find? ((fun x : List Char × JValue => String.mk x.1 == k) ∘
        fun m : String × String => (m.1.data, JValue.string m.2.data)) members.reverse = none := by
      rw [← hfind]
      rfl
    rw [this]
    rfl
  | some m =>
    have : List.find? ((fun x : List Char × JValue => String.mk x.1 == k) ∘
        fun m : String × String => (m.1.data, JValue.string m.2.data)) members.reverse =
        some m := by
      rw [← hfind]
      rfl
    rw [this]
    rfl

theorem platformRead_of_platform (client : Client) (ctx : Context)
    (req : PlatformConfigRequest) (platform : Platform)
    (hconfig : req.ConfigDiagnostics.HasError = false)
    (hget : client.GetPlatform req.Config.PlatformID.Value req.Config.PlatformVersion.Value
      = .ok (some platform)) :
    PlatformDataSource.Read client ctx req =
      { Diagnostics := req.ConfigDiagnostics,
        State := some { req.Config with
          Name := { Value := platform.Name },
          Description := StringValueOrNull platform.Description,
          CatalogedDate := StringValueOrNull platform.CatalogedDate,
          MaxAPIVersion := { Value := platform.MaxAPIVersion },
          MinAPIVersion := { Value := platform.MinAPIVersion },
          Services := platform.Services.foldl serviceEntry GoMap.empty,
          Configs := platform.Configs.foldl configEntry GoMap.empty } } := by
  simp only [PlatformDataSource.Read, List.nil_append, hconfig, hget]
  simp

theorem platformRead_state (client : Client) (ctx : Context) (req : PlatformConfigRequest)
    (d : PlatformDataSourceModel)
    (hd : (PlatformDataSource.Read client ctx req).State = some d) :
    ∃ platform, client.GetPlatform req.Config.PlatformID.Value
        req.Config.PlatformVersion.Value = .ok (some platform) ∧
      req.ConfigDiagnostics.HasError = false ∧
      d.Description = StringValueOrNull platform.Description ∧
      d.CatalogedDate = StringValueOrNull platform.CatalogedDate := by
  by_cases hdiag : req.ConfigDiagnostics.HasError = true
  · simp [PlatformDataSource.Read, hdiag] at hd
  · have hdiag' : req.ConfigDiagnostics.HasError = false := by simpa using hdiag
    cases hget : client.GetPlatform req.Config.PlatformID.Value
        req.Config.PlatformVersion.Value with
    | error e => simp [PlatformDataSource.Read, hdiag', hget] at hd
    | ok p =>
      cases p with
      | none => simp [PlatformDataSource.Read, hdiag', hget] at hd
      | some platform =>
        rw [platformRead_of_platform client ctx req platform hdiag' hget] at hd
        simp only [Option.some.injEq] at hd
        subst hd
        exact ⟨platform, rfl, hdiag', rfl, rfl⟩

/-- C14: for a configuration that decodes and a platform returned by
`GetPlatform` whose service names are distinct and whose config names are
distinct, `Read` writes a state in which `services[name].dependencies` and
`services[name].delete_dependencies` are the server's lists in the server's
order, and `configs[name].config` is, for every config whose config string is
a JSON object of string values, the mapping that string encodes; in the
scenario, the dependencies `a`, `b` of `s1` stay `a`, `b` and the config
string with member `k` of value `v` gives `config["k"] = "v"`. -/
theorem platformRead_projects_catalog (client : Client) (ctx : Context)
    (req : PlatformConfigRequest) (platform : Platform)
    (hconfig : req.ConfigDiagnostics.HasError = false)
    (hget : client.GetPlatform req.Config.PlatformID.Value req.Config.PlatformVersion.Value
      = .ok (some platform))
    (hservices : (platform.Services.map (fun service => service.Name)).Nodup)
    (hconfigs : (platform.Configs.map (fun config => config.Name)).Nodup) :
    (∃ d, PlatformDataSource.Read client ctx req =
        { Diagnostics := req.ConfigDiagnostics, State := some d } ∧
      (∀ service, service ∈ platform.Services →
        ∃ obj, d.Services.get service.Name = some obj ∧
          obj.Dependencies = service.Dependencies.map (fun dep => { Value := dep }) ∧
          obj.DeleteDependencies =
            service.Delete_dependencies.map (fun dep => { Value := dep })) ∧
      (∀ config, config ∈ platform.Configs →
        ∀ members, EncodesStringMembers config.Config members →
        ∃ obj, d.Configs.get config.Name = some obj ∧
          ∀ key, obj.Config.get key =
            (encodedValue members key).map (fun v => { Value := v }))) ∧
    ((PlatformDataSource.Read (platformClient scenarioPlatform) background
        stubPlatformConfig).State.bind
      (fun d => (d.Services.get "s1").map (fun obj => obj.Dependencies))
      = some [{ Value := "a" }, { Value := "b" }] ∧
    (PlatformDataSource.Read (platformClient scenarioPlatform) background
        stubPlatformConfig).State.bind
      (fun d => (d.Configs.get "c1").bind (fun obj => obj.Config.get "k"))
      = some { Value := "v" }) := by
  refine ⟨⟨_, platformRead_of_platform client ctx req platform hconfig hget, ?_, ?_⟩,
    rfl, rfl⟩
  · intro service hmem
    have hentry := GoMap.get_foldl_set_of_nodup (fun service : PlatformService => service.Name)
      (fun service : PlatformService =>
        ({ ID := { Value := service.PlatformServiceID },
           Name := { Value := service.Name },
           Namespace := { Value := service.Namespace },
           ServiceID := { Value := service.ServiceID },
           ServiceVersion := { Value := service.ServiceVersion },
           Dependencies :=
             service.Dependencies.foldl (fun deps dep => deps ++ [{ Value := dep }]) [],
           DeleteDependencies :=
             service.Delete_dependencies.foldl (fun deps dep => deps ++ [{ Value := dep }]) [] }
          : ServiceObject))
      platform.Services GoMap.empty service hservices hmem
    refine ⟨_, hentry, ?_, ?_⟩
    · simp only
      rw [foldl_append_singleton]
      rfl
    · simp only
      rw [foldl_append_singleton]
      rfl
  · intro config hmem members hmembers
    have hentry := GoMap.get_foldl_set_of_nodup (fun config : PlatformConfig => config.Name)
      (fun config : PlatformConfig =>
        ({ ID := { Value := config.PlatformConfigID },
           Name := { Value := config.Name },
           Config := (jsonUnmarshalStringMap config.Config).entries.foldl
             (fun values entry => values.set entry.1 { Value := entry.2 }) GoMap.empty }
          : ConfigObject))
      platform.Configs GoMap.empty config hconfigs hmem
    refine ⟨_, hentry, ?_⟩
    intro key
    simp only
    rw [valuesData_get _ (jsonUnmarshalStringMap_nodup config.Config),
      jsonUnmarshalStringMap_get config.Config members hmembers]

theorem scenarioPlatform_encodes :
    EncodesStringMembers "\x7b\"k\":\"v\"\x7d" [("k", "v")] :=
  ⟨rfl, rfl⟩

theorem platformRead_projects_catalog_witness :
    ∃ d, PlatformDataSource.Read (platformClient scenarioPlatform) background
          stubPlatformConfig =
        { Diagnostics := stubPlatformConfig.ConfigDiagnostics, State := some d } ∧
      (∃ obj, d.Services.get scenarioService.Name = some obj ∧
        obj.Dependencies = scenarioService.Dependencies.map (fun dep => { Value := dep }) ∧
        obj.DeleteDependencies =
          scenarioService.Delete_dependencies.map (fun dep => { Value := dep })) ∧
      (∃ obj, d.Configs.get scenarioConfig.Name = some obj ∧
        ∀ key, obj.Config.get key =
          (encodedValue [("k", "v")] key).map (fun v => { Value := v })) := by
  obtain ⟨⟨d, hread, hservice, hconfig⟩, _⟩ :=
    platformRead_projects_catalog (platformClient scenarioPlatform) background
      stubPlatformConfig scenarioPlatform rfl rfl (by decide) (by decide)
  exact ⟨d, hread, hservice scenarioService (List.mem_singleton.mpr rfl),
    hconfig scenarioConfig (List.mem_singleton.mpr rfl) [("k", "v")] scenarioPlatform_encodes⟩

/-! ## Optional strings between the server and the host -/

theorem stringValueOrNull_valueStringOrNull (s : TfString)
    (h : s = { Null := true } ∨ (s.Null = false ∧ s.Unknown = false)) :
    StringValueOrNull (ValueStringOrNull s) = s := by
  rcases h with h | ⟨hn, hu⟩
  · subst h
    rfl
  · obtain ⟨u, n, v⟩ := s
    simp only at hn hu
    subst hn hu
    rfl

/-- C11, as stated, fails: `StringValueOrNull` maps a present empty string to
the known empty string, not to null; a cluster returned with `ca` and
`server` present and empty is read back with both known and empty, and so is
the description of a platform. -/
theorem stringValueOrNull_keeps_empty :
    StringValueOrNull (some "") = { Value := "" } ∧
    (StringValueOrNull (some "")).IsNull = false ∧
    (∃ d, ClusterResource.Read (clusterClient emptyFieldsCluster) background stubClusterState =
        .ok { Diagnostics := [], State := some d } ∧
      d.Ca = { Value := "" } ∧ d.Server = { Value := "" }) ∧
    (∃ d, (PlatformDataSource.Read (platformClient scenarioPlatform) background
        stubPlatformConfig).State = some d ∧
      d.Description = { Value := "" }) :=
  ⟨rfl, rfl, ⟨_, rfl, rfl, rfl⟩, ⟨_, rfl, rfl⟩⟩

/-- C11, amended: a field the server returns as absent is mapped to the null
tri-state value and a field it returns as present is mapped to the known
string with that value, the empty string included: `StringValueOrNull` returns
null exactly for an absent string; whenever `ClusterResource.Read` writes
state, `ca` and `server` are `StringValueOrNull` of the server's fields, and
whenever `PlatformDataSource.Read` writes state, so are `description` and
`cataloged_date`. -/
theorem stringValueOrNull_null_iff_absent :
    (∀ p, (StringValueOrNull p).IsNull = true ↔ p = none) ∧
    (∀ v, StringValueOrNull (some v) = { Value := v }) ∧
    (∀ (client : Client) (ctx : Context) (req : ClusterStateRequest) (run : ClusterRun)
        (d : ClusterResourceModel),
      ClusterResource.Read client ctx req = .ok run → run.State = some d →
      ∃ cluster, client.GetCluster req.State.ClusterID.Value = .ok cluster ∧
        d.Ca = StringValueOrNull cluster.Ca ∧ d.Server = StringValueOrNull cluster.Server) ∧
    (∀ (client : Client) (ctx : Context) (req : PlatformConfigRequest)
        (d : PlatformDataSourceModel),
      (PlatformDataSource.Read client ctx req).State = some d →
      ∃ platform, client.GetPlatform req.Config.PlatformID.Value
          req.Config.PlatformVersion.Value = .ok (some platform) ∧
        d.Description = StringValueOrNull platform.Description ∧
        d.CatalogedDate = StringValueOrNull platform.CatalogedDate) := by
  refine ⟨?_, fun _ => rfl, ?_, ?_⟩
  · intro p
    cases p with
    | none => exact ⟨fun _ => rfl, fun _ => rfl⟩
    | some v =>
      constructor
      · intro h
        cases h
      · intro h
        cases h
  · intro client ctx req run d h hd
    obtain ⟨cluster, minified, hget, _, hdeq⟩ := clusterRead_state client ctx req run d h hd
    exact ⟨cluster, hget, by rw [hdeq], by rw [hdeq]⟩
  · intro client ctx req d hd
    obtain ⟨platform, hget, _, hdesc, hdate⟩ := platformRead_state client ctx req d hd
    exact ⟨platform, hget, hdesc, hdate⟩

theorem stringValueOrNull_null_iff_absent_witness :
    (∃ cluster, (clusterClient emptyFieldsCluster).GetCluster
          stubClusterState.State.ClusterID.Value = .ok cluster ∧
        ({ stubClusterReadState with Ca := { Value := "" }, Server := { Value := "" } }
          : ClusterResourceModel).Ca = StringValueOrNull cluster.Ca ∧
        ({ stubClusterReadState with Ca := { Value := "" }, Server := { Value := "" } }
          : ClusterResourceModel).Server = StringValueOrNull cluster.Server) ∧
    ((StringValueOrNull none).IsNull = true ↔ (none : Option String) = none) :=
  ⟨stringValueOrNull_null_iff_absent.2.2.1 (clusterClient emptyFieldsCluster) background
      stubClusterState
      { Diagnostics := [],
        State := some { stubClusterReadState with
          Ca := { Value := "" }, Server := { Value := "" } } }
      { stubClusterReadState with Ca := { Value := "" }, Server := { Value := "" } } rfl rfl,
   stringValueOrNull_null_iff_absent.1 none⟩

/-! ## Writing a cluster and reading it back -/

theorem clusterUpdate_storing (ctx : Context) (req : ClusterPlanRequest)
    (hplan : req.PlanDiagnostics.HasError = false) :
    ClusterResource.Update storingClient ctx req =
      { Diagnostics := req.PlanDiagnostics, State := some req.Plan,
        sent := some (.update req.Plan.ClusterID.Value (ValueStringOrNull req.Plan.Name)
          (ValueStringOrNull req.Plan.Server) (ValueStringOrNull req.Plan.Ca)
          (ValueStringOrNull req.Plan.Token) (ValueStringOrNull req.Plan.ApiVersion)
          (ValueStringOrNull req.Plan.Context)),
        slept := 0 } := by
  simp [ClusterResource.Update, hplan, storingClient]

theorem clusterCreate_storing (ctx : Context) (req : ClusterPlanRequest)
    (hplan : req.PlanDiagnostics.HasError = false) :
    ClusterResource.Create storingClient ctx req =
      { Diagnostics := req.PlanDiagnostics,
        State := some { req.Plan with ClusterID := { Value := "C-1" } },
        sent := some (.create req.Plan.Name.Value req.Plan.Server.Value req.Plan.Ca.Value
          req.Plan.Token.Value req.Plan.ApiVersion.Value req.Plan.Context.Value),
        slept := 40 } := by
  simp [ClusterResource.Create, hplan, storingClient, storedCluster]

/-- C12, as stated, fails: with the storing stub server and a context that is
the JSON text `1`, a cluster created with `ca` and `server` null is read back
with both equal to the known empty string, not null; `Create` sends the same
request for a null attribute and for a known empty one. -/
theorem clusterCreate_null_reads_back_empty :
    (∃ d, readBack (ClusterResource.Create storingClient background
          (clusterPlan { Null := true } { Null := true } { Value := "1" })) background =
        some (.ok { Diagnostics := [], State := some d }) ∧
      d.Ca = { Value := "" } ∧ d.Ca ≠ { Null := true } ∧
      d.Server = { Value := "" } ∧ d.Server ≠ { Null := true }) ∧
    (ClusterResource.Create storingClient background
        (clusterPlan { Null := true } { Null := true } { Value := "1" })).sent =
      (ClusterResource.Create storingClient background
        (clusterPlan { Value := "" } { Value := "" } { Value := "1" })).sent :=
  ⟨⟨_, rfl, rfl, by decide, rfl, by decide⟩, rfl⟩

/-- C12, amended: against the stub server that stores the fields it is sent
and returns them unchanged, for a plan that decodes and whose context is a
known, valid, whitespace-free JSON text `v`: after `Update` then `Read`, the
context reads back as `v` and `ca` and `server` read back as written when
they are null or known (null as null, a known value as that value, the empty
string included); after `Create` then `Read`, the context reads back as `v`
and `ca` and `server` read back as the known string holding the `Value` sent,
so a known value reads back unchanged and null reads back as the known empty
string. -/
theorem clusterWrite_then_read (ctx : Context) (req : ClusterPlanRequest) (v : String)
    (hplan : req.PlanDiagnostics.HasError = false)
    (hctx : req.Plan.Context = { Value := v })
    (hvalid : jsonValid v.data = true)
    (hws : withoutInsignificantWhitespace v = v) :
    (∃ d, readBack (ClusterResource.Update storingClient ctx req) ctx =
        some (.ok { Diagnostics := [], State := some d }) ∧
      d.Context = { Value := v } ∧
      ((req.Plan.Ca = { Null := true } ∨
          (req.Plan.Ca.Null = false ∧ req.Plan.Ca.Unknown = false)) →
        d.Ca = req.Plan.Ca) ∧
      ((req.Plan.Server = { Null := true } ∨
          (req.Plan.Server.Null = false ∧ req.Plan.Server.Unknown = false)) →
        d.Server = req.Plan.Server)) ∧
    (∃ d, readBack (ClusterResource.Create storingClient ctx req) ctx =
        some (.ok { Diagnostics := [], State := some d }) ∧
      d.Context = { Value := v } ∧
      d.Ca = { Value := req.Plan.Ca.Value } ∧
      d.Server = { Value := req.Plan.Server.Value }) := by
  have hmin : MinifyJSONString v = .ok v := by
    rw [minify_of_valid v hvalid, hws]
  constructor
  · rw [clusterUpdate_storing ctx req hplan]
    simp only [readBack]
    have hc : (StringValueOrNull
        (storedCluster (.update req.Plan.ClusterID.Value (ValueStringOrNull req.Plan.Name)
          (ValueStringOrNull req.Plan.Server) (ValueStringOrNull req.Plan.Ca)
          (ValueStringOrNull req.Plan.Token) (ValueStringOrNull req.Plan.ApiVersion)
          (ValueStringOrNull req.Plan.Context))).Context) = { Value := v } := by
      rw [hctx]
      rfl
    rw [clusterRead_of_minified
      (clusterClient (storedCluster (.update req.Plan.ClusterID.Value
        (ValueStringOrNull req.Plan.Name) (ValueStringOrNull req.Plan.Server)
        (ValueStringOrNull req.Plan.Ca) (ValueStringOrNull req.Plan.Token)
        (ValueStringOrNull req.Plan.ApiVersion) (ValueStringOrNull req.Plan.Context))))
      ctx { StateDiagnostics := [], State := req.Plan }
      (storedCluster (.update req.Plan.ClusterID.Value
        (ValueStringOrNull req.Plan.Name) (ValueStringOrNull req.Plan.Server)
        (ValueStringOrNull req.Plan.Ca) (ValueStringOrNull req.Plan.Token)
        (ValueStringOrNull req.Plan.ApiVersion) (ValueStringOrNull req.Plan.Context)))
      v rfl rfl (by rw [hc]; exact hmin)]
    refine ⟨_, rfl, ?_, ?_, ?_⟩
    · simp only [hc]
    · intro h
      exact stringValueOrNull_valueStringOrNull _ h
    · intro h
      exact stringValueOrNull_valueStringOrNull _ h
  · rw [clusterCreate_storing ctx req hplan]
    simp only [readBack]
    have hc : (StringValueOrNull
        (storedCluster (.create req.Plan.Name.Value req.Plan.Server.Value req.Plan.Ca.Value
          req.Plan.Token.Value req.Plan.ApiVersion.Value req.Plan.Context.Value)).Context)
        = { Value := v } := by
      rw [hctx]
      rfl
    rw [clusterRead_of_minified
      (clusterClient (storedCluster (.create req.Plan.Name.Value req.Plan.Server.Value
        req.Plan.Ca.Value req.Plan.Token.Value req.Plan.ApiVersion.Value
        req.Plan.Context.Value)))
      ctx { StateDiagnostics := [], State := { req.Plan with ClusterID := { Value := "C-1" } } }
      (storedCluster (.create req.Plan.Name.Value req.Plan.Server.Value
        req.Plan.Ca.Value req.Plan.Token.Value req.Plan.ApiVersion.Value
        req.Plan.Context.Value))
      v rfl rfl (by rw [hc]; exact hmin)]
    refine ⟨_, rfl, ?_, rfl, rfl⟩
    simp only [hc]

theorem clusterWrite_then_read_witness :
    (∃ d, readBack (ClusterResource.Update storingClient background
          (clusterPlan { Null := true } { Value := "" } { Value := "1" })) background =
        some (.ok { Diagnostics := [], State := some d }) ∧
      d.Context = { Value := "1" } ∧
      d.Ca = { Null := true } ∧ d.Server = { Value := "" }) ∧
    (∃ d, readBack (ClusterResource.Create storingClient background
          (clusterPlan { Null := true } { Value := "" } { Value := "1" })) background =
        some (.ok { Diagnostics := [], State := some d }) ∧
      d.Context = { Value := "1" } ∧
      d.Ca = { Value := "" } ∧ d.Server = { Value := "" }) := by
  obtain ⟨⟨d, hread, hcontext, hca, hserver⟩, hcreate⟩ :=
    clusterWrite_then_read background
      (clusterPlan { Null := true } { Value := "" } { Value := "1" }) "1" rfl rfl rfl rfl
  exact ⟨⟨d, hread, hcontext, hca (Or.inl rfl), hserver (Or.inr ⟨rfl, rfl⟩)⟩, hcreate⟩

end Guku
